import Mathlib

/-!
Verification development for the decision-variable configuration and
bookkeeping subsystem of a multi-phase optimal-control modelling layer.

The development shallowly embeds the Python sources
`bioptim/optimization/optimization_variable.py` and
`bioptim/dynamics/configure_new_variable.py`.

Symbolic scalars of the algebra backend (casadi `MX`/`SX`) are an external
collaborator; a symbolic column vector is embedded as a `List` of scalar
entries over an arbitrary scalar type, and symbolic matrices that only ever
hold one column per evaluation point are embedded as lists of columns.
Fresh backend symbols created by `MX.sym` in `mx_reduced` are abstracted as
opaque rows (`Unit` entries), since no operation of this subsystem inspects
them.  Numeric scale factors (numpy float arrays) are embedded as `Rat`
vectors; none of the verified properties depend on float rounding.
-/

namespace Bioptim

/-- A synchronous Python exception, as raised by the subsystem. -/
inductive PyErr where
  | runtimeError (msg : String)
  | valueError (msg : String)
  | keyError (msg : String)
  | indexError (msg : String)
  | typeError (msg : String)
  | notImplementedError (msg : String)
  | attributeError (msg : String)
deriving DecidableEq

/-- Modelled from the spec: `BiMapping` (module `bioptim/misc/mapping.py` is not
part of the provided sources).  Two parallel integer sequences `to_second`
(reduced to full) and `to_first` (full to reduced); each entry is a
non-negative index, a negated index (sign flip) or a null marker (`none`).
Field order matches the Python constructor `BiMapping(to_second, to_first)`. -/
structure BiMapping where
  to_second : List (Option Int)
  to_first : List (Option Int)
deriving DecidableEq

/-- The identity mapping `BiMapping(range(n), range(n))`. -/
def BiMapping.identityMap (n : Nat) : BiMapping :=
  ⟨(List.range n).map (fun i => some (Int.ofNat i)),
   (List.range n).map (fun i => some (Int.ofNat i))⟩

/-! ## VariableScaling (`optimization_variable.py`) -/

/-- The possible runtime types of the `scaling` argument of
`VariableScaling.__init__`: `None`, a Python list, a numpy array, or an
already-built `VariableScaling` instance (carrying its stored vector). -/
inductive ScalingInput where
  | noneInput
  | listInput (l : List Rat)
  | arrayInput (l : List Rat)
  | vsInput (l : List Rat)
deriving DecidableEq

/-- What `VariableScaling.__init__` stores in `self.scaling`: a numpy array,
or (when handed an existing `VariableScaling`, which passes the isinstance
check unconverted) the instance itself. -/
inductive StoredScaling where
  | arr (l : List Rat)
  | vsObj (l : List Rat)
deriving DecidableEq

structure VariableScaling where
  scaling : StoredScaling
deriving DecidableEq

/-- `VariableScaling.__init__`: lists are converted with `np.array`; numpy
arrays and `VariableScaling` instances are stored as-is; anything else
(here: `None`) raises `RuntimeError`. -/
def VariableScaling.init : ScalingInput → Except PyErr VariableScaling
  | .listInput l => .ok ⟨.arr l⟩
  | .arrayInput l => .ok ⟨.arr l⟩
  | .vsInput l => .ok ⟨.vsObj l⟩
  | .noneInput =>
    .error (.runtimeError "Scaling must be a list or a numpy array, not <class 'NoneType'>")

/-- numpy column assignment `dest[:, i] = src` for a destination column of
`n` rows: succeeds verbatim when lengths agree, broadcasts a singleton, and
raises `ValueError` otherwise. -/
def npSetColumn (src : List Rat) (n : Nat) : Except PyErr (List Rat) :=
  if src.length = n then .ok src
  else if src.length = 1 then .ok (List.replicate n (src.headD 0))
  else .error (.valueError "could not broadcast input array")

/-- `VariableScaling.to_vector(n_elements, n_shooting)`: checks the stored
length, then tiles the scale vector `n_shooting` times into a flat column.
On a `VariableScaling`-valued `scaling` the attribute access `.shape` fails. -/
def VariableScaling.to_vector (v : VariableScaling) (n_elements n_shooting : Nat) :
    Except PyErr (List Rat) :=
  match v.scaling with
  | .arr l =>
    if l.length ≠ n_elements then
      .error (.runtimeError "The number of elements in the scaling is not the same as the number of elements")
    else
      .ok (List.flatten (List.replicate n_shooting l))
  | .vsObj _ => .error (.attributeError "VariableScaling object has no attribute shape")

/-- `VariableScaling.to_array(n_elements, n_shooting)`: builds an
`n_elements x n_shooting` grid (represented as the list of its
`n_shooting` columns) and assigns the stored vector into every column. -/
def VariableScaling.to_array (v : VariableScaling) (n_elements n_shooting : Nat) :
    Except PyErr (List (List Rat)) :=
  match v.scaling with
  | .arr l => do
    let col ← npSetColumn l n_elements
    .ok (List.replicate n_shooting col)
  | .vsObj _ => .error (.valueError "could not broadcast input array")

/-! ## VariableScalingList (`optimization_variable.py`) -/

structure VariableScalingList where
  entries : List (String × Int × VariableScaling)
deriving DecidableEq

/-- The storing branch of `VariableScalingList.add`.  The underlying
`OptionDict._add` (module `bioptim/misc/options.py` is not part of the
provided sources) is Modelled from the spec: "stores a copy" — it constructs
a `VariableScaling` from the argument (raising whatever the constructor
raises) and, on success, records it under `(name, phase)`. -/
def VariableScalingList.addCore (L : VariableScalingList) (name : String)
    (scaling : ScalingInput) (phase : Int) : VariableScalingList × Option PyErr :=
  match VariableScaling.init scaling with
  | .ok vs => (⟨L.entries ++ [(name, phase, vs)]⟩, none)
  | .error e => (L, some e)

/-- `VariableScalingList.add`: when handed an existing `VariableScaling`
instance it re-invokes itself as `self.add(name, phase=phase)`, i.e. with
`scaling` at its default `None`; otherwise it delegates to `_add`. -/
def VariableScalingList.add (L : VariableScalingList) (name : String)
    (scaling : ScalingInput) (phase : Int) : VariableScalingList × Option PyErr :=
  match scaling with
  | .vsInput _ => L.addCore name .noneInput phase
  | s => L.addCore name s phase

/-! ## OptimizationVariable / OptimizationVariableList (`optimization_variable.py`)

The Python `OptimizationVariable` doubles as the record stored inside an
`OptimizationVariableList` and as the view handed to consumers; the stored
records carry a live back-reference to their (mutable) parent list.  The
embedding splits the two roles: `OptimizationVariableEntry` is the stored
record, and `OptimizationVariable` is the view, whose `parent_list` field
holds the state of the parent at the moment the view is produced (which is
what the live Python reference denotes at that moment). -/

structure OptimizationVariableEntry (α : Type) where
  name : String
  mx : List α
  index : List Nat
  mapping : Option BiMapping
deriving DecidableEq

structure OptimizationVariableList (α : Type) where
  elements : List (OptimizationVariableEntry α) := []
  fake_elements : List (OptimizationVariableEntry α) := []
  /-- `_cx`: the concatenated symbolic vector, start-of-interval column. -/
  cx_start : List α := []
  /-- `_cx_end`: the concatenated symbolic vector, end-of-interval column. -/
  cx_end : List α := []
  /-- `_cx_intermediates`: one concatenated column per intermediate stage. -/
  cx_intermediates : List (List α) := []
  /-- `mx_reduced`: rows are fresh backend symbols, abstracted as opaque. -/
  mx_reduced : List Unit := []
deriving DecidableEq

structure OptimizationVariable (α : Type) where
  name : String
  mx : List α
  index : List Nat
  mapping : Option BiMapping := none
  parent_list : Option (OptimizationVariableList α) := none
deriving DecidableEq

/-- The view of a stored entry, with the given parent list attached. -/
def OptimizationVariableEntry.toVar {α : Type} (e : OptimizationVariableEntry α)
    (parent : Option (OptimizationVariableList α)) : OptimizationVariable α :=
  ⟨e.name, e.mx, e.index, e.mapping, parent⟩

namespace OptimizationVariableList

variable {α : Type}

/-- Property `mx`: the MX of all (real) elements concatenated together. -/
def mxAll (L : OptimizationVariableList α) : List α :=
  L.elements.flatMap (fun e => e.mx)

/-- Property `cx`: the start column of the concatenated vector (`_cx[:, 0]`). -/
def cx (L : OptimizationVariableList α) : List α := L.cx_start

/-- Property `cx_end` of the list (`_cx_end[:, 0]`). -/
def cxEndCol (L : OptimizationVariableList α) : List α := L.cx_end

/-- Property `shape`: the row count of `_cx`. -/
def shape (L : OptimizationVariableList α) : Nat := L.cx_start.length

/-- `__len__`: the number of real elements. -/
def size (L : OptimizationVariableList α) : Nat := L.elements.length

/-- `keys()`: iterates the list, which yields `self[i].name` for
`i = 0 .. len(self)-1`, i.e. the real elements' names. -/
def keys (L : OptimizationVariableList α) : List String :=
  L.elements.map (fun e => e.name)

/-- `__contains__`: scans real elements, then fake elements. -/
def containsName (L : OptimizationVariableList α) (item : String) : Bool :=
  L.elements.any (fun e => e.name == item) || L.fake_elements.any (fun e => e.name == item)

/-- `__getitem__` on a string key: `"all"` yields a parentless pseudo-element
spanning every real element's indices; otherwise the first matching real
element, else the first matching fake element, else `KeyError`. -/
def getStr (L : OptimizationVariableList α) (item : String) :
    Except PyErr (OptimizationVariable α) :=
  if item == "all" then
    .ok ⟨"all", L.mxAll, L.elements.flatMap (fun e => e.index), none, none⟩
  else
    match L.elements.find? (fun e => e.name == item) with
    | some e => .ok (e.toVar (some L))
    | none =>
      match L.fake_elements.find? (fun e => e.name == item) with
      | some e => .ok (e.toVar (some L))
      | none => .error (.keyError (item ++ " is not in the list"))

/-- `__getitem__` on an integer key: positional access to the real elements. -/
def getIdx (L : OptimizationVariableList α) (i : Nat) :
    Except PyErr (OptimizationVariable α) :=
  match L.elements.get? i with
  | some e => .ok (e.toVar (some L))
  | none => .error (.indexError "list index out of range")

/-- `append_fake`: registers a composite accessor without touching anything
but the fake-element sequence. -/
def append_fake (L : OptimizationVariableList α) (name : String) (index : List Nat)
    (mx : List α) (bimapping : Option BiMapping) : OptimizationVariableList α :=
  { L with fake_elements := L.fake_elements ++ [⟨name, mx, index, bimapping⟩] }

/-- The intermediate-stage accumulation loop of `append`:
`for i, c in enumerate(cx[1:-1]): ...` appends a new stage slot when `i`
is past the current stage count, and vertically concatenates into the
existing slot otherwise. -/
def updateIntermediates : List (List α) → List (List α) → List (List α)
  | inter, [] => inter
  | [], c :: cs => c :: updateIntermediates [] cs
  | x :: xs, c :: cs => (x ++ c) :: updateIntermediates xs cs

/-- `append`: establishes the next contiguous index range, extends the
start/end concatenated vectors with the first/last supplied columns,
accumulates middle columns into the per-stage intermediates, extends the
reduced symbolic placeholder, and records the new real element.  An empty
column list fails on `cx[0]` before any mutation.  Errors carry the list
state at raise time. -/
def append (L : OptimizationVariableList α) (name : String) (cxCols : List (List α))
    (mx : List α) (bimapping : Option BiMapping) :
    Except (PyErr × OptimizationVariableList α) (OptimizationVariableList α) :=
  match cxCols with
  | [] => .error (.indexError "list index out of range", L)
  | c0 :: rest =>
    let index := List.range' L.cx_start.length c0.length
    let lastCol := rest.getLastD c0
    let mids := rest.dropLast
    .ok { L with
      cx_start := L.cx_start ++ c0
      cx_end := L.cx_end ++ lastCol
      cx_intermediates := updateIntermediates L.cx_intermediates mids
      mx_reduced := L.mx_reduced ++ List.replicate c0.length ()
      elements := L.elements ++ [⟨name, mx, index, bimapping⟩] }

/-- `copy_from_scaled`: identical growth of the concatenated vectors and
index ranges; the reduced placeholder instead gains the single scalar
`scaled_optimization_variable.mx_reduced[0] * scaling` (a fresh-symbol-free
expression, abstracted as one opaque row; `scaled_mx_reduced` is the
`mx_reduced` attribute of the passed object).  Indexing an empty
`mx_reduced` fails after the concatenated vectors were already extended. -/
def copy_from_scaled (L : OptimizationVariableList α) (name : String)
    (cxCols : List (List α)) (mx : List α) (bimapping : Option BiMapping)
    (scaled_mx_reduced : List Unit) (scaling : List Rat) :
    Except (PyErr × OptimizationVariableList α) (OptimizationVariableList α) :=
  match cxCols with
  | [] => .error (.indexError "list index out of range", L)
  | c0 :: rest =>
    let index := List.range' L.cx_start.length c0.length
    let lastCol := rest.getLastD c0
    let mids := rest.dropLast
    let L1 := { L with
      cx_start := L.cx_start ++ c0
      cx_end := L.cx_end ++ lastCol
      cx_intermediates := updateIntermediates L.cx_intermediates mids }
    let _ := scaling
    match scaled_mx_reduced.head? with
    | none => .error (.runtimeError "out of bounds", L1)
    | some _ => .ok { L1 with
        mx_reduced := L1.mx_reduced ++ [()]
        elements := L1.elements ++ [⟨name, mx, index, bimapping⟩] }

end OptimizationVariableList

/-- Row extraction `vec[index, :]` on a column: every listed row must exist. -/
def selectRows {α : Type} (col : List α) (index : List Nat) : Except PyErr (List α) :=
  index.mapM (fun i =>
    match col.get? i with
    | some x => .ok x
    | none => .error (.indexError "out of bounds"))

/-- Property `OptimizationVariable.cx`: the parent's concatenated start
column restricted to this element's index rows; raises `RuntimeError` when
the element has no parent list. -/
def OptimizationVariable.cxSeg {α : Type} (v : OptimizationVariable α) :
    Except PyErr (List α) :=
  match v.parent_list with
  | none => .error (.runtimeError "OptimizationVariable must have been created by OptimizationVariableList to have a cx. Typically 'all' cannot be used")
  | some L => selectRows L.cx v.index

/-- Property `OptimizationVariable.cx_end`: same, on the end column. -/
def OptimizationVariable.cxEndSeg {α : Type} (v : OptimizationVariable α) :
    Except PyErr (List α) :=
  match v.parent_list with
  | none => .error (.runtimeError "OptimizationVariable must have been created by OptimizationVariableList to have a cx. Typically 'all' cannot be used")
  | some L => selectRows L.cxEndCol v.index

/-! ## Sequences of real-element creation calls -/

/-- One real-element creating call on an `OptimizationVariableList`:
either `append` or `copy_from_scaled`. -/
inductive VarListCall (α : Type) where
  | app (name : String) (cxCols : List (List α)) (mx : List α) (bm : Option BiMapping)
  | copyScaled (name : String) (cxCols : List (List α)) (mx : List α) (bm : Option BiMapping)
      (scaled_mx_reduced : List Unit) (scaling : List Rat)
deriving DecidableEq

/-- The column list a call supplies. -/
def VarListCall.cxCols {α : Type} : VarListCall α → List (List α)
  | .app _ cx _ _ => cx
  | .copyScaled _ cx _ _ _ _ => cx

/-- Whether the call is a plain `append`. -/
def VarListCall.isApp {α : Type} : VarListCall α → Bool
  | .app _ _ _ _ => true
  | .copyScaled _ _ _ _ _ _ => false

/-- Execute one call. -/
def runCall {α : Type} (L : Bioptim.OptimizationVariableList α) :
    VarListCall α → Except (PyErr × Bioptim.OptimizationVariableList α) (Bioptim.OptimizationVariableList α)
  | .app n cx mx bm => L.append n cx mx bm
  | .copyScaled n cx mx bm sm sc => L.copy_from_scaled n cx mx bm sm sc

/-- Execute a sequence of calls, stopping at the first raised exception. -/
def runCalls {α : Type} (L : Bioptim.OptimizationVariableList α) :
    List (VarListCall α) → Except (PyErr × Bioptim.OptimizationVariableList α) (Bioptim.OptimizationVariableList α)
  | [] => .ok L
  | c :: cs =>
    match runCall L c with
    | .ok L' => runCalls L' cs
    | .error e => .error e

/-- The column constraint of claim C1: a non-empty column list whose columns
all have the same number of rows. -/
def colsHomogeneous {α : Type} (cxCols : List (List α)) : Prop :=
  cxCols ≠ [] ∧ ∀ col ∈ cxCols, col.length = (cxCols.headD []).length

instance {α : Type} [DecidableEq α] (cxCols : List (List α)) :
    Decidable (colsHomogeneous cxCols) := by
  unfold colsHomogeneous
  infer_instance

/-- The real elements' index ranges are consecutive `range'` blocks
starting at `k`. -/
def contiguousFromB (k : Nat) : List (List Nat) → Bool
  | [] => true
  | idx :: rest => (idx == List.range' k idx.length) && contiguousFromB (k + idx.length) rest

/-- The sum of all real elements' index-range lengths. -/
def sumIndexLens {α : Type} (L : Bioptim.OptimizationVariableList α) : Nat :=
  (L.elements.map (fun e => e.index.length)).sum

/-! ## The variable-configuration orchestrator (`configure_new_variable.py`)

`NewVariableConfiguration.__init__` mutates the phase record (`nlp`) held
inside the problem record (`ocp`) and raises synchronously; it is embedded
as a state-and-error monad over the problem state, where an exception
carries the state at raise time (Python mutations persist past a raise).
The plotting collaborator is out of scope (spec section 1); plot
registration is embedded as the `nlp.plot` dictionary's key set only. -/

inductive PhaseDynamics where
  | SHARED_DURING_THE_PHASE
  | ONE_PER_NODE
deriving DecidableEq

inductive ControlType where
  | CONSTANT
  | LINEAR_CONTINUOUS
deriving DecidableEq

/-- A scalar symbolic expression of the algebra backend, as far as this
subsystem builds them: labelled fresh symbols and scale multiples. -/
inductive CExpr where
  | sym (label : String)
  | mulScale (e : CExpr) (c : Rat)
deriving DecidableEq

/-- Association-list lookup on string-keyed stores (Python dict access). -/
def assocFind? {β : Type} (l : List (String × β)) (k : String) : Option β :=
  (l.find? (fun q => q.1 == k)).map (fun q => q.2)

/-- Python `key in dict`. -/
def assocContains {β : Type} (l : List (String × β)) (k : String) : Bool :=
  l.any (fun q => q.1 == k)

/-- Python `dict[key] = value`: replace in place, else append. -/
def assocSet {β : Type} : List (String × β) → String → β → List (String × β)
  | [], k, v => [(k, v)]
  | (k', v') :: rest, k, v =>
    if k' == k then (k, v) :: rest else (k', v') :: assocSet rest k v

/-- Modelled from the spec: the per-kind, per-node variable container
(`OptimizationVariableContainer`; the class is not part of the provided
sources — only its `append`/`scaled`/`unscaled`/`node_index`/`__contains__`
uses in `configure_new_variable.py` are).  It owns one scaled and one
unscaled `OptimizationVariableList` per node, remembers each variable's
original column set (`original_cx`) per node, and under the
"one variable set for the entire phase" policy resolves every node index
to node 0 (spec sections 3 and 4.4). -/
structure OptimizationVariableContainer where
  phase_dynamics : PhaseDynamics
  scaled : List (OptimizationVariableList CExpr)
  unscaled : List (OptimizationVariableList CExpr)
  /-- Per node, each variable's `original_cx`: the full node-major column
  structure it was built from (what the copy branch re-reads). -/
  originals : List (List (String × List (List (List CExpr))))
  node_index : Nat := 0
deriving DecidableEq

namespace OptimizationVariableContainer

/-- The `node_index` setter: under shared-per-phase allocation every index
resolves to 0. -/
def setNodeIndex (c : OptimizationVariableContainer) (v : Nat) :
    OptimizationVariableContainer :=
  { c with node_index := if c.phase_dynamics == .ONE_PER_NODE then v else 0 }

/-- Container membership (`name in nlp.<kind>`): the registered names. -/
def containsName (c : OptimizationVariableContainer) (name : String) : Bool :=
  (c.unscaled.headD {}).containsName name

/-- `append(name, cx, cx_scaled, mx, mapping, node_index)`: append the
unscaled and scaled column sets into the respective per-node lists and
remember the original column set. -/
def appendVar (c : OptimizationVariableContainer) (name : String)
    (cx cx_scaled : List (List CExpr)) (mx : List CExpr) (bm : BiMapping)
    (node_index : Nat) (origFull : List (List (List CExpr))) :
    Except PyErr OptimizationVariableContainer :=
  match c.unscaled.get? node_index, c.scaled.get? node_index with
  | some Lu, some Ls => do
    let Lu' ← (Lu.append name cx mx (some bm)).mapError (fun q => q.1)
    let Ls' ← (Ls.append name cx_scaled mx (some bm)).mapError (fun q => q.1)
    .ok { c with
      unscaled := c.unscaled.set node_index Lu'
      scaled := c.scaled.set node_index Ls'
      originals := c.originals.set node_index
        (assocSet (c.originals.getD node_index []) name origFull) }
  | _, _ => .error (.indexError "list index out of range")

end OptimizationVariableContainer

/-! ### Fatigue model data

Modelled from the spec (section 4.6): the fatigue classes
(`FatigueList`, `MultiFatigueInterface`, the per-element sub-models with
their suffix sets, split-controls and multi-interface flags) are not part
of the provided sources; only their uses in
`_manage_fatigue_to_new_variable` are. -/

structure FatigueSubModel where
  /-- `model.suffix(VariableType.STATES)`. -/
  state_suffix : List String
deriving DecidableEq

structure FatigueModels where
  /-- `dof.models.models`, keyed by meta-suffix. -/
  models : List (String × FatigueSubModel)
  /-- `isinstance(dof.models, MultiFatigueInterface)`. -/
  multi_interface : Bool
  split_controls : Bool
deriving DecidableEq

structure FatigueDof where
  models : FatigueModels
deriving DecidableEq

structure FatigueVar where
  /-- The per-scalar-element entries (`fatigue_var[0]`, ...). -/
  dofs : List FatigueDof
  /-- `fatigue_var.suffix`: the meta-suffixes. -/
  suffix : List String
deriving DecidableEq

structure FatigueList where
  entries : List (String × FatigueVar)
deriving DecidableEq

def FatigueList.find? (f : FatigueList) (name : String) : Option FatigueVar :=
  assocFind? f.entries name

/-- The per-phase record (`nlp`), restricted to the fields the orchestrator
reads and writes.  Static configuration fields first, then the mutable
stores. -/
structure NonLinearProgram where
  phase_idx : Nat
  phase_dynamics : PhaseDynamics
  use_states_from_phase_idx : Option Nat
  use_states_dot_from_phase_idx : Option Nat
  use_controls_from_phase_idx : Option Nat
  ns : Nat
  n_states_nodes : Nat
  n_controls_nodes : Nat
  control_type : ControlType
  /-- `nlp.ode_solver.n_required_cx`. -/
  ode_solver_n_required_cx : Nat
  variable_mappings : List (String × BiMapping)
  x_init : List (String × Nat)
  u_init : List (String × Nat)
  a_init : List (String × Nat)
  x_scaling : List (String × List Rat)
  xdot_scaling : List (String × List Rat)
  u_scaling : List (String × List Rat)
  a_scaling : List (String × List Rat)
  states : OptimizationVariableContainer
  controls : OptimizationVariableContainer
  states_dot : OptimizationVariableContainer
  algebraic_states : OptimizationVariableContainer
  /-- The key set of `nlp.plot`. -/
  plot : List String
deriving DecidableEq

/-- The problem record (`ocp`), holding the phase records. -/
structure OcpState where
  n_threads : Nat
  n_phases : Nat
  nlp : List NonLinearProgram
deriving DecidableEq

/-- The orchestrator monad: state over the problem record, synchronous
exceptions preserving the state at raise time. -/
abbrev CfgM (α : Type) := EStateM PyErr OcpState α

/-- Raise a Python exception. -/
def raise {α : Type} (e : PyErr) : CfgM α := fun s => .error e s

/-- Lift a pure `Except` computation. -/
def liftExcept {α : Type} : Except PyErr α → CfgM α
  | .ok a => pure a
  | .error e => raise e

/-- `self.nlp` lookup inside `ocp.nlp`. -/
def getNlp (p : Nat) : CfgM NonLinearProgram := do
  let s ← get
  match s.nlp.get? p with
  | some ph => pure ph
  | none => raise (.indexError "list index out of range")

/-- Mutate the phase record in place. -/
def modifyNlp (p : Nat) (f : NonLinearProgram → NonLinearProgram) : CfgM Unit := do
  let s ← get
  match s.nlp.get? p with
  | some ph => set { s with nlp := s.nlp.set p (f ph) }
  | none => raise (.indexError "list index out of range")

/-- The four decision-variable kinds. -/
inductive DecisionVarAttr where
  | states
  | states_dot
  | controls
  | algebraic_states
deriving DecidableEq

def NonLinearProgram.attrContainer (ph : NonLinearProgram) :
    DecisionVarAttr → OptimizationVariableContainer
  | .states => ph.states
  | .states_dot => ph.states_dot
  | .controls => ph.controls
  | .algebraic_states => ph.algebraic_states

def NonLinearProgram.setAttrContainer (ph : NonLinearProgram)
    (attr : DecisionVarAttr) (c : OptimizationVariableContainer) : NonLinearProgram :=
  match attr with
  | .states => { ph with states := c }
  | .states_dot => { ph with states_dot := c }
  | .controls => { ph with controls := c }
  | .algebraic_states => { ph with algebraic_states := c }

/-- The per-kind scaling store (`x_scaling` / `xdot_scaling` / `u_scaling`
/ `a_scaling`). -/
def NonLinearProgram.scalingStore (ph : NonLinearProgram) :
    DecisionVarAttr → List (String × List Rat)
  | .states => ph.x_scaling
  | .states_dot => ph.xdot_scaling
  | .controls => ph.u_scaling
  | .algebraic_states => ph.a_scaling

/-- `NewVariableConfiguration.check_variable_copy_condition`: a copy is
eligible only if a source-phase index was specified, it is strictly below
the consuming phase's index, and the name is already registered in the
source phase's corresponding container (the conjunction short-circuits, so
the container is only consulted for a strictly-backward source). -/
def check_variable_copy_condition (nlp : List NonLinearProgram) (phase_idx : Nat)
    (use_from_phase_idx : Option Nat) (name : String) (attr : DecisionVarAttr) : Bool :=
  match use_from_phase_idx with
  | none => false
  | some u =>
    decide (u < phase_idx) &&
      (match nlp.get? u with
       | some src => (src.attrContainer attr).containsName name
       | none => false)

/-- The `RuntimeError` raised by `_check_for_n_threads_compatibility`. -/
def nThreadsMsg : String :=
  "Multiprocessing is not supported with phase_dynamics=PhaseDynamics.ONE_PER_NODE"

/-- `_check_for_n_threads_compatibility`. -/
def checkForNThreadsCompatibility (p : Nat) : CfgM Unit := do
  let s ← get
  let ph ← getNlp p
  if s.n_threads > 1 && ph.phase_dynamics == .ONE_PER_NODE then
    raise (.runtimeError nThreadsMsg)
  else pure ()

/-- `_check_combine_state_control_plot`. -/
def checkCombineStateControlPlot (combine_state_control_plot : Bool)
    (combine_name : Option String) : CfgM Unit :=
  if combine_state_control_plot && combine_name.isSome then
    raise (.valueError "combine_name and combine_state_control_plot cannot be defined simultaneously")
  else pure ()

/-- `_declare_auto_variable_mapping`: register the identity mapping sized to
the element count when no mapping was registered for this name. -/
def declareAutoVariableMapping (p : Nat) (name : String) (name_elements : List String) :
    CfgM Unit := do
  let ph ← getNlp p
  if assocContains ph.variable_mappings name then pure ()
  else
    modifyNlp p (fun ph2 => { ph2 with
      variable_mappings :=
        assocSet ph2.variable_mappings name (BiMapping.identityMap name_elements.length) })

/-- `_check_phase_mapping_of_variable`. -/
def checkPhaseMappingOfVariable (p : Nat) : CfgM Unit := do
  let ph ← getNlp p
  if ph.phase_dynamics == .ONE_PER_NODE &&
      (ph.use_states_from_phase_idx != some ph.phase_idx ||
        ph.use_states_dot_from_phase_idx != some ph.phase_idx ||
        ph.use_controls_from_phase_idx != some ph.phase_idx) then
    raise (.valueError "map_state=True must be used alongside with nlp.phase_dynamics = PhaseDynamics.SHARED_DURING_THE_PHASE")
  else pure ()

/-- `self.nlp.variable_mappings[self.name]`. -/
def getMapping (p : Nat) (name : String) : CfgM BiMapping := do
  let ph ← getNlp p
  match assocFind? ph.variable_mappings name with
  | some m => pure m
  | none => raise (.keyError name)

/-- `self.nlp.<kind>_scaling[self.name].scaling`. -/
def getScaling (p : Nat) (attr : DecisionVarAttr) (name : String) : CfgM (List Rat) := do
  let ph ← getNlp p
  match assocFind? (ph.scalingStore attr) name with
  | some v => pure v
  | none => raise (.keyError name)

/-- `nlp.plot[key] = CustomPlot(...)`, reduced to the key set. -/
def addPlotM (p : Nat) (key : String) : CfgM Unit :=
  modifyNlp p (fun ph => { ph with
    plot := if ph.plot.contains key then ph.plot else ph.plot ++ [key] })

/-- `define_cx_scaled`: one fresh labelled symbol per reduced-mapping slot,
per node, per interval column; a `-` label prefix records a sign flip; a
null mapping entry makes `np.sign` fail, an out-of-range entry makes the
element-name lookup fail. -/
def defineCxScaled (name : String) (name_elements : List String) (phase_idx : Nat)
    (map_idx_first : List (Option Int)) (n_col n_shooting initial_node : Nat) :
    Except PyErr (List (List (List CExpr))) :=
  (List.range (n_shooting + 1)).mapM (fun node =>
    (List.range n_col).mapM (fun j =>
      map_idx_first.mapM (fun oi =>
        match oi with
        | none => .error (.typeError "bad operand type for unary -: NoneType")
        | some i =>
          match name_elements.get? i.natAbs with
          | none => .error (.indexError "list index out of range")
          | some el =>
            .ok (CExpr.sym ((if i < 0 then "-" else "") ++ name ++ "_" ++ el ++
              "_phase" ++ toString phase_idx ++ "_node" ++
              toString (node + initial_node) ++ "." ++ toString j)))))

/-- Element-wise multiplication of a symbolic column by a scale vector. -/
def mulColumnScale (col : List CExpr) (scaling : List Rat) : Except PyErr (List CExpr) :=
  if col.length = scaling.length then
    .ok (List.zipWith (fun e c => CExpr.mulScale e c) col scaling)
  else if scaling.length = 1 then
    .ok (col.map (fun e => CExpr.mulScale e (scaling.headD 0)))
  else .error (.runtimeError "mismatched dimensions in elementwise multiplication")

/-- `define_cx_unscaled`: scale every column of every node. -/
def defineCxUnscaled (cx_scaled : List (List (List CExpr))) (scaling : List Rat) :
    Except PyErr (List (List (List CExpr))) :=
  cx_scaled.mapM (fun cols => cols.mapM (fun col => mulColumnScale col scaling))

/-- The per-slot symbol label of `_use_copy`: `"zero"` for a null entry,
otherwise the (possibly sign-prefixed) `name_element_MX` label. -/
def buildMxSymName (name : String) (name_elements : List String) (oi : Option Int) :
    Except PyErr String :=
  match oi with
  | none => .ok "zero"
  | some i =>
    match name_elements.get? i.natAbs with
    | none => .error (.indexError "list index out of range")
    | some el => .ok ((if i < 0 then "-" else "") ++ name ++ "_" ++ el ++ "_MX")

/-- `self.ocp.nlp[src].<kind>[0][name].mx`: the node-0 symbolic form of an
earlier phase's element. -/
def readSourceMx (srcIdx : Option Nat) (attr : DecisionVarAttr) (name : String) :
    CfgM (List CExpr) := do
  match srcIdx with
  | none => raise (.typeError "list indices must be integers")
  | some u => do
    let s ← get
    match s.nlp.get? u with
    | none => raise (.indexError "list index out of range")
    | some src =>
      match (src.attrContainer attr).unscaled.get? 0 with
      | none => raise (.indexError "list index out of range")
      | some L =>
        match L.getStr name with
        | .ok v => pure v.mx
        | .error e => raise e

/-- `self.ocp.nlp[src].<kind>[node_index][name].original_cx`. -/
def readSourceOriginal (srcIdx : Option Nat) (attr : DecisionVarAttr)
    (node_index : Nat) (name : String) : CfgM (List (List (List CExpr))) := do
  match srcIdx with
  | none => raise (.typeError "list indices must be integers")
  | some u => do
    let s ← get
    match s.nlp.get? u with
    | none => raise (.indexError "list index out of range")
    | some src =>
      match (src.attrContainer attr).originals.get? node_index with
      | none => raise (.indexError "list index out of range")
      | some olist =>
        match assocFind? olist name with
        | some cols => pure cols
        | none => raise (.keyError name)

/-- `_use_copy`: the four full-space symbolic vectors; a copy-eligible kind
starts from the source phase's aliased vector, every other kind gets one
fresh labelled symbol per reduced slot (algebraic states unconditionally). -/
def useCopy (p : Nat) (name : String) (name_elements : List String)
    (copy_states copy_controls copy_states_dot copy_algebraic_states : Bool) :
    CfgM (List CExpr × List CExpr × List CExpr × List CExpr) := do
  let ph ← getNlp p
  let ms0 ← if copy_states then readSourceMx ph.use_states_from_phase_idx .states name
    else pure []
  let msd0 ← if copy_states_dot then
      readSourceMx ph.use_states_dot_from_phase_idx .states_dot name
    else pure []
  let mc0 ← if copy_controls then readSourceMx ph.use_controls_from_phase_idx .controls name
    else pure []
  let ma0 ← if copy_algebraic_states then
      readSourceMx ph.use_states_from_phase_idx .algebraic_states name
    else pure []
  let bm ← getMapping p name
  let labels ← liftExcept (bm.to_second.mapM (fun oi => buildMxSymName name name_elements oi))
  let appended := labels.map CExpr.sym
  pure (ms0 ++ (if copy_states then [] else appended),
    msd0 ++ (if copy_states_dot then [] else appended),
    mc0 ++ (if copy_controls then [] else appended),
    ma0 ++ appended)

/-- `_declare_initial_guess`: a zero initial guess sized to the reduced
dimension, for each requested kind whose name is not yet present. -/
def declareInitialGuess (p : Nat) (name : String)
    (as_states as_controls as_algebraic_states : Bool) : CfgM Unit := do
  (do
    let ph ← getNlp p
    if as_states && !(assocContains ph.x_init name) then do
      let bm ← getMapping p name
      modifyNlp p (fun ph2 => { ph2 with x_init := assocSet ph2.x_init name bm.to_first.length })
    else pure ())
  (do
    let ph ← getNlp p
    if as_controls && !(assocContains ph.u_init name) then do
      let bm ← getMapping p name
      modifyNlp p (fun ph2 => { ph2 with u_init := assocSet ph2.u_init name bm.to_first.length })
    else pure ())
  (do
    let ph ← getNlp p
    if as_algebraic_states && !(assocContains ph.a_init name) then do
      let bm ← getMapping p name
      modifyNlp p (fun ph2 => { ph2 with a_init := assocSet ph2.a_init name bm.to_first.length })
    else pure ())

/-- `_declare_variable_scaling`: unit scaling sized to the reduced
dimension, for each requested kind whose name is not yet present. -/
def declareVariableScaling (p : Nat) (name : String)
    (as_states as_controls as_states_dot as_algebraic_states : Bool) : CfgM Unit := do
  (do
    let ph ← getNlp p
    if as_states && !(assocContains ph.x_scaling name) then do
      let bm ← getMapping p name
      modifyNlp p (fun ph2 => { ph2 with
        x_scaling := assocSet ph2.x_scaling name (List.replicate bm.to_first.length 1) })
    else pure ())
  (do
    let ph ← getNlp p
    if as_states_dot && !(assocContains ph.xdot_scaling name) then do
      let bm ← getMapping p name
      modifyNlp p (fun ph2 => { ph2 with
        xdot_scaling := assocSet ph2.xdot_scaling name (List.replicate bm.to_first.length 1) })
    else pure ())
  (do
    let ph ← getNlp p
    if as_controls && !(assocContains ph.u_scaling name) then do
      let bm ← getMapping p name
      modifyNlp p (fun ph2 => { ph2 with
        u_scaling := assocSet ph2.u_scaling name (List.replicate bm.to_first.length 1) })
    else pure ())
  (do
    let ph ← getNlp p
    if as_algebraic_states && !(assocContains ph.a_scaling name) then do
      let bm ← getMapping p name
      modifyNlp p (fun ph2 => { ph2 with
        a_scaling := assocSet ph2.a_scaling name (List.replicate bm.to_first.length 1) })
    else pure ())

/-- Rendering of a phase index annotation in a legend entry. -/
def optNatStr : Option Nat → String
  | none => "None"
  | some n => toString n

/-- One legend entry: the element label annotated, for every phase of the
problem, with the phase the states/controls are borrowed from. -/
def legendEntry (s : OcpState) (base : String) (as_states as_controls : Bool) :
    Except PyErr String :=
  (List.range s.n_phases).foldlM (fun acc i =>
    match s.nlp.get? i with
    | none => .error (.indexError "list index out of range")
    | some phi =>
      let acc1 := if as_states then acc ++ "-" ++ optNatStr phi.use_states_from_phase_idx
        else acc
      let acc2 := if as_controls then acc1 ++ "-" ++ optNatStr phi.use_controls_from_phase_idx
        else acc1
      .ok acc2) base

/-- `_declare_legend`. -/
def declareLegend (name : String) (name_elements : List String) (axes : BiMapping)
    (as_states as_controls : Bool) : CfgM (List String) := do
  let s ← get
  liftExcept (name_elements.enum.foldlM (fun acc pr =>
    if axes.to_first.contains (some (Int.ofNat pr.1)) then do
      let e ← legendEntry s (name ++ "_" ++ pr.2) as_states as_controls
      .ok (acc ++ [e])
    else .ok acc) [])

/-- Python `l[0]`. -/
def item0 {β : Type} (l : List β) : CfgM β :=
  match l.head? with
  | some b => pure b
  | none => raise (.indexError "list index out of range")

/-- Append one registered variable into a per-kind container at one node. -/
def appendToContainer (p : Nat) (attr : DecisionVarAttr) (name : String)
    (cx0 cxs0 : List (List CExpr)) (mx : List CExpr) (bm : BiMapping)
    (node_index : Nat) (origFull : List (List (List CExpr))) : CfgM Unit := do
  let ph ← getNlp p
  let c' ← liftExcept
    ((ph.attrContainer attr).appendVar name cx0 cxs0 mx bm node_index origFull)
  modifyNlp p (fun ph2 => ph2.setAttrContainer attr c')

/-- The per-node body of the common shape of the four registration blocks
of `_declare_cx_and_plot` (states / controls / states-dot / algebraic
states): build the scaled columns (or read the copy source's original
columns), derive the unscaled columns by scale multiplication (or read the
same copy source), append both into the per-kind container at that node,
and register the plot key when requested. -/
def registerKindBody (p : Nat) (attr : DecisionVarAttr) (name : String)
    (name_elements : List String) (n_col n_shooting : Nat) (copyFlag : Bool)
    (srcIdx : Option Nat) (mx : List CExpr) (plotKey : Option String)
    (node_index : Nat) : CfgM PUnit := do
  let ph ← getNlp p
  let bm ← getMapping p name
  let cx_scaled ← if copyFlag then readSourceOriginal srcIdx attr node_index name
    else
      liftExcept (defineCxScaled name name_elements ph.phase_idx bm.to_first n_col
        n_shooting node_index)
  let cx ← if copyFlag then readSourceOriginal srcIdx attr node_index name
    else do
      let scal ← getScaling p attr name
      liftExcept (defineCxUnscaled cx_scaled scal)
  let cx0 ← item0 cx
  let cxs0 ← item0 cx_scaled
  appendToContainer p attr name cx0 cxs0 mx bm node_index cx
  match plotKey with
  | some key => addPlotM p key
  | none => pure ()

/-- One registration block of `_declare_cx_and_plot`: the per-node body,
over every node of the block. -/
def registerKindLoop (p : Nat) (attr : DecisionVarAttr) (name : String)
    (name_elements : List String) (n_col n_shooting nNodes : Nat)
    (copyFlag : Bool) (srcIdx : Option Nat) (mx : List CExpr)
    (plotKey : Option String) : CfgM Unit :=
  (List.range nNodes).forM
    (registerKindBody p attr name name_elements n_col n_shooting copyFlag srcIdx mx
      plotKey)

/-- `_declare_cx_and_plot`: the four kind blocks in source order; the
shared-per-phase policy builds one node, the per-node policy one set per
node; controls use 3 interval columns, algebraic states 2, states and
state derivatives the integration scheme's requirement plus 2 (state
derivatives with the extra-shooting-node quirk of the source, and the
algebraic block passing `self.mx_states`). -/
def declareCxAndPlot (p : Nat) (name : String) (name_elements : List String)
    (as_states as_controls as_states_dot as_algebraic_states : Bool)
    (copy_states copy_controls copy_states_dot copy_algebraic_states : Bool)
    (mx_states mx_states_dot mx_controls : List CExpr)
    (skip_plot : Bool) : CfgM Unit := do
  let ph ← getNlp p
  if as_states then
    registerKindLoop p .states name name_elements (ph.ode_solver_n_required_cx + 2) 0
      (if ph.phase_dynamics == .ONE_PER_NODE then ph.n_states_nodes else 1)
      copy_states ph.use_states_from_phase_idx mx_states
      (if skip_plot then none else some (name ++ "_states"))
  else pure ()
  if as_controls then
    registerKindLoop p .controls name name_elements 3 0
      (if ph.phase_dynamics == .ONE_PER_NODE then ph.n_controls_nodes else 1)
      copy_controls ph.use_controls_from_phase_idx mx_controls
      (if skip_plot then none else some (name ++ "_controls"))
  else pure ()
  if as_states_dot then
    registerKindLoop p .states_dot name name_elements (ph.ode_solver_n_required_cx + 2) 1
      (if ph.phase_dynamics == .ONE_PER_NODE then ph.n_states_nodes else 1)
      copy_states_dot ph.use_states_dot_from_phase_idx mx_states_dot none
  else pure ()
  if as_algebraic_states then
    registerKindLoop p .algebraic_states name name_elements 2 0
      (if ph.phase_dynamics == .ONE_PER_NODE then ph.n_states_nodes else 1)
      copy_algebraic_states ph.use_states_from_phase_idx mx_states none
  else pure ()

/-- `NewVariableConfiguration.__init__` past the fatigue delegation check
(the path every non-fatigable variable, and every recursive sub-variable
invocation, takes). -/
def configureCore (name : String) (name_elements : List String) (p : Nat)
    (as_states as_controls as_states_dot as_algebraic_states : Bool)
    (skip_plot : Bool) (axes_idx : Option BiMapping) : CfgM Unit := do
  checkForNThreadsCompatibility p
  declareAutoVariableMapping p name name_elements
  checkPhaseMappingOfVariable p
  let s ← get
  let ph ← getNlp p
  let copy_states := check_variable_copy_condition s.nlp ph.phase_idx
    ph.use_states_from_phase_idx name .states
  let copy_controls := check_variable_copy_condition s.nlp ph.phase_idx
    ph.use_controls_from_phase_idx name .controls
  let copy_states_dot := check_variable_copy_condition s.nlp ph.phase_idx
    ph.use_states_dot_from_phase_idx name .states_dot
  let copy_algebraic_states := check_variable_copy_condition s.nlp ph.phase_idx
    ph.use_states_from_phase_idx name .algebraic_states
  declareInitialGuess p name as_states as_controls as_algebraic_states
  declareVariableScaling p name as_states as_controls as_states_dot as_algebraic_states
  let mxs ← useCopy p name name_elements copy_states copy_controls copy_states_dot
    copy_algebraic_states
  let axes := match axes_idx with
    | none => BiMapping.identityMap name_elements.length
    | some a => a
  let _legend ← if !skip_plot then declareLegend name name_elements axes as_states as_controls
    else pure []
  declareCxAndPlot p name name_elements as_states as_controls as_states_dot
    as_algebraic_states copy_states copy_controls copy_states_dot copy_algebraic_states
    mxs.1 mxs.2.1 mxs.2.2.1 skip_plot

/-- A recursive `NewVariableConfiguration(...)` invocation as issued from
the fatigue expansion: `fatigue`, `combine_*` and `axes_idx` at their `None`
/ `False` defaults, so the combine check passes and the fatigue delegation
declines, landing in `configureCore`. -/
def configureNewVariableNoFatigue (name : String) (name_elements : List String)
    (p : Nat) (as_states as_controls as_states_dot as_algebraic_states : Bool)
    (skip_plot : Bool) : CfgM Unit := do
  checkCombineStateControlPlot false none
  configureCore name name_elements p as_states as_controls as_states_dot
    as_algebraic_states skip_plot none

/-- `append_faked_optim_var`: combine the named elements' indices, symbolic
vectors and offset-shifted mappings into one fake accessor. -/
def appendFakedOptimVar (name : String) (L : OptimizationVariableList CExpr)
    (keys : List String) : Except PyErr (OptimizationVariableList CExpr) := do
  let comps ← keys.mapM (fun k => do
    let v ← L.getStr k
    match v.mapping with
    | none => .error (.attributeError "NoneType object has no attribute to_second")
    | some bm => .ok (v.index, v.mx, bm))
  let folded := comps.foldl
    (fun (acc : List Nat × List CExpr × List (Option Int) × List (Option Int)) c =>
      (acc.1 ++ c.1, acc.2.1 ++ c.2.1,
        acc.2.2.1 ++ c.2.2.to_second.map (Option.map (fun x => x + Int.ofNat acc.2.2.1.length)),
        acc.2.2.2 ++ c.2.2.to_first.map (Option.map (fun x => x + Int.ofNat acc.2.2.2.length))))
    ([], [], [], [])
  .ok (L.append_fake name folded.1 folded.2.1 (some ⟨folded.2.2.1, folded.2.2.2⟩))

/-- The scaled or unscaled view of a container. -/
inductive ContainerSide where
  | scaledSide
  | unscaledSide
deriving DecidableEq

/-- `append_faked_optim_var(name, nlp.controls.<side>, keys)` at the
container's current node index. -/
def fakeOnControls (p : Nat) (side : ContainerSide) (name : String)
    (keys : List String) : CfgM Unit := do
  let ph ← getNlp p
  let c := ph.controls
  let lists := match side with
    | .scaledSide => c.scaled
    | .unscaledSide => c.unscaled
  match lists.get? c.node_index with
  | none => raise (.indexError "list index out of range")
  | some L => do
    let L' ← liftExcept (appendFakedOptimVar name L keys)
    modifyNlp p (fun ph2 => { ph2 with controls :=
      match side with
      | .scaledSide => { ph2.controls with scaled := ph2.controls.scaled.set ph2.controls.node_index L' }
      | .unscaledSide => { ph2.controls with unscaled := ph2.controls.unscaled.set ph2.controls.node_index L' } })

/-- The homogeneity verification loop of `_manage_fatigue_to_new_variable`:
every element's sub-models must report the first element's suffix set,
multi-interface flag and split-controls flag. -/
def homogeneityChecks (name : String) (fatigue_suffix : List String)
    (multi_interface split_controls : Bool) (dofs : List FatigueDof) : CfgM Unit :=
  dofs.forM (fun dof =>
    dof.models.models.forM (fun km => do
      if km.2.state_suffix != fatigue_suffix then
        raise (.valueError ("Fatigue for " ++ name ++ " must be of all same types"))
      else pure ()
      if dof.models.multi_interface != multi_interface then
        raise (.valueError "multi_interface must be the same for all the elements")
      else pure ()
      if dof.models.split_controls != split_controls then
        raise (.valueError "split_controls must be the same for all the elements")
      else pure ()))

/-- One iteration of the meta-suffix loop of
`_manage_fatigue_to_new_variable`: configure the underlying control
variable (one per meta-suffix when controls are split, one shared control
on the first iteration otherwise), then the underlying state variables for
every fatigue-state suffix; plots reduced to their keys. -/
def metaSuffixStep (name : String) (name_elements : List String) (p : Nat)
    (as_states as_controls multi_interface split_controls : Bool)
    (fatigue_suffix : List String) (acc : List String) (pr : Nat × String) :
    CfgM (List String) := do
  let vname := if !multi_interface then name ++ "_" ++ pr.2 else name
  if split_controls then do
    configureNewVariableNoFatigue vname name_elements p as_states as_controls
      false false true
    addPlotM p (vname ++ "_controls")
  else if pr.1 == 0 then do
    configureNewVariableNoFatigue name name_elements p as_states as_controls
      false false true
    addPlotM p (name ++ "_controls")
  else pure ()
  fatigue_suffix.forM (fun params => do
    let name_tp := vname ++ "_" ++ params
    configureNewVariableNoFatigue name_tp name_elements p true false false false true
    addPlotM p name_tp)
  pure (acc ++ [vname])

/-- One iteration of the fake-accessor loop of
`_manage_fatigue_to_new_variable`: point the controls container at the
node, then publish the composite accessors on its scaled and unscaled
lists. -/
def fakeNodeStep (p : Nat) (split_controls : Bool) (name : String)
    (var_names : List String) (node_index : Nat) : CfgM Unit := do
  modifyNlp p (fun ph2 => { ph2 with controls := ph2.controls.setNodeIndex node_index })
  if split_controls then do
    fakeOnControls p .scaledSide name var_names
    fakeOnControls p .unscaledSide name var_names
  else
    var_names.forM (fun meta_suffix => do
      fakeOnControls p .scaledSide meta_suffix [name]
      fakeOnControls p .unscaledSide meta_suffix [name])

/-- `_manage_fatigue_to_new_variable`: declines unless the name carries a
fatigue declaration; verifies sub-model homogeneity; registers the combined
plots; recursively configures the underlying control and state variables
(split-controls: one control per meta-suffix; shared control: one), then
publishes the fake composite accessors on the scaled and unscaled controls
at every node index. -/
def manageFatigueToNewVariable (name : String) (name_elements : List String)
    (p : Nat) (as_states as_controls : Bool) (fatigue : Option FatigueList) :
    CfgM Bool := do
  match fatigue with
  | none => pure false
  | some f =>
    match f.find? name with
    | none => pure false
    | some fatigue_var => do
      if !as_controls then
        raise (.notImplementedError "Fatigue not applied on controls is not implemented yet")
      else pure ()
      let meta_suffixes := fatigue_var.suffix
      let dof0 ← match fatigue_var.dofs.head? with
        | some d => pure d
        | none => raise (.indexError "list index out of range")
      let meta0 ← match meta_suffixes.head? with
        | some m => pure m
        | none => raise (.indexError "list index out of range")
      let sub0 ← match assocFind? dof0.models.models meta0 with
        | some m => pure m
        | none => raise (.keyError meta0)
      let fatigue_suffix := sub0.state_suffix
      let multi_interface := dof0.models.multi_interface
      let split_controls := dof0.models.split_controls
      homogeneityChecks name fatigue_suffix multi_interface split_controls fatigue_var.dofs
      addPlotM p ("fatigue_" ++ name)
      let control_plot_name := if !multi_interface && split_controls then name ++ "_controls"
        else name
      addPlotM p control_plot_name
      let var_names ← meta_suffixes.enum.foldlM
        (metaSuffixStep name name_elements p as_states as_controls multi_interface
          split_controls fatigue_suffix) []
      let ph0 ← getNlp p
      (List.range ph0.ns).forM (fakeNodeStep p split_controls name var_names)
      modifyNlp p (fun ph2 => { ph2 with
        controls := ph2.controls.setNodeIndex ph2.states.node_index
        states_dot := ph2.states_dot.setNodeIndex ph2.states.node_index })
      pure true

/-- `NewVariableConfiguration.__init__`: the combine check, then either the
complete fatigue delegation or the core configuration path. -/
def configureNewVariable (name : String) (name_elements : List String) (p : Nat)
    (as_states as_controls : Bool) (as_states_dot : Bool := false)
    (as_algebraic_states : Bool := false) (fatigue : Option FatigueList := none)
    (combine_name : Option String := none) (combine_state_control_plot : Bool := false)
    (skip_plot : Bool := false) (axes_idx : Option BiMapping := none) : CfgM Unit := do
  checkCombineStateControlPlot combine_state_control_plot combine_name
  let fatigued ← manageFatigueToNewVariable name name_elements p as_states as_controls fatigue
  if fatigued then pure ()
  else
    configureCore name name_elements p as_states as_controls as_states_dot
      as_algebraic_states skip_plot axes_idx

/-- The `RuntimeError` message of the parentless `cx`/`cx_end` accessors. -/
def parentlessMsg : String :=
  "OptimizationVariable must have been created by OptimizationVariableList to have a cx. Typically 'all' cannot be used"

/-- Total width of a list of index ranges. -/
def totalLen (xs : List (List Nat)) : Nat := (xs.map List.length).sum

/-- The invariant of claim C1 on a variable list. -/
def listInv {α : Type} (L : OptimizationVariableList α) : Prop :=
  L.cx_start.length = L.cx_end.length
  ∧ L.cx_start.length = sumIndexLens L
  ∧ contiguousFromB 0 (L.elements.map (fun e => e.index)) = true

/-- Stage slot `i` of a sequence of column lists: the concatenation, in call
order, of the `(i+1)`-th column of exactly those column lists with at least
`i+1` middle columns. -/
def stageSlotCols {α : Type} (cols : List (List (List α))) (i : Nat) : List α :=
  (cols.filter (fun cx => decide (i < cx.length - 2))).flatMap (fun cx => cx.getD (i + 1) [])

/-- The stage count of a sequence of column lists: the maximum over the
calls of (column count - 2), truncated at zero. -/
def maxStages {α : Type} (cols : List (List (List α))) : Nat :=
  cols.foldl (fun a cx => max a (cx.length - 2)) 0

/-- One real element, carrying the given name and mapping, was appended and
nothing else of the element sequences changed. -/
def appendedOne (name : String) (bm : BiMapping)
    (Lold Lnew : OptimizationVariableList CExpr) : Prop :=
  ∃ e : OptimizationVariableEntry CExpr, e.name = name ∧ e.mapping = some bm ∧
    Lnew.elements = Lold.elements ++ [e] ∧ Lnew.fake_elements = Lold.fake_elements

end Bioptim

namespace Bioptim

/-! ## Theorems -/

/-- C9: for every `VariableScaling` whose stored scale vector has length `n`,
and every repetition count `k`, every one of the `k` columns of
`to_array(n, k)` equals the stored scale vector. -/
theorem to_array_columns_reproduce (v : VariableScaling) (vec : List Rat)
    (k i : Nat) (hv : v.scaling = .arr vec) (hik : i < k) :
    ∃ cols, v.to_array vec.length k = .ok cols ∧ cols.getD i [] = vec := by
  refine ⟨List.replicate k vec, ?_, ?_⟩
  · simp [VariableScaling.to_array, hv, npSetColumn]
    rfl
  · simp [List.getD_eq_getElem?_getD, List.getElem?_replicate, hik]

/-- Witness for C9 at a concrete scaling vector. -/
theorem to_array_columns_reproduce_witness :
    ∃ cols, (VariableScaling.mk (.arr [2, 3])).to_array 2 2 = .ok cols ∧
      cols.getD 1 [] = [2, 3] := by
  simpa using to_array_columns_reproduce ⟨.arr [2, 3]⟩ [2, 3] 2 1 rfl (by decide)

/-- C5: for every list and every name other than `"all"`, lookup by that name
returns the first real element with that name if one exists, otherwise the
first fake element with that name, otherwise raises `KeyError`; and
containment holds exactly when the lookup would succeed. -/
theorem getitem_by_name_spec {α : Type} (L : OptimizationVariableList α) (item : String)
    (hall : item ≠ "all") :
    (∀ e, L.elements.find? (fun x => x.name == item) = some e →
        L.getStr item = .ok (e.toVar (some L)))
    ∧ (L.elements.find? (fun x => x.name == item) = none →
        ∀ e, L.fake_elements.find? (fun x => x.name == item) = some e →
          L.getStr item = .ok (e.toVar (some L)))
    ∧ (L.elements.find? (fun x => x.name == item) = none →
        L.fake_elements.find? (fun x => x.name == item) = none →
          L.getStr item = .error (.keyError (item ++ " is not in the list")))
    ∧ (L.containsName item = true ↔ (L.getStr item).isOk = true) := by
  have hbeq : (item == "all") = false := by
    simpa using hall
  refine ⟨?_, ?_, ?_, ?_⟩
  · intro e he
    simp [OptimizationVariableList.getStr, hbeq, he]
  · intro hre e hfe
    simp [OptimizationVariableList.getStr, hbeq, hre, hfe]
  · intro hre hfe
    simp [OptimizationVariableList.getStr, hbeq, hre, hfe]
  · unfold OptimizationVariableList.containsName OptimizationVariableList.getStr
    rw [hbeq]
    cases hre : L.elements.find? (fun x => x.name == item) with
    | some e =>
      have : L.elements.any (fun x => x.name == item) = true := by
        rw [List.any_eq_true]
        exact ⟨e, List.mem_of_find?_eq_some hre, by simpa using List.find?_some hre⟩
      simp [this, Except.isOk, Except.toBool]
    | none =>
      have hne : L.elements.any (fun x => x.name == item) = false := by
        rw [List.any_eq_false]
        intro x hx
        have := List.find?_eq_none.mp hre x hx
        simpa using this
      cases hfe : L.fake_elements.find? (fun x => x.name == item) with
      | some e =>
        have : L.fake_elements.any (fun x => x.name == item) = true := by
          rw [List.any_eq_true]
          exact ⟨e, List.mem_of_find?_eq_some hfe, by simpa using List.find?_some hfe⟩
        simp [hne, this, Except.isOk, Except.toBool]
      | none =>
        have : L.fake_elements.any (fun x => x.name == item) = false := by
          rw [List.any_eq_false]
          intro x hx
          have := List.find?_eq_none.mp hfe x hx
          simpa using this
        simp [hne, this, Except.isOk, Except.toBool]

/-- Witness for C5 on a list with one real and one fake element. -/
theorem getitem_by_name_spec_witness :
    (({ elements := [⟨"q", [0], [0], none⟩],
        fake_elements := [⟨"f", [0], [0], none⟩] } :
          OptimizationVariableList Nat).containsName "f" = true ↔
      (({ elements := [⟨"q", [0], [0], none⟩],
          fake_elements := [⟨"f", [0], [0], none⟩] } :
            OptimizationVariableList Nat).getStr "f").isOk = true) :=
  (getitem_by_name_spec
    { elements := [⟨"q", [0], [0], none⟩], fake_elements := [⟨"f", [0], [0], none⟩] }
    "f" (by decide)).2.2.2

/-- C6: the `cx`/`cx_end` accessors raise `RuntimeError` on an element with
no parent list; the `"all"` pseudo-element is built without a parent, so
both accessors always raise on it; and on an element with a parent, `cx`
returns the parent's concatenated start column restricted to the element's
index rows. -/
theorem cx_accessor_spec {α : Type} :
    (∀ v : OptimizationVariable α, v.parent_list = none →
      v.cxSeg = .error (.runtimeError parentlessMsg) ∧
        v.cxEndSeg = .error (.runtimeError parentlessMsg))
    ∧ (∀ L : OptimizationVariableList α, ∃ w, L.getStr "all" = .ok w ∧
        w.parent_list = none ∧ w.cxSeg = .error (.runtimeError parentlessMsg) ∧
        w.cxEndSeg = .error (.runtimeError parentlessMsg))
    ∧ (∀ (w : OptimizationVariable α) (P : OptimizationVariableList α),
        w.parent_list = some P → w.cxSeg = selectRows P.cx w.index) := by
  refine ⟨?_, ?_, ?_⟩
  · intro v hv
    constructor
    · simp [OptimizationVariable.cxSeg, hv, parentlessMsg]
    · simp [OptimizationVariable.cxEndSeg, hv, parentlessMsg]
  · intro L
    refine ⟨⟨"all", L.mxAll, L.elements.flatMap (fun e => e.index), none, none⟩, ?_, rfl, ?_, ?_⟩
    · simp [OptimizationVariableList.getStr]
    · simp [OptimizationVariable.cxSeg, parentlessMsg]
    · simp [OptimizationVariable.cxEndSeg, parentlessMsg]
  · intro w P hw
    simp [OptimizationVariable.cxSeg, hw]

/-- Witness for C6 on a concrete parentless element and a concrete list. -/
theorem cx_accessor_spec_witness :
    (OptimizationVariable.mk "all" ([] : List Nat) [] none none).cxSeg =
      .error (.runtimeError parentlessMsg) :=
  ((cx_accessor_spec (α := Nat)).1 ⟨"all", [], [], none, none⟩ rfl).1

/-- C7: `append_fake` modifies only the fake-element sequence: the
concatenated start and end vectors, the intermediates, the reduced
symbolic form, the real-element sequence, `shape` and `len` are all
unchanged; the new name becomes visible to containment and (for a
non-`"all"` name) to lookup, but `keys()` is unchanged. -/
theorem append_fake_frame {α : Type} (L : OptimizationVariableList α) (name : String)
    (index : List Nat) (mx : List α) (bm : Option BiMapping) :
    (L.append_fake name index mx bm).cx_start = L.cx_start
    ∧ (L.append_fake name index mx bm).cx_end = L.cx_end
    ∧ (L.append_fake name index mx bm).cx_intermediates = L.cx_intermediates
    ∧ (L.append_fake name index mx bm).mx_reduced = L.mx_reduced
    ∧ (L.append_fake name index mx bm).elements = L.elements
    ∧ (L.append_fake name index mx bm).shape = L.shape
    ∧ (L.append_fake name index mx bm).size = L.size
    ∧ (L.append_fake name index mx bm).keys = L.keys
    ∧ (L.append_fake name index mx bm).containsName name = true
    ∧ (name ≠ "all" → ((L.append_fake name index mx bm).getStr name).isOk = true) := by
  refine ⟨rfl, rfl, rfl, rfl, rfl, rfl, rfl, rfl, ?_, ?_⟩
  · simp [OptimizationVariableList.append_fake, OptimizationVariableList.containsName]
  · intro hall
    have hbeq : (name == "all") = false := by simpa using hall
    unfold OptimizationVariableList.getStr
    rw [hbeq]
    simp only [Bool.false_eq_true, if_false]
    cases hre : (L.append_fake name index mx bm).elements.find? (fun x => x.name == name) with
    | some e => simp [Except.isOk, Except.toBool]
    | none =>
      have hmem : (⟨name, mx, index, bm⟩ : OptimizationVariableEntry α) ∈
          (L.append_fake name index mx bm).fake_elements := by
        simp [OptimizationVariableList.append_fake]
      have hnn : (L.append_fake name index mx bm).fake_elements.find?
          (fun x => x.name == name) ≠ none := by
        intro h
        have := List.find?_eq_none.mp h _ hmem
        simp at this
      cases hfe : (L.append_fake name index mx bm).fake_elements.find?
          (fun x => x.name == name) with
      | some e => simp [Except.isOk, Except.toBool]
      | none => exact absurd hfe hnn

/-- Witness for C7's lookup-visibility part at a concrete fake append. -/
theorem append_fake_frame_witness :
    ((({} : OptimizationVariableList Nat).append_fake "tau" [0, 1] [] none).getStr
      "tau").isOk = true :=
  (append_fake_frame ({} : OptimizationVariableList Nat) "tau" [0, 1] [] none).2.2.2.2.2.2.2.2.2
    (by decide)

theorem contiguousFromB_append_range (xs : List (List Nat)) (k n : Nat)
    (h : contiguousFromB k xs = true) :
    contiguousFromB k (xs ++ [List.range' (k + totalLen xs) n]) = true := by
  induction xs generalizing k with
  | nil =>
    simp [contiguousFromB, totalLen, List.length_range']
  | cons x xs ih =>
    rw [contiguousFromB] at h
    rcases Bool.and_eq_true_iff.mp h with ⟨hx, hrest⟩
    rw [List.cons_append, contiguousFromB]
    refine Bool.and_eq_true_iff.mpr ⟨hx, ?_⟩
    have : k + totalLen (x :: xs) = (k + x.length) + totalLen xs := by
      simp [totalLen]
      omega
    rw [this]
    exact ih (k + x.length) hrest

theorem getLastD_mem_cons {α : Type} : ∀ (l : List α) (a : α), l.getLastD a ∈ a :: l
  | [], a => by simp
  | b :: l, a => by
    rw [List.getLastD_cons]
    exact List.mem_cons_of_mem a (getLastD_mem_cons l b)

theorem getLastD_length_of_homogeneous {α : Type} (c0 : List α) (rest : List (List α))
    (hcols : ∀ col ∈ c0 :: rest, col.length = ((c0 :: rest).headD []).length) :
    (rest.getLastD c0).length = c0.length := by
  simpa using hcols _ (getLastD_mem_cons rest c0)

theorem runCall_preserves_listInv {α : Type} (L L' : OptimizationVariableList α)
    (c : VarListCall α) (hc : colsHomogeneous c.cxCols)
    (h : runCall L c = .ok L') : listInv L → listInv L' := by
  intro hL
  obtain ⟨h1, h2, h3⟩ := hL
  cases c with
  | app n cx mx bm =>
    cases cx with
    | nil => simp [runCall, OptimizationVariableList.append] at h
    | cons c0 rest =>
      simp only [runCall, OptimizationVariableList.append, Except.ok.injEq] at h
      subst h
      obtain ⟨-, hcols⟩ := hc
      have hlast : (rest.getLastD c0).length = c0.length :=
        getLastD_length_of_homogeneous c0 rest (by simpa [VarListCall.cxCols] using hcols)
      have htot : totalLen (L.elements.map (fun e => e.index)) = L.cx_start.length := by
        rw [h2]
        simp [totalLen, sumIndexLens, List.map_map, Function.comp_def]
      refine ⟨?_, ?_, ?_⟩
      · simp only [List.length_append, hlast, h1]
      · simp only [List.length_append, sumIndexLens, List.map_append, List.map_cons,
          List.map_nil, List.sum_append, List.length_range', List.sum_cons, List.sum_nil]
        simp only [sumIndexLens] at h2
        omega
      · simp only [List.map_append, List.map_cons, List.map_nil]
        have := contiguousFromB_append_range (L.elements.map (fun e => e.index)) 0
          c0.length (by simpa using h3)
        rw [Nat.zero_add, htot] at this
        simpa using this
  | copyScaled n cx mx bm sm sc =>
    cases cx with
    | nil => simp [runCall, OptimizationVariableList.copy_from_scaled] at h
    | cons c0 rest =>
      cases hsm : sm.head? with
      | none => simp [runCall, OptimizationVariableList.copy_from_scaled, hsm] at h
      | some u =>
        simp only [runCall, OptimizationVariableList.copy_from_scaled, hsm,
          Except.ok.injEq] at h
        subst h
        obtain ⟨-, hcols⟩ := hc
        have hlast : (rest.getLastD c0).length = c0.length :=
          getLastD_length_of_homogeneous c0 rest (by simpa [VarListCall.cxCols] using hcols)
        have htot : totalLen (L.elements.map (fun e => e.index)) = L.cx_start.length := by
          rw [h2]
          simp [totalLen, sumIndexLens, List.map_map, Function.comp_def]
        refine ⟨?_, ?_, ?_⟩
        · simp only [List.length_append, hlast, h1]
        · simp only [List.length_append, sumIndexLens, List.map_append, List.map_cons,
            List.map_nil, List.sum_append, List.length_range', List.sum_cons, List.sum_nil]
          simp only [sumIndexLens] at h2
          omega
        · simp only [List.map_append, List.map_cons, List.map_nil]
          have := contiguousFromB_append_range (L.elements.map (fun e => e.index)) 0
            c0.length (by simpa using h3)
          rw [Nat.zero_add, htot] at this
          simpa using this

theorem runCalls_preserves_listInv {α : Type} :
    ∀ (calls : List (VarListCall α)) (L L' : OptimizationVariableList α),
      listInv L → (∀ c ∈ calls, colsHomogeneous c.cxCols) →
      runCalls L calls = .ok L' → listInv L' := by
  intro calls
  induction calls with
  | nil =>
    intro L L' hL _ hrun
    simp [runCalls] at hrun
    exact hrun ▸ hL
  | cons c cs ih =>
    intro L L' hL hcols hrun
    rw [runCalls] at hrun
    cases hstep : runCall L c with
    | error e => rw [hstep] at hrun; exact absurd hrun (by simp)
    | ok L1 =>
      rw [hstep] at hrun
      exact ih L1 L'
        (runCall_preserves_listInv L L1 c (hcols c (by simp)) hstep hL)
        (fun d hd => hcols d (by simp [hd])) hrun

/-- C1: after any sequence of `append` / `copy_from_scaled` calls whose
column lists are non-empty and row-homogeneous, the concatenated start and
end vectors have the same row count, that row count equals the sum of the
real elements' index-range lengths, and the index ranges are contiguous
`range'` blocks starting at 0 in declaration order (hence pairwise
disjoint), each new range starting at the previous total width. -/
theorem append_sequence_sizes_contiguous {α : Type} (calls : List (VarListCall α))
    (L' : OptimizationVariableList α)
    (hcols : ∀ c ∈ calls, colsHomogeneous c.cxCols)
    (hrun : runCalls {} calls = .ok L') :
    L'.cx_start.length = L'.cx_end.length
    ∧ L'.cx_start.length = sumIndexLens L'
    ∧ contiguousFromB 0 (L'.elements.map (fun e => e.index)) = true := by
  have : listInv L' := by
    refine runCalls_preserves_listInv calls {} L' ?_ hcols hrun
    refine ⟨rfl, rfl, rfl⟩
  exact this

/-- Witness for C1 on a two-call sequence (one `append`, one
`copy_from_scaled`). -/
theorem append_sequence_sizes_contiguous_witness :
    (⟨[⟨"q", [], [0, 1], none⟩, ⟨"u", [], [2], none⟩], [], [1, 2, 5], [3, 4, 5], [],
        [(), (), ()]⟩ : OptimizationVariableList Nat).cx_start.length =
      sumIndexLens (⟨[⟨"q", [], [0, 1], none⟩, ⟨"u", [], [2], none⟩], [], [1, 2, 5],
        [3, 4, 5], [], [(), (), ()]⟩ : OptimizationVariableList Nat) :=
  (append_sequence_sizes_contiguous
    [.app "q" [[1, 2], [3, 4]] [] none, .copyScaled "u" [[5]] [] none [()] [1]]
    ⟨[⟨"q", [], [0, 1], none⟩, ⟨"u", [], [2], none⟩], [], [1, 2, 5], [3, 4, 5], [],
      [(), (), ()]⟩
    (by decide) (by rfl)).2.1

theorem stageSlotCols_cons {α : Type} (cx : List (List α)) (cols : List (List (List α)))
    (i : Nat) :
    stageSlotCols (cx :: cols) i =
      (if i < cx.length - 2 then cx.getD (i + 1) [] else []) ++ stageSlotCols cols i := by
  by_cases h : i < cx.length - 2 <;> simp [stageSlotCols, List.filter_cons, h]

theorem updateIntermediates_length {α : Type} :
    ∀ (inter mids : List (List α)),
      (OptimizationVariableList.updateIntermediates inter mids).length =
        max inter.length mids.length := by
  intro inter mids
  induction mids generalizing inter with
  | nil => simp [OptimizationVariableList.updateIntermediates]
  | cons c cs ih =>
    cases inter with
    | nil => simp [OptimizationVariableList.updateIntermediates, ih]
    | cons x xs =>
      simp [OptimizationVariableList.updateIntermediates, ih]
      omega

theorem updateIntermediates_getD {α : Type} :
    ∀ (inter mids : List (List α)) (i : Nat),
      (OptimizationVariableList.updateIntermediates inter mids).getD i [] =
        inter.getD i [] ++ mids.getD i [] := by
  intro inter mids
  induction mids generalizing inter with
  | nil => intro i; simp [OptimizationVariableList.updateIntermediates]
  | cons c cs ih =>
    intro i
    cases inter with
    | nil =>
      cases i with
      | zero => simp [OptimizationVariableList.updateIntermediates]
      | succ j => simpa [OptimizationVariableList.updateIntermediates] using ih [] j
    | cons x xs =>
      cases i with
      | zero => simp [OptimizationVariableList.updateIntermediates]
      | succ j => simpa [OptimizationVariableList.updateIntermediates] using ih xs j

theorem dropLast_getD {α : Type} (l : List α) (i : Nat) (d : α) :
    l.dropLast.getD i d = if i < l.length - 1 then l.getD i d else d := by
  rw [List.dropLast_eq_take]
  by_cases h : i < l.length - 1
  · rw [List.getD_eq_getElem?_getD, List.getD_eq_getElem?_getD,
      List.getElem?_take_of_lt h]
    simp [h]
  · rw [List.getD_eq_getElem?_getD]
    rw [List.getElem?_take]
    simp [h]

theorem runCalls_intermediates_general {α : Type} :
    ∀ (calls : List (VarListCall α)) (L L' : OptimizationVariableList α),
      runCalls L calls = .ok L' →
      L'.cx_intermediates.length =
        calls.foldl (fun a c => max a (c.cxCols.length - 2)) L.cx_intermediates.length
      ∧ ∀ i, L'.cx_intermediates.getD i [] =
          L.cx_intermediates.getD i [] ++ stageSlotCols (calls.map (fun c => c.cxCols)) i := by
  intro calls
  induction calls with
  | nil =>
    intro L L' hrun
    simp [runCalls] at hrun
    subst hrun
    exact ⟨rfl, fun i => by simp [stageSlotCols]⟩
  | cons c cs ih =>
    intro L L' hrun
    rw [runCalls] at hrun
    cases hstep : runCall L c with
    | error e => rw [hstep] at hrun; exact absurd hrun (by simp)
    | ok L1 =>
      rw [hstep] at hrun
      obtain ⟨ihlen, ihget⟩ := ih L1 L' hrun
      have key : L1.cx_intermediates =
          OptimizationVariableList.updateIntermediates L.cx_intermediates
            ((c.cxCols.drop 1).dropLast) ∧ c.cxCols ≠ [] := by
        cases c with
        | app n cx mx bm =>
          cases cx with
          | nil => simp [runCall, OptimizationVariableList.append] at hstep
          | cons c0 rest =>
            simp only [runCall, OptimizationVariableList.append, Except.ok.injEq] at hstep
            subst hstep
            exact ⟨rfl, by simp [VarListCall.cxCols]⟩
        | copyScaled n cx mx bm sm sc =>
          cases cx with
          | nil => simp [runCall, OptimizationVariableList.copy_from_scaled] at hstep
          | cons c0 rest =>
            cases hsm : sm.head? with
            | none =>
              simp [runCall, OptimizationVariableList.copy_from_scaled, hsm] at hstep
            | some u =>
              simp only [runCall, OptimizationVariableList.copy_from_scaled, hsm,
                Except.ok.injEq] at hstep
              subst hstep
              exact ⟨rfl, by simp [VarListCall.cxCols]⟩
      obtain ⟨hinter, hne⟩ := key
      have hmidlen : ((c.cxCols.drop 1).dropLast).length = c.cxCols.length - 2 := by
        simp [List.length_dropLast]
        omega
      constructor
      · rw [ihlen, hinter, updateIntermediates_length, hmidlen, List.foldl_cons]
      · intro i
        rw [ihget i, hinter, updateIntermediates_getD, List.map_cons, stageSlotCols_cons,
          List.append_assoc]
        congr 2
        rw [dropLast_getD, List.length_drop]
        have : c.cxCols.length - 1 - 1 = c.cxCols.length - 2 := by omega
        rw [this]
        by_cases h : i < c.cxCols.length - 2
        · simp only [h, if_true]
          rw [List.getD_eq_getElem?_getD, List.getD_eq_getElem?_getD, List.getElem?_drop,
            Nat.add_comm 1 i]
        · simp [h]

/-- C8: after a sequence of `append` calls in which call `k` supplies `m_k`
columns, the intermediates list has exactly `max_k (m_k - 2)` stage slots
(truncated subtraction), and stage slot `i` is the vertical concatenation,
in call order, of the `(i+1)`-th middle column of exactly those calls with
at least `i+1` middle columns. -/
theorem append_sequence_intermediates {α : Type} (calls : List (VarListCall α))
    (L' : OptimizationVariableList α)
    (happ : ∀ c ∈ calls, c.isApp = true)
    (hrun : runCalls {} calls = .ok L') :
    L'.cx_intermediates.length = maxStages (calls.map (fun c => c.cxCols))
    ∧ ∀ i, L'.cx_intermediates.getD i [] = stageSlotCols (calls.map (fun c => c.cxCols)) i := by
  have := happ
  obtain ⟨hlen, hget⟩ := runCalls_intermediates_general calls {} L' hrun
  constructor
  · simpa [maxStages, List.foldl_map] using hlen
  · intro i
    simpa using hget i

/-- Witness for C8 on two `append` calls with 3 and 4 columns. -/
theorem append_sequence_intermediates_witness :
    (⟨[⟨"a", [], [0], none⟩, ⟨"b", [], [1], none⟩], [], [1, 4], [3, 7], [[2, 5], [6]],
        [(), ()]⟩ : OptimizationVariableList Nat).cx_intermediates.getD 0 [] =
      stageSlotCols [[[1], [2], [3]], [[4], [5], [6], [7]]] 0 :=
  (append_sequence_intermediates
    [.app "a" [[1], [2], [3]] [] none, .app "b" [[4], [5], [6], [7]] [] none]
    ⟨[⟨"a", [], [0], none⟩, ⟨"b", [], [1], none⟩], [], [1, 4], [3, 7], [[2, 5], [6]],
      [(), ()]⟩
    (by decide) (by rfl)).2 0

/-- C10: calling `VariableScalingList.add` with a scaling argument that is
already a `VariableScaling` instance always re-invokes `add` with
`scaling=None`, the `VariableScaling` constructor raises `RuntimeError`
on `None`, and no entry is stored. -/
theorem add_with_variable_scaling_always_fails (L : VariableScalingList)
    (name : String) (vec : List Rat) (phase : Int) :
    L.add name (.vsInput vec) phase =
      (L, some (.runtimeError "Scaling must be a list or a numpy array, not <class 'NoneType'>")) := by
  rfl

/-! ### Pointwise evaluation of the orchestrator monad -/

@[simp] theorem bind_apply {α β : Type} (x : CfgM α) (f : α → CfgM β) (s : OcpState) :
    (x >>= f) s = match x s with
      | .ok a s' => f a s'
      | .error e s' => .error e s' := by
  show EStateM.bind x f s = _
  cases h : x s <;> simp [EStateM.bind, h]

@[simp] theorem pure_apply {α : Type} (a : α) (s : OcpState) :
    (pure a : CfgM α) s = .ok a s := rfl

@[simp] theorem get_apply (s : OcpState) : (get : CfgM OcpState) s = .ok s s := rfl

@[simp] theorem set_apply (s' s : OcpState) : (set s' : CfgM Unit) s = .ok ⟨⟩ s' := rfl

@[simp] theorem raise_apply {α : Type} (e : PyErr) (s : OcpState) :
    (raise e : CfgM α) s = .error e s := rfl

@[simp] theorem liftExcept_apply {α : Type} (x : Except PyErr α) (s : OcpState) :
    liftExcept x s = match x with
      | .ok a => .ok a s
      | .error e => .error e s := by
  cases x <;> rfl

@[simp] theorem getNlp_apply (p : Nat) (s : OcpState) :
    getNlp p s = match s.nlp.get? p with
      | some ph => .ok ph s
      | none => .error (.indexError "list index out of range") s := by
  cases h : s.nlp.get? p <;> simp [getNlp, ← List.get?_eq_getElem?, h]

@[simp] theorem modifyNlp_apply (p : Nat) (f : NonLinearProgram → NonLinearProgram)
    (s : OcpState) :
    modifyNlp p f s = match s.nlp.get? p with
      | some ph => .ok ⟨⟩ { s with nlp := s.nlp.set p (f ph) }
      | none => .error (.indexError "list index out of range") s := by
  cases h : s.nlp.get? p <;> simp [modifyNlp, ← List.get?_eq_getElem?, h]

theorem list_set_get_self {β : Type} :
    ∀ (l : List β) (n : Nat) (a : β), l.get? n = some a → l.set n a = l
  | [], _, _, h => by simp at h
  | b :: bs, 0, a, h => by simp at h; simp [h]
  | b :: bs, n + 1, a, h => by
    rw [List.get?_cons_succ] at h
    simp [List.set, list_set_get_self bs n a h]

/-- C3: `check_variable_copy_condition` is `True` exactly when a source
phase index is given, strictly precedes the consuming phase, and the name
is registered in that source phase's container of the requested kind; it is
`False` whenever the source index is at or above the consuming phase's
index. -/
theorem check_variable_copy_condition_spec (nlp : List NonLinearProgram)
    (phase_idx : Nat) (use_from : Option Nat) (name : String) (attr : DecisionVarAttr) :
    (check_variable_copy_condition nlp phase_idx use_from name attr = true ↔
      ∃ u src, use_from = some u ∧ u < phase_idx ∧ nlp.get? u = some src ∧
        (src.attrContainer attr).containsName name = true)
    ∧ (∀ u, use_from = some u → phase_idx ≤ u →
        check_variable_copy_condition nlp phase_idx use_from name attr = false) := by
  constructor
  · cases use_from with
    | none => simp [check_variable_copy_condition]
    | some u =>
      simp only [check_variable_copy_condition, Bool.and_eq_true, decide_eq_true_eq,
        Option.some.injEq]
      cases hsrc : nlp.get? u with
      | none =>
        simp only [hsrc]
        constructor
        · rintro ⟨-, h⟩; exact absurd h (by simp)
        · rintro ⟨u', src, rfl, -, hs, -⟩
          rw [hsrc] at hs
          exact absurd hs (by simp)
      | some src =>
        simp only [hsrc]
        constructor
        · rintro ⟨hlt, hc⟩
          exact ⟨u, src, rfl, hlt, hsrc, hc⟩
        · rintro ⟨u', src', rfl, hlt, hs, hc⟩
          rw [hsrc] at hs
          cases hs
          exact ⟨hlt, hc⟩
  · intro u hu hle
    subst hu
    simp [check_variable_copy_condition, Nat.not_lt.mpr hle]

/-- Witness for C3 at a forward (same-or-later) source phase. -/
theorem check_variable_copy_condition_spec_witness :
    check_variable_copy_condition [] 1 (some 2) "q" .states = false :=
  (check_variable_copy_condition_spec [] 1 (some 2) "q" .states).2 2 rfl (by decide)

/-! ### Stepping lemmas for the orchestrator -/

theorem list_forM_nil {β : Type} (body : β → CfgM PUnit) :
    List.forM [] body = (pure ⟨⟩ : CfgM PUnit) := rfl

theorem list_forM_cons {β : Type} (b : β) (bs : List β) (body : β → CfgM PUnit) :
    List.forM (b :: bs) body = (body b >>= fun _ => List.forM bs body) := rfl

theorem list_foldlM_cons {β γ : Type} (f : γ → β → CfgM γ) (init : γ) (b : β)
    (bs : List β) :
    List.foldlM f init (b :: bs) = (f init b >>= fun acc => List.foldlM f acc bs) := rfl

/-- A loop whose body leaves the state unchanged leaves the state
unchanged. -/
theorem forM_ok_of_body_ok {β : Type} (l : List β) (body : β → CfgM PUnit) (s : OcpState)
    (h : ∀ b ∈ l, body b s = .ok ⟨⟩ s) : List.forM l body s = .ok ⟨⟩ s := by
  induction l with
  | nil => rfl
  | cons b bs ih =>
    rw [list_forM_cons, bind_apply, h b (by simp)]
    exact ih (fun c hc => h c (by simp [hc]))

/-- A loop whose first iteration raises, raises with that iteration's
state. -/
theorem forM_error_of_head {β : Type} (b : β) (bs : List β) (body : β → CfgM PUnit)
    (s s' : OcpState) (e : PyErr) (h : body b s = .error e s') :
    List.forM (b :: bs) body s = .error e s' := by
  rw [list_forM_cons, bind_apply, h]

theorem foldlM_error_of_head {β γ : Type} (f : γ → β → CfgM γ) (init : γ) (b : β)
    (bs : List β) (s s' : OcpState) (e : PyErr) (h : f init b s = .error e s') :
    List.foldlM f init (b :: bs) s = .error e s' := by
  rw [list_foldlM_cons, bind_apply, h]

/-- Homogeneous fatigue sub-models pass the verification loop without
touching the state. -/
theorem homogeneityChecks_ok (name : String) (fsuffix : List String) (mi sc : Bool)
    (dofs : List FatigueDof)
    (h : ∀ dof ∈ dofs, ∀ km ∈ dof.models.models,
      km.2.state_suffix = fsuffix ∧ dof.models.multi_interface = mi ∧
        dof.models.split_controls = sc)
    (s : OcpState) :
    homogeneityChecks name fsuffix mi sc dofs s = .ok ⟨⟩ s := by
  unfold homogeneityChecks
  apply forM_ok_of_body_ok
  intro dof hdof
  apply forM_ok_of_body_ok
  intro km hkm
  obtain ⟨h1, h2, h3⟩ := h dof hdof km hkm
  simp [h1, h2, h3]

theorem list_get_set_self {β : Type} :
    ∀ (l : List β) (n : Nat) (a b : β), l.get? n = some a → (l.set n b).get? n = some b
  | [], _, _, _, h => by simp at h
  | _ :: _, 0, _, _, _ => by simp
  | x :: xs, n + 1, a, b, h => by
    rw [List.get?_cons_succ] at h
    simpa [List.set] using list_get_set_self xs n a b h

/-- The thread/allocation compatibility check raises as the first action of
the core configuration path, with the state untouched. -/
theorem configureCore_thread_raise (name : String) (name_elements : List String)
    (p : Nat) (as_s as_c as_sd as_a skip : Bool) (axes : Option BiMapping)
    (s : OcpState) (ph : NonLinearProgram) (hph : s.nlp.get? p = some ph)
    (ht : 1 < s.n_threads) (hd : ph.phase_dynamics = .ONE_PER_NODE) :
    configureCore name name_elements p as_s as_c as_sd as_a skip axes s =
      .error (.runtimeError nThreadsMsg) s := by
  have hck : checkForNThreadsCompatibility p s = .error (.runtimeError nThreadsMsg) s := by
    have hph' : s.nlp[p]? = some ph := by rw [← List.get?_eq_getElem?]; exact hph
    unfold checkForNThreadsCompatibility
    simp [hph, hph', hd, ht]
  unfold configureCore
  simp only [bind_apply, hck]

theorem configureNewVariableNoFatigue_thread_raise (name : String)
    (name_elements : List String) (p : Nat) (as_s as_c as_sd as_a skip : Bool)
    (s : OcpState) (ph : NonLinearProgram) (hph : s.nlp.get? p = some ph)
    (ht : 1 < s.n_threads) (hd : ph.phase_dynamics = .ONE_PER_NODE) :
    configureNewVariableNoFatigue name name_elements p as_s as_c as_sd as_a skip s =
      .error (.runtimeError nThreadsMsg) s := by
  unfold configureNewVariableNoFatigue
  have h0 : checkCombineStateControlPlot false none s = .ok ⟨⟩ s := rfl
  simp only [bind_apply, h0]
  exact configureCore_thread_raise name name_elements p as_s as_c as_sd as_a skip none
    s ph hph ht hd

/-- C2: with more than one worker thread and the one-variable-set-per-node
allocation policy, `NewVariableConfiguration` construction fails with the
thread-incompatibility `RuntimeError` before any variable is registered
into any states / controls / states-dot / algebraic-states container — also
when the name carries a (well-formed) fatigue declaration, where the
failure occurs inside the first recursive sub-variable configuration, after
plot keys only. -/
theorem multithreading_one_per_node_fails_before_any_registration
    (name : String) (name_elements : List String) (p : Nat)
    (as_states as_controls as_states_dot as_algebraic_states skip_plot : Bool)
    (fatigue : Option FatigueList) (combine_name : Option String)
    (combine_state_control_plot : Bool) (axes_idx : Option BiMapping)
    (s : OcpState) (ph : NonLinearProgram)
    (hph : s.nlp.get? p = some ph)
    (ht : 1 < s.n_threads)
    (hd : ph.phase_dynamics = .ONE_PER_NODE)
    (hcomb : combine_state_control_plot = true → combine_name = none)
    (hfat : ∀ f fv, fatigue = some f → f.find? name = some fv →
      as_controls = true ∧
      ∃ d0 m0 sub0, fv.dofs.head? = some d0 ∧ fv.suffix.head? = some m0 ∧
        assocFind? d0.models.models m0 = some sub0 ∧
        ∀ dof ∈ fv.dofs, ∀ km ∈ dof.models.models,
          km.2.state_suffix = sub0.state_suffix ∧
          dof.models.multi_interface = d0.models.multi_interface ∧
          dof.models.split_controls = d0.models.split_controls) :
    ∃ s', configureNewVariable name name_elements p as_states as_controls as_states_dot
        as_algebraic_states fatigue combine_name combine_state_control_plot skip_plot
        axes_idx s = .error (.runtimeError nThreadsMsg) s'
      ∧ s'.nlp.map (fun q => (q.states, q.controls, q.states_dot, q.algebraic_states)) =
        s.nlp.map (fun q => (q.states, q.controls, q.states_dot, q.algebraic_states)) := by
  have hcomb' : checkCombineStateControlPlot combine_state_control_plot combine_name s =
      .ok ⟨⟩ s := by
    unfold checkCombineStateControlPlot
    cases hc : combine_state_control_plot with
    | false => rfl
    | true => rw [hcomb hc]; rfl
  cases fatigue with
  | none =>
    refine ⟨s, ?_, rfl⟩
    have hmf : manageFatigueToNewVariable name name_elements p as_states as_controls
        none s = .ok false s := rfl
    have hcore := configureCore_thread_raise name name_elements p as_states as_controls
      as_states_dot as_algebraic_states skip_plot axes_idx s ph hph ht hd
    simp only [configureNewVariable, bind_apply, hcomb', hmf, Bool.false_eq_true,
      if_false]
    exact hcore
  | some f =>
    cases hfind : f.find? name with
    | none =>
      refine ⟨s, ?_, rfl⟩
      have hmf : manageFatigueToNewVariable name name_elements p as_states as_controls
          (some f) s = .ok false s := by
        unfold manageFatigueToNewVariable
        simp [hfind]
      have hcore := configureCore_thread_raise name name_elements p as_states as_controls
        as_states_dot as_algebraic_states skip_plot axes_idx s ph hph ht hd
      simp only [configureNewVariable, bind_apply, hcomb', hmf, Bool.false_eq_true,
        if_false]
      exact hcore
    | some fv =>
      obtain ⟨hac, d0, m0, sub0, hd0, hm0, hsub0, hhomog⟩ := hfat f fv rfl hfind
      subst hac
      -- the two plot registrations
      set ph1 : NonLinearProgram := { ph with
        plot := if ph.plot.contains ("fatigue_" ++ name) then ph.plot
          else ph.plot ++ ["fatigue_" ++ name] } with hph1def
      set cpn : String := if !d0.models.multi_interface && d0.models.split_controls then
          name ++ "_controls" else name with hcpn
      set ph2 : NonLinearProgram := { ph1 with
        plot := if ph1.plot.contains cpn then ph1.plot else ph1.plot ++ [cpn] } with hph2def
      set s1 : OcpState := { s with nlp := s.nlp.set p ph1 } with hs1
      set s2 : OcpState := { s1 with nlp := s1.nlp.set p ph2 } with hs2
      have hget1 : s1.nlp.get? p = some ph1 := list_get_set_self s.nlp p ph ph1 hph
      have hget2 : s2.nlp.get? p = some ph2 := list_get_set_self s1.nlp p ph1 ph2 hget1
      have hplot1 : addPlotM p ("fatigue_" ++ name) s = .ok ⟨⟩ s1 := by
        have hph' : s.nlp[p]? = some ph := by rw [← List.get?_eq_getElem?]; exact hph
        simp [addPlotM, hph, hph', hs1, hph1def]
      have hplot2 : addPlotM p cpn s1 = .ok ⟨⟩ s2 := by
        have hget1' : s1.nlp[p]? = some ph1 := by rw [← List.get?_eq_getElem?]; exact hget1
        simp [addPlotM, hget1, hget1', hs2, hph2def]
      have hhomog' : homogeneityChecks name sub0.state_suffix d0.models.multi_interface
          d0.models.split_controls fv.dofs s = .ok ⟨⟩ s :=
        homogeneityChecks_ok _ _ _ _ _ hhomog s
      -- the first meta-suffix iteration raises inside its recursive
      -- configuration call
      have hstep : metaSuffixStep name name_elements p as_states true
          d0.models.multi_interface d0.models.split_controls sub0.state_suffix []
          (0, m0) s2 = .error (.runtimeError nThreadsMsg) s2 := by
        have hraise1 := configureNewVariableNoFatigue_thread_raise
          (if !d0.models.multi_interface then name ++ "_" ++ m0 else name)
          name_elements p as_states true false false true s2 ph2 hget2 ht hd
        have hraise2 := configureNewVariableNoFatigue_thread_raise name
          name_elements p as_states true false false true s2 ph2 hget2 ht hd
        unfold metaSuffixStep
        cases hsc : d0.models.split_controls with
        | true => simp only [bind_apply, if_true, hsc, hraise1]
        | false => simp only [bind_apply, if_false, hsc, Nat.zero_eq, beq_self_eq_true,
            if_true, hraise2, Bool.false_eq_true]
      -- the suffix list is non-empty
      obtain ⟨rest, hsuf⟩ : ∃ rest, fv.suffix = m0 :: rest := by
        cases hs : fv.suffix with
        | nil => rw [hs] at hm0; exact absurd hm0 (by simp)
        | cons a as =>
          rw [hs] at hm0
          simp at hm0
          exact ⟨as, by rw [hm0]⟩
      have hfold : List.foldlM (metaSuffixStep name name_elements p as_states true
          d0.models.multi_interface d0.models.split_controls sub0.state_suffix) []
          fv.suffix.enum s2 = .error (.runtimeError nThreadsMsg) s2 := by
        rw [hsuf, List.enum_cons]
        exact foldlM_error_of_head _ _ _ _ _ _ _ hstep
      have hmf : manageFatigueToNewVariable name name_elements p as_states true
          (some f) s = .error (.runtimeError nThreadsMsg) s2 := by
        unfold manageFatigueToNewVariable
        simp only [hfind, Bool.not_true, Bool.false_eq_true, if_false, bind_apply,
          pure_apply, hd0, hm0, hsub0, hhomog', hplot1, hcpn, hplot2, hfold]
      refine ⟨s2, ?_, ?_⟩
      · simp only [configureNewVariable, bind_apply, hcomb', hmf]
      · rw [hs2, hs1, List.set_set, List.map_set]
        apply list_set_get_self
        rw [List.get?_map, hph]
        rfl

/-- Witness for C2 at a concrete two-thread, per-node-allocation problem. -/
theorem multithreading_witness :
    ∃ s', configureNewVariable "q" ["0"] 0 false true false false none none false false
        none
        ⟨2, 1,
          [{ phase_idx := 0, phase_dynamics := .ONE_PER_NODE,
             use_states_from_phase_idx := some 0, use_states_dot_from_phase_idx := some 0,
             use_controls_from_phase_idx := some 0, ns := 1, n_states_nodes := 1,
             n_controls_nodes := 1, control_type := .CONSTANT,
             ode_solver_n_required_cx := 0, variable_mappings := [], x_init := [],
             u_init := [], a_init := [], x_scaling := [], xdot_scaling := [],
             u_scaling := [], a_scaling := [],
             states := ⟨.ONE_PER_NODE, [{}], [{}], [[]], 0⟩,
             controls := ⟨.ONE_PER_NODE, [{}], [{}], [[]], 0⟩,
             states_dot := ⟨.ONE_PER_NODE, [{}], [{}], [[]], 0⟩,
             algebraic_states := ⟨.ONE_PER_NODE, [{}], [{}], [[]], 0⟩, plot := [] }]⟩ =
      .error (.runtimeError nThreadsMsg) s' := by
  obtain ⟨s', h1, -⟩ := multithreading_one_per_node_fails_before_any_registration
    "q" ["0"] 0 false true false false false none none false none
    ⟨2, 1,
      [{ phase_idx := 0, phase_dynamics := .ONE_PER_NODE,
         use_states_from_phase_idx := some 0, use_states_dot_from_phase_idx := some 0,
         use_controls_from_phase_idx := some 0, ns := 1, n_states_nodes := 1,
         n_controls_nodes := 1, control_type := .CONSTANT,
         ode_solver_n_required_cx := 0, variable_mappings := [], x_init := [],
         u_init := [], a_init := [], x_scaling := [], xdot_scaling := [],
         u_scaling := [], a_scaling := [],
         states := ⟨.ONE_PER_NODE, [{}], [{}], [[]], 0⟩,
         controls := ⟨.ONE_PER_NODE, [{}], [{}], [[]], 0⟩,
         states_dot := ⟨.ONE_PER_NODE, [{}], [{}], [[]], 0⟩,
         algebraic_states := ⟨.ONE_PER_NODE, [{}], [{}], [[]], 0⟩, plot := [] }]⟩
    { phase_idx := 0, phase_dynamics := .ONE_PER_NODE,
      use_states_from_phase_idx := some 0, use_states_dot_from_phase_idx := some 0,
      use_controls_from_phase_idx := some 0, ns := 1, n_states_nodes := 1,
      n_controls_nodes := 1, control_type := .CONSTANT,
      ode_solver_n_required_cx := 0, variable_mappings := [], x_init := [],
      u_init := [], a_init := [], x_scaling := [], xdot_scaling := [],
      u_scaling := [], a_scaling := [],
      states := ⟨.ONE_PER_NODE, [{}], [{}], [[]], 0⟩,
      controls := ⟨.ONE_PER_NODE, [{}], [{}], [[]], 0⟩,
      states_dot := ⟨.ONE_PER_NODE, [{}], [{}], [[]], 0⟩,
      algebraic_states := ⟨.ONE_PER_NODE, [{}], [{}], [[]], 0⟩, plot := [] }
    rfl (by decide) rfl (fun h => by cases h) (fun f fv h => by cases h)
  exact ⟨s', h1⟩

/-! ### Success lemmas for the symbol builders -/

theorem get_some_of_get? {β : Type} {l : List β} {n : Nat} {a : β}
    (h : l.get? n = some a) : l[n]? = some a := by
  rw [← List.get?_eq_getElem?]
  exact h

theorem exceptMapM_ok_of_forall {β γ : Type} (f : β → Except PyErr γ) (P : γ → Prop) :
    ∀ (l : List β), (∀ b ∈ l, ∃ c, f b = .ok c ∧ P c) →
      ∃ l', l.mapM f = .ok l' ∧ l'.length = l.length ∧ ∀ c ∈ l', P c := by
  intro l
  induction l with
  | nil => intro _; exact ⟨[], rfl, rfl, by simp⟩
  | cons b bs ih =>
    intro h
    obtain ⟨c, hc, hPc⟩ := h b (by simp)
    obtain ⟨cs, hcs, hlen, hP⟩ := ih (fun x hx => h x (by simp [hx]))
    refine ⟨c :: cs, ?_, by simp [hlen], ?_⟩
    · rw [List.mapM_cons, hc, hcs]
      rfl
    · intro c' hc'
      rcases List.mem_cons.mp hc' with rfl | hm
      · exact hPc
      · exact hP _ hm

theorem defineCxScaled_identity_ok (name : String) (elems : List String)
    (pidx n_col nsh init : Nat) :
    ∃ cols, defineCxScaled name elems pidx (BiMapping.identityMap elems.length).to_first
        n_col nsh init = .ok cols
      ∧ cols.length = nsh + 1
      ∧ ∀ nc ∈ cols, nc.length = n_col ∧ ∀ col ∈ nc, col.length = elems.length := by
  have hinner : ∀ node j : Nat, ∃ col,
      (BiMapping.identityMap elems.length).to_first.mapM (fun oi =>
        match oi with
        | none => Except.error (PyErr.typeError "bad operand type for unary -: NoneType")
        | some i =>
          match elems.get? i.natAbs with
          | none => Except.error (PyErr.indexError "list index out of range")
          | some el =>
            Except.ok (CExpr.sym ((if i < 0 then "-" else "") ++ name ++ "_" ++ el ++
              "_phase" ++ toString pidx ++ "_node" ++
              toString (node + init) ++ "." ++ toString j))) = .ok col
        ∧ col.length = elems.length := by
    intro node j
    obtain ⟨col, hcol, hclen, -⟩ := exceptMapM_ok_of_forall
      (P := fun _ => True)
      (f := fun oi =>
        match oi with
        | none => Except.error (PyErr.typeError "bad operand type for unary -: NoneType")
        | some i =>
          match elems.get? i.natAbs with
          | none => Except.error (PyErr.indexError "list index out of range")
          | some el =>
            Except.ok (CExpr.sym ((if i < 0 then "-" else "") ++ name ++ "_" ++ el ++
              "_phase" ++ toString pidx ++ "_node" ++
              toString (node + init) ++ "." ++ toString j)))
      ((BiMapping.identityMap elems.length).to_first)
      (by
        intro oi hoi
        simp only [BiMapping.identityMap, List.mem_map, List.mem_range] at hoi
        obtain ⟨i, hi, rfl⟩ := hoi
        have hel : elems.get? (Int.ofNat i).natAbs =
            some (elems.get ⟨i, by simpa using hi⟩) := by
          simpa [Int.natAbs_ofNat] using List.get?_eq_get (by simpa using hi)
        exact ⟨_, by simp only [hel]; rfl, trivial⟩)
    refine ⟨col, hcol, ?_⟩
    rw [hclen]
    simp [BiMapping.identityMap]
  have hmid : ∀ node : Nat, ∃ nc,
      (List.range n_col).mapM (fun j =>
        (BiMapping.identityMap elems.length).to_first.mapM (fun oi =>
          match oi with
          | none => Except.error (PyErr.typeError "bad operand type for unary -: NoneType")
          | some i =>
            match elems.get? i.natAbs with
            | none => Except.error (PyErr.indexError "list index out of range")
            | some el =>
              Except.ok (CExpr.sym ((if i < 0 then "-" else "") ++ name ++ "_" ++ el ++
                "_phase" ++ toString pidx ++ "_node" ++
                toString (node + init) ++ "." ++ toString j)))) = .ok nc
        ∧ nc.length = n_col ∧ ∀ col ∈ nc, col.length = elems.length := by
    intro node
    obtain ⟨nc, hnc, hlen, hP⟩ := exceptMapM_ok_of_forall
      (f := fun j =>
        (BiMapping.identityMap elems.length).to_first.mapM (fun oi =>
          match oi with
          | none => Except.error (PyErr.typeError "bad operand type for unary -: NoneType")
          | some i =>
            match elems.get? i.natAbs with
            | none => Except.error (PyErr.indexError "list index out of range")
            | some el =>
              Except.ok (CExpr.sym ((if i < 0 then "-" else "") ++ name ++ "_" ++ el ++
                "_phase" ++ toString pidx ++ "_node" ++
                toString (node + init) ++ "." ++ toString j))))
      (P := fun col => col.length = elems.length)
      (List.range n_col)
      (by
        intro j _
        obtain ⟨col, hcol, hclen⟩ := hinner node j
        exact ⟨col, hcol, hclen⟩)
    exact ⟨nc, hnc, by simpa using hlen, hP⟩
  obtain ⟨cols, hcols, hlen, hP⟩ := exceptMapM_ok_of_forall
    (f := fun node =>
      (List.range n_col).mapM (fun j =>
        (BiMapping.identityMap elems.length).to_first.mapM (fun oi =>
          match oi with
          | none => Except.error (PyErr.typeError "bad operand type for unary -: NoneType")
          | some i =>
            match elems.get? i.natAbs with
            | none => Except.error (PyErr.indexError "list index out of range")
            | some el =>
              Except.ok (CExpr.sym ((if i < 0 then "-" else "") ++ name ++ "_" ++ el ++
                "_phase" ++ toString pidx ++ "_node" ++
                toString (node + init) ++ "." ++ toString j)))))
    (P := fun nc => nc.length = n_col ∧ ∀ col ∈ nc, col.length = elems.length)
    (List.range (nsh + 1))
    (by
      intro node _
      obtain ⟨nc, hnc, h1, h2⟩ := hmid node
      exact ⟨nc, hnc, h1, h2⟩)
  exact ⟨cols, hcols, by simpa using hlen, hP⟩

theorem mulColumnScale_ones_ok (col : List CExpr) (m : Nat) (h : col.length = m) :
    mulColumnScale col (List.replicate m 1) =
      .ok (List.zipWith (fun e c => CExpr.mulScale e c) col (List.replicate m 1)) := by
  unfold mulColumnScale
  rw [if_pos (by simp [h])]

theorem defineCxUnscaled_ones_ok (cols : List (List (List CExpr))) (m n_col : Nat)
    (h : ∀ nc ∈ cols, nc.length = n_col ∧ ∀ col ∈ nc, col.length = m) :
    ∃ cols', defineCxUnscaled cols (List.replicate m 1) = .ok cols'
      ∧ cols'.length = cols.length ∧ ∀ nc ∈ cols', nc.length = n_col := by
  unfold defineCxUnscaled
  obtain ⟨cols', h1, h2, h3⟩ := exceptMapM_ok_of_forall
    (f := fun nc => nc.mapM (fun col => mulColumnScale col (List.replicate m 1)))
    (P := fun nc => nc.length = n_col) cols
    (by
      intro nc hnc
      obtain ⟨hcnt, hcols⟩ := h nc hnc
      obtain ⟨nc', hnc', hlen, -⟩ := exceptMapM_ok_of_forall
        (f := fun col => mulColumnScale col (List.replicate m 1)) (P := fun _ => True) nc
        (by
          intro col hcol
          exact ⟨_, mulColumnScale_ones_ok col m (hcols col hcol), trivial⟩)
      exact ⟨nc', hnc', by simpa [hlen] using hcnt⟩)
  exact ⟨cols', h1, h2, h3⟩

theorem buildMxSym_identity_ok (name : String) (elems : List String) :
    ∃ labels, (BiMapping.identityMap elems.length).to_second.mapM
        (fun oi => buildMxSymName name elems oi) = .ok labels := by
  obtain ⟨labels, hl, -, -⟩ := exceptMapM_ok_of_forall
    (fun oi => buildMxSymName name elems oi) (fun _ => True)
    ((BiMapping.identityMap elems.length).to_second)
    (by
      intro oi hoi
      simp only [BiMapping.identityMap, List.mem_map, List.mem_range] at hoi
      obtain ⟨i, hi, rfl⟩ := hoi
      have hel : elems.get? (Int.ofNat i).natAbs = some (elems.get ⟨i, by simpa using hi⟩) := by
        simpa [Int.natAbs_ofNat] using List.get?_eq_get (by simpa using hi)
      exact ⟨_, by unfold buildMxSymName; simp only [hel]; rfl, trivial⟩)
  exact ⟨labels, hl⟩

/-! ### Assoc-store lemmas -/

theorem assocFind?_cons_ne {β : Type} (k0 : String) (v0 : β) (rest : List (String × β))
    (k : String) (h : (k0 == k) = false) :
    assocFind? ((k0, v0) :: rest) k = assocFind? rest k := by
  unfold assocFind?
  rw [List.find?_cons_of_neg _ (by simp [h])]

theorem assocFind?_cons_eq {β : Type} (k0 : String) (v0 : β) (rest : List (String × β))
    (k : String) (h : (k0 == k) = true) :
    assocFind? ((k0, v0) :: rest) k = some v0 := by
  unfold assocFind?
  rw [List.find?_cons_of_pos _ (by simpa using h)]
  rfl

theorem assocFind?_set_self {β : Type} :
    ∀ (l : List (String × β)) (k : String) (v : β), assocFind? (assocSet l k v) k = some v
  | [], k, v => by
    show assocFind? [(k, v)] k = some v
    exact assocFind?_cons_eq k v [] k (by simp)
  | (k0, v0) :: rest, k, v => by
    by_cases h : k0 = k
    · have hb : (k0 == k) = true := by simpa using h
      show assocFind? (if (k0 == k) = true then (k, v) :: rest else
        (k0, v0) :: assocSet rest k v) k = some v
      rw [if_pos hb]
      exact assocFind?_cons_eq k v rest k (by simp)
    · have hb : (k0 == k) = false := by simpa using h
      show assocFind? (if (k0 == k) = true then (k, v) :: rest else
        (k0, v0) :: assocSet rest k v) k = some v
      rw [if_neg (by simp [hb])]
      rw [assocFind?_cons_ne k0 v0 _ k hb]
      exact assocFind?_set_self rest k v

theorem assocFind?_set_other {β : Type} :
    ∀ (l : List (String × β)) (k k' : String) (v : β), k' ≠ k →
      assocFind? (assocSet l k v) k' = assocFind? l k'
  | [], k, k', v, h => by
    have hb : (k == k') = false := by simpa using fun e => h e.symm
    show assocFind? [(k, v)] k' = assocFind? [] k'
    rw [assocFind?_cons_ne k v [] k' hb]
  | (k0, v0) :: rest, k, k', v, h => by
    by_cases h0 : k0 = k
    · have hb : (k0 == k) = true := by simpa using h0
      have hkk' : (k == k') = false := by simpa using fun e => h e.symm
      have hk0k' : (k0 == k') = false := by
        subst h0
        exact hkk'
      show assocFind? (if (k0 == k) = true then (k, v) :: rest else
        (k0, v0) :: assocSet rest k v) k' = _
      rw [if_pos hb, assocFind?_cons_ne k v rest k' hkk',
        assocFind?_cons_ne k0 v0 rest k' hk0k']
    · have hb : (k0 == k) = false := by simpa using h0
      show assocFind? (if (k0 == k) = true then (k, v) :: rest else
        (k0, v0) :: assocSet rest k v) k' = _
      rw [if_neg (by simp [hb])]
      by_cases h1 : k0 = k'
      · have hb1 : (k0 == k') = true := by simpa using h1
        rw [assocFind?_cons_eq k0 v0 _ k' hb1, assocFind?_cons_eq k0 v0 rest k' hb1]
      · have hb1 : (k0 == k') = false := by simpa using h1
        rw [assocFind?_cons_ne k0 v0 _ k' hb1, assocFind?_cons_ne k0 v0 rest k' hb1]
        exact assocFind?_set_other rest k k' v h

/-- Effect of one node iteration of a non-copy registration block: the
per-kind container gains exactly one real element (with the identity
mapping) in its scaled and unscaled lists at that node, and nothing else of
the problem state changes. -/
theorem registerKindBody_ok (p : Nat) (attr : DecisionVarAttr) (name : String)
    (elems : List String) (n_col nsh : Nat) (srcIdx : Option Nat) (mx : List CExpr)
    (i : Nat) (t : OcpState) (pht : NonLinearProgram)
    (Ls Lu : OptimizationVariableList CExpr)
    (hph : t.nlp.get? p = some pht)
    (hmap : assocFind? pht.variable_mappings name =
      some (BiMapping.identityMap elems.length))
    (hscal : assocFind? (pht.scalingStore attr) name =
      some (List.replicate elems.length 1))
    (hLs : (pht.attrContainer attr).scaled.get? i = some Ls)
    (hLu : (pht.attrContainer attr).unscaled.get? i = some Lu)
    (hncol : 0 < n_col) :
    ∃ Ls' Lu' og,
      registerKindBody p attr name elems n_col nsh false srcIdx mx none i t =
        .ok ⟨⟩ { t with nlp := t.nlp.set p (pht.setAttrContainer attr
          { pht.attrContainer attr with
            scaled := (pht.attrContainer attr).scaled.set i Ls'
            unscaled := (pht.attrContainer attr).unscaled.set i Lu'
            originals := og }) }
      ∧ appendedOne name (BiMapping.identityMap elems.length) Ls Ls'
      ∧ appendedOne name (BiMapping.identityMap elems.length) Lu Lu' := by
  have hph' : t.nlp[p]? = some pht := get_some_of_get? hph
  have hgm : getMapping p name t = .ok (BiMapping.identityMap elems.length) t := by
    simp [getMapping, hph, hph', hmap]
  have hgs : getScaling p attr name t = .ok (List.replicate elems.length 1) t := by
    simp [getScaling, hph, hph', hscal]
  obtain ⟨cols, hcols, hclen, hcP⟩ := defineCxScaled_identity_ok name elems
    pht.phase_idx n_col nsh i
  obtain ⟨colsU, hU, hUlen, hUcnt⟩ := defineCxUnscaled_ones_ok cols elems.length n_col hcP
  obtain ⟨c0u, restu, hcueq⟩ : ∃ a l, colsU = a :: l := by
    cases hc : colsU with
    | nil => rw [hc] at hUlen; rw [hclen] at hUlen; simp at hUlen
    | cons a l => exact ⟨a, l, rfl⟩
  obtain ⟨c0s, rests, hcseq⟩ : ∃ a l, cols = a :: l := by
    cases hc : cols with
    | nil => rw [hc] at hclen; simp at hclen
    | cons a l => exact ⟨a, l, rfl⟩
  have hcu0len : c0u.length = n_col := hUcnt c0u (by rw [hcueq]; simp)
  have hcs0len : c0s.length = n_col := (hcP c0s (by rw [hcseq]; simp)).1
  obtain ⟨cu0, curest, hcu⟩ : ∃ a l, c0u = a :: l := by
    cases hc : c0u with
    | nil => rw [hc] at hcu0len; simp at hcu0len; omega
    | cons a l => exact ⟨a, l, rfl⟩
  obtain ⟨cs0, csrest, hcs⟩ : ∃ a l, c0s = a :: l := by
    cases hc : c0s with
    | nil => rw [hc] at hcs0len; simp at hcs0len; omega
    | cons a l => exact ⟨a, l, rfl⟩
  refine ⟨{ Ls with
      cx_start := Ls.cx_start ++ cs0
      cx_end := Ls.cx_end ++ csrest.getLastD cs0
      cx_intermediates := OptimizationVariableList.updateIntermediates
        Ls.cx_intermediates csrest.dropLast
      mx_reduced := Ls.mx_reduced ++ List.replicate cs0.length ()
      elements := Ls.elements ++ [⟨name, mx,
        List.range' Ls.cx_start.length cs0.length,
        some (BiMapping.identityMap elems.length)⟩] },
    { Lu with
      cx_start := Lu.cx_start ++ cu0
      cx_end := Lu.cx_end ++ curest.getLastD cu0
      cx_intermediates := OptimizationVariableList.updateIntermediates
        Lu.cx_intermediates curest.dropLast
      mx_reduced := Lu.mx_reduced ++ List.replicate cu0.length ()
      elements := Lu.elements ++ [⟨name, mx,
        List.range' Lu.cx_start.length cu0.length,
        some (BiMapping.identityMap elems.length)⟩] },
    (pht.attrContainer attr).originals.set i
      (assocSet ((pht.attrContainer attr).originals.getD i []) name (c0u :: restu)),
    ?_, ?_, ?_⟩
  · subst hcu
    subst hcs
    subst hcueq
    subst hcseq
    have happv : (pht.attrContainer attr).appendVar name (cu0 :: curest) (cs0 :: csrest)
        mx (BiMapping.identityMap elems.length) i ((cu0 :: curest) :: restu) =
        .ok { pht.attrContainer attr with
          scaled := (pht.attrContainer attr).scaled.set i
            { Ls with
              cx_start := Ls.cx_start ++ cs0
              cx_end := Ls.cx_end ++ csrest.getLastD cs0
              cx_intermediates := OptimizationVariableList.updateIntermediates
                Ls.cx_intermediates csrest.dropLast
              mx_reduced := Ls.mx_reduced ++ List.replicate cs0.length ()
              elements := Ls.elements ++ [⟨name, mx,
                List.range' Ls.cx_start.length cs0.length,
                some (BiMapping.identityMap elems.length)⟩] }
          unscaled := (pht.attrContainer attr).unscaled.set i
            { Lu with
              cx_start := Lu.cx_start ++ cu0
              cx_end := Lu.cx_end ++ curest.getLastD cu0
              cx_intermediates := OptimizationVariableList.updateIntermediates
                Lu.cx_intermediates curest.dropLast
              mx_reduced := Lu.mx_reduced ++ List.replicate cu0.length ()
              elements := Lu.elements ++ [⟨name, mx,
                List.range' Lu.cx_start.length cu0.length,
                some (BiMapping.identityMap elems.length)⟩] }
          originals := (pht.attrContainer attr).originals.set i
            (assocSet ((pht.attrContainer attr).originals.getD i []) name
              ((cu0 :: curest) :: restu)) } := by
      unfold OptimizationVariableContainer.appendVar
      rw [hLu, hLs]
      rfl
    unfold registerKindBody
    simp only [bind_apply, getNlp_apply, hph, hph', liftExcept_apply, pure_apply,
      Bool.false_eq_true, if_false, hgm, hcols, hgs, hU]
    simp only [item0, List.head?, pure_apply]
    unfold appendToContainer
    simp only [bind_apply, getNlp_apply, hph, hph', liftExcept_apply, happv,
      modifyNlp_apply, pure_apply]
  · exact ⟨_, rfl, rfl, rfl, rfl⟩
  · exact ⟨_, rfl, rfl, rfl, rfl⟩

theorem setAttrContainer_get (ph : NonLinearProgram) (attr : DecisionVarAttr)
    (c : OptimizationVariableContainer) :
    (ph.setAttrContainer attr c).attrContainer attr = c := by
  cases attr <;> rfl

theorem setAttrContainer_mappings (ph : NonLinearProgram) (attr : DecisionVarAttr)
    (c : OptimizationVariableContainer) :
    (ph.setAttrContainer attr c).variable_mappings = ph.variable_mappings := by
  cases attr <;> rfl

theorem setAttrContainer_scaling (ph : NonLinearProgram) (attr attr' : DecisionVarAttr)
    (c : OptimizationVariableContainer) :
    (ph.setAttrContainer attr c).scalingStore attr' = ph.scalingStore attr' := by
  cases attr <;> cases attr' <;> rfl

theorem setAttrContainer_twice (ph : NonLinearProgram) (attr : DecisionVarAttr)
    (c c' : OptimizationVariableContainer) :
    (ph.setAttrContainer attr c).setAttrContainer attr c' = ph.setAttrContainer attr c' := by
  cases attr <;> rfl

/-- Effect of a whole non-copy registration block over a duplicate-free set
of node indices: each listed node's scaled and unscaled lists gain exactly
one real element carrying the requested name and the identity mapping,
every other node is untouched, and nothing else of the problem state
changes. -/
theorem registerKindLoop_nodes_ok (p : Nat) (attr : DecisionVarAttr) (name : String)
    (elems : List String) (n_col nsh : Nat) (srcIdx : Option Nat) (mx : List CExpr) :
    ∀ (l : List Nat) (t : OcpState) (pht : NonLinearProgram),
      l.Nodup →
      t.nlp.get? p = some pht →
      assocFind? pht.variable_mappings name = some (BiMapping.identityMap elems.length) →
      assocFind? (pht.scalingStore attr) name = some (List.replicate elems.length 1) →
      (∀ i ∈ l, i < (pht.attrContainer attr).scaled.length ∧
        i < (pht.attrContainer attr).unscaled.length) →
      0 < n_col →
      ∃ c', List.forM l (registerKindBody p attr name elems n_col nsh false srcIdx mx none) t
          = .ok ⟨⟩ { t with nlp := t.nlp.set p (pht.setAttrContainer attr c') }
        ∧ c'.phase_dynamics = (pht.attrContainer attr).phase_dynamics
        ∧ c'.node_index = (pht.attrContainer attr).node_index
        ∧ c'.scaled.length = (pht.attrContainer attr).scaled.length
        ∧ c'.unscaled.length = (pht.attrContainer attr).unscaled.length
        ∧ (∀ i, i ∉ l → c'.scaled.get? i = (pht.attrContainer attr).scaled.get? i ∧
            c'.unscaled.get? i = (pht.attrContainer attr).unscaled.get? i)
        ∧ (∀ i ∈ l, ∃ Ls Lu Ls' Lu',
            (pht.attrContainer attr).scaled.get? i = some Ls ∧
            (pht.attrContainer attr).unscaled.get? i = some Lu ∧
            c'.scaled.get? i = some Ls' ∧ c'.unscaled.get? i = some Lu' ∧
            appendedOne name (BiMapping.identityMap elems.length) Ls Ls' ∧
            appendedOne name (BiMapping.identityMap elems.length) Lu Lu') := by
  intro l
  induction l with
  | nil =>
    intro t pht _ hph _ _ _ _
    refine ⟨pht.attrContainer attr, ?_, rfl, rfl, rfl, rfl, by simp, by simp⟩
    have h1 : pht.setAttrContainer attr (pht.attrContainer attr) = pht := by
      cases attr <;> rfl
    have h2 : t.nlp.set p pht = t.nlp := list_set_get_self t.nlp p pht hph
    rw [h1, h2]
    rfl
  | cons i rest ih =>
    intro t pht hnodup hph hmap hscal hbound hncol
    obtain ⟨his, hiu⟩ := hbound i (by simp)
    obtain ⟨Ls, hLs⟩ : ∃ L, (pht.attrContainer attr).scaled.get? i = some L :=
      ⟨_, List.get?_eq_get his⟩
    obtain ⟨Lu, hLu⟩ : ∃ L, (pht.attrContainer attr).unscaled.get? i = some L :=
      ⟨_, List.get?_eq_get hiu⟩
    obtain ⟨Ls', Lu', og, hbody, hApS, hApU⟩ := registerKindBody_ok p attr name elems
      n_col nsh srcIdx mx i t pht Ls Lu hph hmap hscal hLs hLu hncol
    -- the container and phase after the head iteration
    set c1 : OptimizationVariableContainer := { pht.attrContainer attr with
      scaled := (pht.attrContainer attr).scaled.set i Ls'
      unscaled := (pht.attrContainer attr).unscaled.set i Lu'
      originals := og } with hc1
    set pht1 : NonLinearProgram := pht.setAttrContainer attr c1 with hpht1
    set t1 : OcpState := { t with nlp := t.nlp.set p pht1 } with ht1
    have hph1 : t1.nlp.get? p = some pht1 := list_get_set_self t.nlp p pht pht1 hph
    have hbody' : registerKindBody p attr name elems n_col nsh false srcIdx mx none i t =
        .ok ⟨⟩ t1 := by
      rw [ht1, hpht1, hc1]
      exact hbody
    have hcont1 : pht1.attrContainer attr = c1 := setAttrContainer_get pht attr c1
    obtain ⟨c2, hrun2, hpd2, hni2, hsl2, hul2, hout2, hin2⟩ := ih t1 pht1
      (List.nodup_cons.mp hnodup).2 hph1
      (by rw [hpht1, setAttrContainer_mappings]; exact hmap)
      (by rw [hpht1, setAttrContainer_scaling]; exact hscal)
      (by
        intro j hj
        obtain ⟨h1, h2⟩ := hbound j (by simp [hj])
        rw [hcont1, hc1]
        simp [List.length_set]
        exact ⟨h1, h2⟩)
      hncol
    have hni : i ∉ rest := (List.nodup_cons.mp hnodup).1
    refine ⟨c2, ?_, ?_, ?_, ?_, ?_, ?_, ?_⟩
    · rw [list_forM_cons, bind_apply, hbody']
      show List.forM rest (registerKindBody p attr name elems n_col nsh false srcIdx mx
        none) t1 = _
      rw [hrun2]
      have hset2 : t1.nlp.set p (pht1.setAttrContainer attr c2) =
          t.nlp.set p (pht.setAttrContainer attr c2) := by
        rw [ht1]
        show (t.nlp.set p pht1).set p _ = _
        rw [List.set_set, hpht1, setAttrContainer_twice]
      rw [hset2]
    · rw [hpd2, hcont1, hc1]
    · rw [hni2, hcont1, hc1]
    · rw [hsl2, hcont1, hc1]
      simp [List.length_set]
    · rw [hul2, hcont1, hc1]
      simp [List.length_set]
    · intro j hj
      have hjr : j ∉ rest := fun hm => hj (by simp [hm])
      have hji : j ≠ i := fun e => hj (by simp [e])
      obtain ⟨ha, hb⟩ := hout2 j hjr
      rw [ha, hb, hcont1, hc1]
      constructor
      · simpa using List.get?_set_ne Ls' ((pht.attrContainer attr).scaled) (Ne.symm hji)
      · simpa using List.get?_set_ne Lu' ((pht.attrContainer attr).unscaled) (Ne.symm hji)
    · intro j hj
      rcases List.mem_cons.mp hj with rfl | hjr
      · obtain ⟨ha, hb⟩ := hout2 j hni
        refine ⟨Ls, Lu, Ls', Lu', hLs, hLu, ?_, ?_, hApS, hApU⟩
        · rw [ha, hcont1, hc1]
          simpa using list_get_set_self (pht.attrContainer attr).scaled j Ls Ls' hLs
        · rw [hb, hcont1, hc1]
          simpa using list_get_set_self (pht.attrContainer attr).unscaled j Lu Lu' hLu
      · have hji : j ≠ i := fun e => hni (e ▸ hjr)
        obtain ⟨L1s, L1u, L2s, L2u, hg1s, hg1u, hg2s, hg2u, hA1, hA2⟩ := hin2 j hjr
        refine ⟨L1s, L1u, L2s, L2u, ?_, ?_, hg2s, hg2u, hA1, hA2⟩
        · rw [hcont1, hc1] at hg1s
          simp only at hg1s
          rw [List.get?_set_ne Ls' ((pht.attrContainer attr).scaled) (Ne.symm hji)] at hg1s
          exact hg1s
        · rw [hcont1, hc1] at hg1u
          simp only at hg1u
          rw [List.get?_set_ne Lu' ((pht.attrContainer attr).unscaled) (Ne.symm hji)] at hg1u
          exact hg1u

theorem identityMap_to_first_length (n : Nat) :
    (BiMapping.identityMap n).to_first.length = n := by
  simp [BiMapping.identityMap]

@[simp] theorem map_apply {α β : Type} (f : α → β) (x : CfgM α) (s : OcpState) :
    (f <$> x) s = match x s with
      | .ok a s' => .ok (f a) s'
      | .error e s' => .error e s' := by
  show EStateM.map f x s = _
  cases h : x s <;> simp [EStateM.map, h]

theorem checkForNThreads_ok_le (p : Nat) (s : OcpState) (ph : NonLinearProgram)
    (hph : s.nlp.get? p = some ph) (hth : s.n_threads ≤ 1) :
    checkForNThreadsCompatibility p s = .ok ⟨⟩ s := by
  have hph' : s.nlp[p]? = some ph := get_some_of_get? hph
  have hnl : ¬(1 < s.n_threads) := by omega
  unfold checkForNThreadsCompatibility
  simp [hph, hph', hnl]

theorem declareAutoVariableMapping_absent (p : Nat) (name : String)
    (elems : List String) (s : OcpState) (ph : NonLinearProgram)
    (hph : s.nlp.get? p = some ph)
    (habs : assocContains ph.variable_mappings name = false) :
    declareAutoVariableMapping p name elems s = .ok ⟨⟩
      { s with
        nlp := s.nlp.set p
          { ph with
            variable_mappings := assocSet ph.variable_mappings name
              (BiMapping.identityMap elems.length) } } := by
  have hph' : s.nlp[p]? = some ph := get_some_of_get? hph
  unfold declareAutoVariableMapping
  simp [hph, hph', habs]

theorem checkPhaseMapping_ok_selfsourced (p : Nat) (s : OcpState)
    (ph : NonLinearProgram) (hph : s.nlp.get? p = some ph)
    (h1 : ph.use_states_from_phase_idx = some ph.phase_idx)
    (h2 : ph.use_states_dot_from_phase_idx = some ph.phase_idx)
    (h3 : ph.use_controls_from_phase_idx = some ph.phase_idx) :
    checkPhaseMappingOfVariable p s = .ok ⟨⟩ s := by
  have hph' : s.nlp[p]? = some ph := get_some_of_get? hph
  unfold checkPhaseMappingOfVariable
  simp [hph, hph', h1, h2, h3]

theorem copyCond_self_false (nlp : List NonLinearProgram) (phase_idx : Nat)
    (name : String) (attr : DecisionVarAttr) :
    check_variable_copy_condition nlp phase_idx (some phase_idx) name attr = false := by
  simp [check_variable_copy_condition]

theorem useCopy_nocopy_ok (p : Nat) (name : String) (elems : List String)
    (s : OcpState) (ph : NonLinearProgram) (hph : s.nlp.get? p = some ph)
    (hmap : assocFind? ph.variable_mappings name =
      some (BiMapping.identityMap elems.length)) :
    ∃ mxs, useCopy p name elems false false false false s = .ok mxs s := by
  have hph' : s.nlp[p]? = some ph := get_some_of_get? hph
  obtain ⟨labels, hl⟩ := buildMxSym_identity_ok name elems
  unfold useCopy
  simp only [bind_apply, getNlp_apply, hph, hph', pure_apply, Bool.false_eq_true,
    if_false, liftExcept_apply]
  simp only [getMapping, bind_apply, getNlp_apply, hph, hph', hmap, pure_apply, hl]
  exact ⟨_, rfl⟩

theorem get?_set_self_of_lt {β : Type} (l : List β) (n : Nat) (b : β)
    (h : n < l.length) : (l.set n b).get? n = some b := by
  have h1 : l.get? n = some (l.get ⟨n, h⟩) := List.get?_eq_get h
  exact list_get_set_self l n _ b h1

theorem getElem?_set_self_of_lt {β : Type} (l : List β) (n : Nat) (b : β)
    (h : n < l.length) : (l.set n b)[n]? = some b :=
  get_some_of_get? (get?_set_self_of_lt l n b h)

theorem lt_length_of_get?_some {β : Type} {l : List β} {n : Nat} {a : β}
    (h : l.get? n = some a) : n < l.length := by
  by_contra hnot
  rw [List.get?_eq_none.mpr (Nat.le_of_not_lt hnot)] at h
  cases h

/-- Effect of a recursive sub-variable configuration registering a fresh
control (and nothing else): the identity mapping, a zero initial guess and
unit scaling are registered under the name, and the controls container
gains exactly one real element per configured node; everything else is
untouched. -/
theorem configureNoFatigue_controls_ok (name : String) (elems : List String)
    (p : Nat) (s : OcpState) (ph : NonLinearProgram)
    (hph : s.nlp.get? p = some ph)
    (hth : s.n_threads ≤ 1)
    (hu1 : ph.use_states_from_phase_idx = some ph.phase_idx)
    (hu2 : ph.use_states_dot_from_phase_idx = some ph.phase_idx)
    (hu3 : ph.use_controls_from_phase_idx = some ph.phase_idx)
    (hmabs : assocContains ph.variable_mappings name = false)
    (huia : assocContains ph.u_init name = false)
    (husa : assocContains ph.u_scaling name = false)
    (hbounds : ∀ i < (if ph.phase_dynamics == .ONE_PER_NODE then ph.n_controls_nodes
        else 1), i < ph.controls.scaled.length ∧ i < ph.controls.unscaled.length) :
    ∃ c', configureNewVariableNoFatigue name elems p false true false false true s =
        .ok ⟨⟩
          { s with
            nlp := s.nlp.set p
              { ph with
                variable_mappings := assocSet ph.variable_mappings name
                  (BiMapping.identityMap elems.length)
                u_init := assocSet ph.u_init name elems.length
                u_scaling := assocSet ph.u_scaling name (List.replicate elems.length 1)
                controls := c' } }
      ∧ c'.phase_dynamics = ph.controls.phase_dynamics
      ∧ c'.node_index = ph.controls.node_index
      ∧ c'.scaled.length = ph.controls.scaled.length
      ∧ c'.unscaled.length = ph.controls.unscaled.length
      ∧ (∀ i, ¬(i < (if ph.phase_dynamics == .ONE_PER_NODE then ph.n_controls_nodes
          else 1)) → c'.scaled.get? i = ph.controls.scaled.get? i ∧
          c'.unscaled.get? i = ph.controls.unscaled.get? i)
      ∧ (∀ i, i < (if ph.phase_dynamics == .ONE_PER_NODE then ph.n_controls_nodes
          else 1) → ∃ Ls Lu Ls' Lu',
          ph.controls.scaled.get? i = some Ls ∧
          ph.controls.unscaled.get? i = some Lu ∧
          c'.scaled.get? i = some Ls' ∧ c'.unscaled.get? i = some Lu' ∧
          appendedOne name (BiMapping.identityMap elems.length) Ls Ls' ∧
          appendedOne name (BiMapping.identityMap elems.length) Lu Lu') := by
  have hph' : s.nlp[p]? = some ph := get_some_of_get? hph
  -- state after the mapping declaration
  set ph1 : NonLinearProgram := { ph with variable_mappings := assocSet ph.variable_mappings name (BiMapping.identityMap elems.length) } with hph1d
  set s1 : OcpState := { s with nlp := s.nlp.set p ph1 } with hs1d
  have hget1 : s1.nlp.get? p = some ph1 := list_get_set_self s.nlp p ph ph1 hph
  have hget1' : s1.nlp[p]? = some ph1 := get_some_of_get? hget1
  have hmap1 : assocFind? ph1.variable_mappings name =
      some (BiMapping.identityMap elems.length) :=
    assocFind?_set_self ph.variable_mappings name (BiMapping.identityMap elems.length)
  -- state after the initial-guess declaration
  set ph2 : NonLinearProgram := { ph1 with u_init := assocSet ph1.u_init name elems.length } with hph2d
  set s2 : OcpState := { s1 with nlp := s1.nlp.set p ph2 } with hs2d
  have hget2 : s2.nlp.get? p = some ph2 := list_get_set_self s1.nlp p ph1 ph2 hget1
  have hget2' : s2.nlp[p]? = some ph2 := get_some_of_get? hget2
  -- state after the scaling declaration
  set ph3 : NonLinearProgram := { ph2 with u_scaling := assocSet ph2.u_scaling name (List.replicate elems.length 1) } with hph3d
  set s3 : OcpState := { s2 with nlp := s2.nlp.set p ph3 } with hs3d
  have hget3 : s3.nlp.get? p = some ph3 := list_get_set_self s2.nlp p ph2 ph3 hget2
  have hget3' : s3.nlp[p]? = some ph3 := get_some_of_get? hget3
  have hmap3 : assocFind? ph3.variable_mappings name =
      some (BiMapping.identityMap elems.length) := hmap1
  have hn : (BiMapping.identityMap elems.length).to_first.length = elems.length :=
    identityMap_to_first_length elems.length
  have hplen : p < s.nlp.length := lt_length_of_get?_some hph
  have hinit : declareInitialGuess p name false true false s1 = .ok ⟨⟩ s2 := by
    have hu : assocContains ph1.u_init name = false := huia
    rw [hs2d, hph2d]
    unfold declareInitialGuess
    simp [getMapping, hget1, hget1', hu, hmap1, hn, hplen,
      getElem?_set_self_of_lt, get?_set_self_of_lt]
  have hscal : declareVariableScaling p name false true false false s2 = .ok ⟨⟩ s3 := by
    have hu : assocContains ph2.u_scaling name = false := husa
    have hm2 : assocFind? ph2.variable_mappings name =
        some (BiMapping.identityMap elems.length) := hmap1
    rw [hs3d, hph3d]
    unfold declareVariableScaling
    simp [getMapping, hget2, hget2', hu, hm2, hn, hplen,
      getElem?_set_self_of_lt, get?_set_self_of_lt]
  obtain ⟨mxs, hmxs⟩ := useCopy_nocopy_ok p name elems s3 ph3 hget3 hmap3
  have hbounds3 : ∀ i ∈ List.range (if ph.phase_dynamics == .ONE_PER_NODE then
      ph.n_controls_nodes else 1), i < (ph3.attrContainer .controls).scaled.length ∧
      i < (ph3.attrContainer .controls).unscaled.length := by
    intro i hi
    exact hbounds i (List.mem_range.mp hi)
  have hsc3 : assocFind? (ph3.scalingStore .controls) name =
      some (List.replicate elems.length 1) :=
    assocFind?_set_self ph2.u_scaling name (List.replicate elems.length 1)
  obtain ⟨c', hloop, hpd, hni, hsl, hul, hout, hin⟩ := registerKindLoop_nodes_ok p
    .controls name elems 3 0 ph3.use_controls_from_phase_idx mxs.2.2.1
    (List.range (if ph.phase_dynamics == .ONE_PER_NODE then ph.n_controls_nodes else 1))
    s3 ph3 (List.nodup_range _) hget3 hmap3 hsc3 hbounds3 (by omega)
  refine ⟨c', ?_, hpd, hni, hsl, hul,
    fun i hi => hout i (fun hmem => hi (List.mem_range.mp hmem)),
    fun i hi => hin i (List.mem_range.mpr hi)⟩
  -- assemble the monadic chain
  have hcomb : checkCombineStateControlPlot false none s = .ok ⟨⟩ s := rfl
  have hthreads := checkForNThreads_ok_le p s ph hph hth
  have hauto : declareAutoVariableMapping p name elems s = .ok ⟨⟩ s1 := by
    rw [hs1d, hph1d]
    exact declareAutoVariableMapping_absent p name elems s ph hph hmabs
  have hpm : checkPhaseMappingOfVariable p s1 = .ok ⟨⟩ s1 :=
    checkPhaseMapping_ok_selfsourced p s1 ph1 hget1 hu1 hu2 hu3
  have hcs : check_variable_copy_condition s1.nlp ph1.phase_idx
      ph1.use_states_from_phase_idx name .states = false := by
    have h : ph1.use_states_from_phase_idx = some ph1.phase_idx := hu1
    rw [h]
    exact copyCond_self_false s1.nlp ph1.phase_idx name .states
  have hcc : check_variable_copy_condition s1.nlp ph1.phase_idx
      ph1.use_controls_from_phase_idx name .controls = false := by
    have h : ph1.use_controls_from_phase_idx = some ph1.phase_idx := hu3
    rw [h]
    exact copyCond_self_false s1.nlp ph1.phase_idx name .controls
  have hcsd : check_variable_copy_condition s1.nlp ph1.phase_idx
      ph1.use_states_dot_from_phase_idx name .states_dot = false := by
    have h : ph1.use_states_dot_from_phase_idx = some ph1.phase_idx := hu2
    rw [h]
    exact copyCond_self_false s1.nlp ph1.phase_idx name .states_dot
  have hca : check_variable_copy_condition s1.nlp ph1.phase_idx
      ph1.use_states_from_phase_idx name .algebraic_states = false := by
    have h : ph1.use_states_from_phase_idx = some ph1.phase_idx := hu1
    rw [h]
    exact copyCond_self_false s1.nlp ph1.phase_idx name .algebraic_states
  have hcx : declareCxAndPlot p name elems false true false false false false false false
      mxs.1 mxs.2.1 mxs.2.2.1 true s3 =
      .ok ⟨⟩
        { s with
          nlp := s.nlp.set p
            { ph with
              variable_mappings := assocSet ph.variable_mappings name
                (BiMapping.identityMap elems.length)
              u_init := assocSet ph.u_init name elems.length
              u_scaling := assocSet ph.u_scaling name (List.replicate elems.length 1)
              controls := c' } } := by
    have hdyn : ph3.phase_dynamics = ph.phase_dynamics := rfl
    have hncn : ph3.n_controls_nodes = ph.n_controls_nodes := rfl
    unfold declareCxAndPlot registerKindLoop
    simp only [bind_apply, getNlp_apply, hget3, pure_apply, Bool.false_eq_true,
      if_false, if_true, hdyn, hncn]
    rw [hloop]
    rw [hs3d, hph3d, hs2d, hph2d, hs1d, hph1d]
    simp only [List.set_set]
    rfl
  unfold configureNewVariableNoFatigue configureCore
  simp only [bind_apply, get_apply, pure_apply, getNlp_apply, hcomb, hthreads, hauto,
    hget1, hpm, hcs, hcc, hcsd, hca, hinit, hscal, hmxs, hcx, Bool.not_true,
    Bool.false_eq_true, if_false]

theorem assocContains_eq_isSome {β : Type} (l : List (String × β)) (k : String) :
    assocContains l k = (assocFind? l k).isSome := by
  unfold assocContains assocFind?
  cases h : List.find? (fun q => q.1 == k) l with
  | none =>
    rw [List.find?_eq_none] at h
    simp only [Option.map_none', Option.isSome_none, List.any_eq_false]
    intro x hx
    simpa using h x hx
  | some q =>
    simp only [Option.map_some', Option.isSome_some]
    exact List.any_eq_true.mpr ⟨q, List.mem_of_find?_eq_some h,
      by simpa using List.find?_some h⟩

theorem assocContains_set_other {β : Type} (l : List (String × β)) (k k' : String)
    (v : β) (h : k' ≠ k) : assocContains (assocSet l k v) k' = assocContains l k' := by
  rw [assocContains_eq_isSome, assocContains_eq_isSome, assocFind?_set_other l k k' v h]

/-- `nlp.plot[key] = ...` always succeeds, extending the key set when the
key is new. -/
theorem addPlotM_ok (p : Nat) (key : String) (t : OcpState) (pht : NonLinearProgram)
    (hph : t.nlp.get? p = some pht) :
    addPlotM p key t = .ok ⟨⟩
      { t with
        nlp := t.nlp.set p
          { pht with
            plot := if pht.plot.contains key then pht.plot
              else pht.plot ++ [key] } } := by
  have hph' : t.nlp[p]? = some pht := get_some_of_get? hph
  simp [addPlotM, hph, hph']

/-- Effect of a recursive sub-variable configuration registering a fresh
state (and nothing else): the identity mapping, a zero initial guess and
unit scaling are registered under the name, and the states container gains
exactly one real element per configured node; everything else is
untouched. -/
theorem configureNoFatigue_states_ok (name : String) (elems : List String)
    (p : Nat) (s : OcpState) (ph : NonLinearProgram)
    (hph : s.nlp.get? p = some ph)
    (hth : s.n_threads ≤ 1)
    (hu1 : ph.use_states_from_phase_idx = some ph.phase_idx)
    (hu2 : ph.use_states_dot_from_phase_idx = some ph.phase_idx)
    (hu3 : ph.use_controls_from_phase_idx = some ph.phase_idx)
    (hmabs : assocContains ph.variable_mappings name = false)
    (hxia : assocContains ph.x_init name = false)
    (hxsa : assocContains ph.x_scaling name = false)
    (hbounds : ∀ i < (if ph.phase_dynamics == .ONE_PER_NODE then ph.n_states_nodes
        else 1), i < ph.states.scaled.length ∧ i < ph.states.unscaled.length) :
    ∃ c', configureNewVariableNoFatigue name elems p true false false false true s =
        .ok ⟨⟩
          { s with
            nlp := s.nlp.set p
              { ph with
                variable_mappings := assocSet ph.variable_mappings name
                  (BiMapping.identityMap elems.length)
                x_init := assocSet ph.x_init name elems.length
                x_scaling := assocSet ph.x_scaling name (List.replicate elems.length 1)
                states := c' } }
      ∧ c'.phase_dynamics = ph.states.phase_dynamics
      ∧ c'.node_index = ph.states.node_index
      ∧ c'.scaled.length = ph.states.scaled.length
      ∧ c'.unscaled.length = ph.states.unscaled.length
      ∧ (∀ i, ¬(i < (if ph.phase_dynamics == .ONE_PER_NODE then ph.n_states_nodes
          else 1)) → c'.scaled.get? i = ph.states.scaled.get? i ∧
          c'.unscaled.get? i = ph.states.unscaled.get? i)
      ∧ (∀ i, i < (if ph.phase_dynamics == .ONE_PER_NODE then ph.n_states_nodes
          else 1) → ∃ Ls Lu Ls' Lu',
          ph.states.scaled.get? i = some Ls ∧
          ph.states.unscaled.get? i = some Lu ∧
          c'.scaled.get? i = some Ls' ∧ c'.unscaled.get? i = some Lu' ∧
          appendedOne name (BiMapping.identityMap elems.length) Ls Ls' ∧
          appendedOne name (BiMapping.identityMap elems.length) Lu Lu') := by
  have hph' : s.nlp[p]? = some ph := get_some_of_get? hph
  -- state after the mapping declaration
  set ph1 : NonLinearProgram := { ph with variable_mappings := assocSet ph.variable_mappings name (BiMapping.identityMap elems.length) } with hph1d
  set s1 : OcpState := { s with nlp := s.nlp.set p ph1 } with hs1d
  have hget1 : s1.nlp.get? p = some ph1 := list_get_set_self s.nlp p ph ph1 hph
  have hget1' : s1.nlp[p]? = some ph1 := get_some_of_get? hget1
  have hmap1 : assocFind? ph1.variable_mappings name =
      some (BiMapping.identityMap elems.length) :=
    assocFind?_set_self ph.variable_mappings name (BiMapping.identityMap elems.length)
  -- state after the initial-guess declaration
  set ph2 : NonLinearProgram := { ph1 with x_init := assocSet ph1.x_init name elems.length } with hph2d
  set s2 : OcpState := { s1 with nlp := s1.nlp.set p ph2 } with hs2d
  have hget2 : s2.nlp.get? p = some ph2 := list_get_set_self s1.nlp p ph1 ph2 hget1
  have hget2' : s2.nlp[p]? = some ph2 := get_some_of_get? hget2
  -- state after the scaling declaration
  set ph3 : NonLinearProgram := { ph2 with x_scaling := assocSet ph2.x_scaling name (List.replicate elems.length 1) } with hph3d
  set s3 : OcpState := { s2 with nlp := s2.nlp.set p ph3 } with hs3d
  have hget3 : s3.nlp.get? p = some ph3 := list_get_set_self s2.nlp p ph2 ph3 hget2
  have hget3' : s3.nlp[p]? = some ph3 := get_some_of_get? hget3
  have hmap3 : assocFind? ph3.variable_mappings name =
      some (BiMapping.identityMap elems.length) := hmap1
  have hn : (BiMapping.identityMap elems.length).to_first.length = elems.length :=
    identityMap_to_first_length elems.length
  have hplen : p < s.nlp.length := lt_length_of_get?_some hph
  have hinit : declareInitialGuess p name true false false s1 = .ok ⟨⟩ s2 := by
    have hu : assocContains ph1.x_init name = false := hxia
    rw [hs2d, hph2d]
    unfold declareInitialGuess
    simp [getMapping, hget1, hget1', hu, hmap1, hn, hplen,
      getElem?_set_self_of_lt, get?_set_self_of_lt]
  have hscal : declareVariableScaling p name true false false false s2 = .ok ⟨⟩ s3 := by
    have hu : assocContains ph2.x_scaling name = false := hxsa
    have hm2 : assocFind? ph2.variable_mappings name =
        some (BiMapping.identityMap elems.length) := hmap1
    rw [hs3d, hph3d]
    unfold declareVariableScaling
    simp [getMapping, hget2, hget2', hu, hm2, hn, hplen,
      getElem?_set_self_of_lt, get?_set_self_of_lt]
  obtain ⟨mxs, hmxs⟩ := useCopy_nocopy_ok p name elems s3 ph3 hget3 hmap3
  have hbounds3 : ∀ i ∈ List.range (if ph.phase_dynamics == .ONE_PER_NODE then
      ph.n_states_nodes else 1), i < (ph3.attrContainer .states).scaled.length ∧
      i < (ph3.attrContainer .states).unscaled.length := by
    intro i hi
    exact hbounds i (List.mem_range.mp hi)
  have hsc3 : assocFind? (ph3.scalingStore .states) name =
      some (List.replicate elems.length 1) :=
    assocFind?_set_self ph2.x_scaling name (List.replicate elems.length 1)
  obtain ⟨c', hloop, hpd, hni, hsl, hul, hout, hin⟩ := registerKindLoop_nodes_ok p
    .states name elems (ph3.ode_solver_n_required_cx + 2) 0
    ph3.use_states_from_phase_idx mxs.1
    (List.range (if ph.phase_dynamics == .ONE_PER_NODE then ph.n_states_nodes else 1))
    s3 ph3 (List.nodup_range _) hget3 hmap3 hsc3 hbounds3 (by omega)
  refine ⟨c', ?_, hpd, hni, hsl, hul,
    fun i hi => hout i (fun hmem => hi (List.mem_range.mp hmem)),
    fun i hi => hin i (List.mem_range.mpr hi)⟩
  -- assemble the monadic chain
  have hcomb : checkCombineStateControlPlot false none s = .ok ⟨⟩ s := rfl
  have hthreads := checkForNThreads_ok_le p s ph hph hth
  have hauto : declareAutoVariableMapping p name elems s = .ok ⟨⟩ s1 := by
    rw [hs1d, hph1d]
    exact declareAutoVariableMapping_absent p name elems s ph hph hmabs
  have hpm : checkPhaseMappingOfVariable p s1 = .ok ⟨⟩ s1 :=
    checkPhaseMapping_ok_selfsourced p s1 ph1 hget1 hu1 hu2 hu3
  have hcs : check_variable_copy_condition s1.nlp ph1.phase_idx
      ph1.use_states_from_phase_idx name .states = false := by
    have h : ph1.use_states_from_phase_idx = some ph1.phase_idx := hu1
    rw [h]
    exact copyCond_self_false s1.nlp ph1.phase_idx name .states
  have hcc : check_variable_copy_condition s1.nlp ph1.phase_idx
      ph1.use_controls_from_phase_idx name .controls = false := by
    have h : ph1.use_controls_from_phase_idx = some ph1.phase_idx := hu3
    rw [h]
    exact copyCond_self_false s1.nlp ph1.phase_idx name .controls
  have hcsd : check_variable_copy_condition s1.nlp ph1.phase_idx
      ph1.use_states_dot_from_phase_idx name .states_dot = false := by
    have h : ph1.use_states_dot_from_phase_idx = some ph1.phase_idx := hu2
    rw [h]
    exact copyCond_self_false s1.nlp ph1.phase_idx name .states_dot
  have hca : check_variable_copy_condition s1.nlp ph1.phase_idx
      ph1.use_states_from_phase_idx name .algebraic_states = false := by
    have h : ph1.use_states_from_phase_idx = some ph1.phase_idx := hu1
    rw [h]
    exact copyCond_self_false s1.nlp ph1.phase_idx name .algebraic_states
  have hcx : declareCxAndPlot p name elems true false false false false false false false
      mxs.1 mxs.2.1 mxs.2.2.1 true s3 =
      .ok ⟨⟩
        { s with
          nlp := s.nlp.set p
            { ph with
              variable_mappings := assocSet ph.variable_mappings name
                (BiMapping.identityMap elems.length)
              x_init := assocSet ph.x_init name elems.length
              x_scaling := assocSet ph.x_scaling name (List.replicate elems.length 1)
              states := c' } } := by
    have hdyn : ph3.phase_dynamics = ph.phase_dynamics := rfl
    have hnsn : ph3.n_states_nodes = ph.n_states_nodes := rfl
    unfold declareCxAndPlot registerKindLoop
    simp only [bind_apply, getNlp_apply, hget3, pure_apply, Bool.false_eq_true,
      if_false, if_true, hdyn, hnsn]
    rw [hloop]
    rw [hs3d, hph3d, hs2d, hph2d, hs1d, hph1d]
    simp only [List.set_set]
    rfl
  unfold configureNewVariableNoFatigue configureCore
  simp only [bind_apply, get_apply, pure_apply, getNlp_apply, hcomb, hthreads, hauto,
    hget1, hpm, hcs, hcc, hcsd, hca, hinit, hscal, hmxs, hcx, Bool.not_true,
    Bool.false_eq_true, if_false]

/-- What a batch of fresh state registrations leaves untouched in a phase
record (used to thread invariants through the fatigue expansion). -/
def statesFrame (pht pht' : NonLinearProgram) : Prop :=
  pht'.phase_idx = pht.phase_idx ∧
  pht'.phase_dynamics = pht.phase_dynamics ∧
  pht'.use_states_from_phase_idx = pht.use_states_from_phase_idx ∧
  pht'.use_states_dot_from_phase_idx = pht.use_states_dot_from_phase_idx ∧
  pht'.use_controls_from_phase_idx = pht.use_controls_from_phase_idx ∧
  pht'.ns = pht.ns ∧
  pht'.n_states_nodes = pht.n_states_nodes ∧
  pht'.n_controls_nodes = pht.n_controls_nodes ∧
  pht'.controls = pht.controls ∧
  pht'.u_init = pht.u_init ∧
  pht'.u_scaling = pht.u_scaling ∧
  pht'.states.scaled.length = pht.states.scaled.length ∧
  pht'.states.unscaled.length = pht.states.unscaled.length

theorem statesFrame_rfl (pht : NonLinearProgram) : statesFrame pht pht :=
  ⟨rfl, rfl, rfl, rfl, rfl, rfl, rfl, rfl, rfl, rfl, rfl, rfl, rfl⟩

theorem statesFrame_trans {a b c : NonLinearProgram} (h1 : statesFrame a b)
    (h2 : statesFrame b c) : statesFrame a c := by
  obtain ⟨x1, x2, x3, x4, x5, x6, x7, x8, x9, x10, x11, x12, x13⟩ := h1
  obtain ⟨y1, y2, y3, y4, y5, y6, y7, y8, y9, y10, y11, y12, y13⟩ := h2
  exact ⟨y1.trans x1, y2.trans x2, y3.trans x3, y4.trans x4, y5.trans x5, y6.trans x6,
    y7.trans x7, y8.trans x8, y9.trans x9, y10.trans x10, y11.trans x11, y12.trans x12,
    y13.trans x13⟩

/-- The per-meta-suffix loop registering one underlying fatigue-state
variable per state suffix: it succeeds on fresh pairwise-distinct names,
extends only the mapping/state stores and the states container, and leaves
the controls side untouched. -/
theorem statesBatch_ok (vname : String) (elems : List String) (p : Nat) :
    ∀ (prms : List String) (t : OcpState) (pht : NonLinearProgram),
      t.nlp.get? p = some pht →
      t.n_threads ≤ 1 →
      pht.use_states_from_phase_idx = some pht.phase_idx →
      pht.use_states_dot_from_phase_idx = some pht.phase_idx →
      pht.use_controls_from_phase_idx = some pht.phase_idx →
      (prms.map (fun prm => vname ++ "_" ++ prm)).Nodup →
      (∀ prm ∈ prms,
        assocContains pht.variable_mappings (vname ++ "_" ++ prm) = false ∧
        assocContains pht.x_init (vname ++ "_" ++ prm) = false ∧
        assocContains pht.x_scaling (vname ++ "_" ++ prm) = false) →
      (∀ i < (if pht.phase_dynamics == .ONE_PER_NODE then pht.n_states_nodes else 1),
        i < pht.states.scaled.length ∧ i < pht.states.unscaled.length) →
      ∃ pht', (prms.forM (fun params => do
          configureNewVariableNoFatigue (vname ++ "_" ++ params) elems p true false
            false false true
          addPlotM p (vname ++ "_" ++ params))) t =
            .ok ⟨⟩ { t with nlp := t.nlp.set p pht' }
        ∧ statesFrame pht pht'
        ∧ (∀ k, (∀ prm ∈ prms, k ≠ vname ++ "_" ++ prm) →
            assocContains pht'.variable_mappings k = assocContains pht.variable_mappings k ∧
            assocContains pht'.x_init k = assocContains pht.x_init k ∧
            assocContains pht'.x_scaling k = assocContains pht.x_scaling k) := by
  intro prms
  induction prms with
  | nil =>
    intro t pht hph _ _ _ _ _ _ _
    refine ⟨pht, ?_, statesFrame_rfl pht, fun k _ => ⟨rfl, rfl, rfl⟩⟩
    have hset : t.nlp.set p pht = t.nlp := list_set_get_self t.nlp p pht hph
    show (pure PUnit.unit : CfgM PUnit) t = _
    rw [hset]
    rfl
  | cons prm rest ih =>
    intro t pht hph hth hu1 hu2 hu3 hnodup habs hbounds
    obtain ⟨hm0, hx0, hs0⟩ := habs prm (by simp)
    obtain ⟨c', hconf, hcpd, hcni, hcsl, hcul, hcout, hcin⟩ :=
      configureNoFatigue_states_ok (vname ++ "_" ++ prm) elems p t pht hph hth hu1 hu2
        hu3 hm0 hx0 hs0 hbounds
    set pht1 : NonLinearProgram := { pht with variable_mappings := assocSet pht.variable_mappings (vname ++ "_" ++ prm) (BiMapping.identityMap elems.length), x_init := assocSet pht.x_init (vname ++ "_" ++ prm) elems.length, x_scaling := assocSet pht.x_scaling (vname ++ "_" ++ prm) (List.replicate elems.length 1), states := c' } with hpht1d
    set t1 : OcpState := { t with nlp := t.nlp.set p pht1 } with ht1d
    have hget1 : t1.nlp.get? p = some pht1 := list_get_set_self t.nlp p pht pht1 hph
    set pht2 : NonLinearProgram := { pht1 with plot := if pht1.plot.contains (vname ++ "_" ++ prm) then pht1.plot else pht1.plot ++ [vname ++ "_" ++ prm] } with hpht2d
    set t2 : OcpState := { t1 with nlp := t1.nlp.set p pht2 } with ht2d
    have hget2 : t2.nlp.get? p = some pht2 := list_get_set_self t1.nlp p pht1 pht2 hget1
    have hplot : addPlotM p (vname ++ "_" ++ prm) t1 = .ok ⟨⟩ t2 := by
      rw [ht2d, hpht2d]
      exact addPlotM_ok p (vname ++ "_" ++ prm) t1 pht1 hget1
    have hname_ne : ∀ prm' ∈ rest, (vname ++ "_" ++ prm') ≠ (vname ++ "_" ++ prm) := by
      intro prm' hmem heq
      have hnot := (List.nodup_cons.mp hnodup).1
      apply hnot
      show vname ++ "_" ++ prm ∈ List.map (fun x => vname ++ "_" ++ x) rest
      rw [← heq]
      exact List.mem_map_of_mem (fun x => vname ++ "_" ++ x) hmem
    have hframe12 : statesFrame pht pht2 :=
      ⟨rfl, rfl, rfl, rfl, rfl, rfl, rfl, rfl, rfl, rfl, rfl, hcsl, hcul⟩
    obtain ⟨pht', hrun, hframe, hpres⟩ := ih t2 pht2 hget2 hth hu1 hu2 hu3
      ((List.nodup_cons.mp hnodup).2)
      (by
        intro prm' hmem
        obtain ⟨hm', hx', hs'⟩ := habs prm' (by simp [hmem])
        have hne := hname_ne prm' hmem
        refine ⟨?_, ?_, ?_⟩
        · show assocContains (assocSet pht.variable_mappings (vname ++ "_" ++ prm)
            (BiMapping.identityMap elems.length)) (vname ++ "_" ++ prm') = false
          rw [assocContains_set_other _ _ _ _ hne]
          exact hm'
        · show assocContains (assocSet pht.x_init (vname ++ "_" ++ prm)
            elems.length) (vname ++ "_" ++ prm') = false
          rw [assocContains_set_other _ _ _ _ hne]
          exact hx'
        · show assocContains (assocSet pht.x_scaling (vname ++ "_" ++ prm)
            (List.replicate elems.length 1)) (vname ++ "_" ++ prm') = false
          rw [assocContains_set_other _ _ _ _ hne]
          exact hs')
      (by
        intro i hi
        have hi' : i < (if pht.phase_dynamics == .ONE_PER_NODE then
            pht.n_states_nodes else 1) := hi
        have := hbounds i hi'
        show i < c'.scaled.length ∧ i < c'.unscaled.length
        rw [hcsl, hcul]
        exact this)
    refine ⟨pht', ?_, statesFrame_trans hframe12 hframe, ?_⟩
    · rw [list_forM_cons, bind_apply]
      have hbody : (do
          configureNewVariableNoFatigue (vname ++ "_" ++ prm) elems p true false
            false false true
          addPlotM p (vname ++ "_" ++ prm)) t = .ok ⟨⟩ t2 := by
        rw [bind_apply]
        have hconf' : configureNewVariableNoFatigue (vname ++ "_" ++ prm) elems p
            true false false false true t = .ok ⟨⟩ t1 := by
          rw [ht1d, hpht1d]
          exact hconf
        rw [hconf']
        exact hplot
      rw [hbody]
      show (rest.forM (fun params => do
          configureNewVariableNoFatigue (vname ++ "_" ++ params) elems p true false
            false false true
          addPlotM p (vname ++ "_" ++ params))) t2 = _
      rw [hrun, ht2d, ht1d]
      simp only [List.set_set]
    · intro k hk
      obtain ⟨hm', hx', hs'⟩ := hpres k (fun prm' hmem => hk prm' (by simp [hmem]))
      have hkne : k ≠ vname ++ "_" ++ prm := hk prm (by simp)
      refine ⟨?_, ?_, ?_⟩
      · rw [hm']
        show assocContains (assocSet pht.variable_mappings (vname ++ "_" ++ prm)
          (BiMapping.identityMap elems.length)) k = _
        rw [assocContains_set_other _ _ _ _ hkne]
      · rw [hx']
        show assocContains (assocSet pht.x_init (vname ++ "_" ++ prm)
          elems.length) k = _
        rw [assocContains_set_other _ _ _ _ hkne]
      · rw [hs']
        show assocContains (assocSet pht.x_scaling (vname ++ "_" ++ prm)
          (List.replicate elems.length 1)) k = _
        rw [assocContains_set_other _ _ _ _ hkne]

theorem append_suffix_ne (a b : String) : a ++ "_" ++ b ≠ a := by
  intro h
  have hlen := congrArg String.length h
  simp only [String.length_append] at hlen
  have h1 : ("_" : String).length = 1 := rfl
  rw [h1] at hlen
  omega

/-- One iteration of the meta-suffix loop in split-controls mode: it
registers one fresh real control named `name_m` at every configured node,
registers the underlying fatigue-state variables, appends `name_m` to the
accumulated composite keys, and touches nothing else of interest. -/
theorem metaSuffixStep_split_ok (name : String) (elems : List String) (p : Nat)
    (m : String) (k : Nat) (acc sfx : List String) (t : OcpState)
    (pht : NonLinearProgram)
    (hph : t.nlp.get? p = some pht)
    (hth : t.n_threads ≤ 1)
    (hu1 : pht.use_states_from_phase_idx = some pht.phase_idx)
    (hu2 : pht.use_states_dot_from_phase_idx = some pht.phase_idx)
    (hu3 : pht.use_controls_from_phase_idx = some pht.phase_idx)
    (hm0 : assocContains pht.variable_mappings (name ++ "_" ++ m) = false)
    (hui : assocContains pht.u_init (name ++ "_" ++ m) = false)
    (hus : assocContains pht.u_scaling (name ++ "_" ++ m) = false)
    (hnodupS : (sfx.map (fun prm => name ++ "_" ++ m ++ "_" ++ prm)).Nodup)
    (habsS : ∀ prm ∈ sfx,
      assocContains pht.variable_mappings (name ++ "_" ++ m ++ "_" ++ prm) = false ∧
      assocContains pht.x_init (name ++ "_" ++ m ++ "_" ++ prm) = false ∧
      assocContains pht.x_scaling (name ++ "_" ++ m ++ "_" ++ prm) = false)
    (hbc : ∀ i < (if pht.phase_dynamics == .ONE_PER_NODE then pht.n_controls_nodes
      else 1), i < pht.controls.scaled.length ∧ i < pht.controls.unscaled.length)
    (hbs : ∀ i < (if pht.phase_dynamics == .ONE_PER_NODE then pht.n_states_nodes
      else 1), i < pht.states.scaled.length ∧ i < pht.states.unscaled.length) :
    ∃ pht', metaSuffixStep name elems p false true false true sfx acc (k, m) t =
        .ok (acc ++ [name ++ "_" ++ m]) { t with nlp := t.nlp.set p pht' }
      ∧ pht'.phase_idx = pht.phase_idx
      ∧ pht'.phase_dynamics = pht.phase_dynamics
      ∧ pht'.use_states_from_phase_idx = pht.use_states_from_phase_idx
      ∧ pht'.use_states_dot_from_phase_idx = pht.use_states_dot_from_phase_idx
      ∧ pht'.use_controls_from_phase_idx = pht.use_controls_from_phase_idx
      ∧ pht'.ns = pht.ns
      ∧ pht'.n_states_nodes = pht.n_states_nodes
      ∧ pht'.n_controls_nodes = pht.n_controls_nodes
      ∧ pht'.states.scaled.length = pht.states.scaled.length
      ∧ pht'.states.unscaled.length = pht.states.unscaled.length
      ∧ pht'.u_init = assocSet pht.u_init (name ++ "_" ++ m) elems.length
      ∧ pht'.u_scaling = assocSet pht.u_scaling (name ++ "_" ++ m)
          (List.replicate elems.length 1)
      ∧ (∀ kk, kk ≠ name ++ "_" ++ m →
          (∀ prm ∈ sfx, kk ≠ name ++ "_" ++ m ++ "_" ++ prm) →
          assocContains pht'.variable_mappings kk =
            assocContains pht.variable_mappings kk ∧
          assocContains pht'.x_init kk = assocContains pht.x_init kk ∧
          assocContains pht'.x_scaling kk = assocContains pht.x_scaling kk)
      ∧ pht'.controls.phase_dynamics = pht.controls.phase_dynamics
      ∧ pht'.controls.node_index = pht.controls.node_index
      ∧ pht'.controls.scaled.length = pht.controls.scaled.length
      ∧ pht'.controls.unscaled.length = pht.controls.unscaled.length
      ∧ (∀ i, ¬(i < (if pht.phase_dynamics == .ONE_PER_NODE then pht.n_controls_nodes
          else 1)) → pht'.controls.scaled.get? i = pht.controls.scaled.get? i ∧
          pht'.controls.unscaled.get? i = pht.controls.unscaled.get? i)
      ∧ (∀ i, i < (if pht.phase_dynamics == .ONE_PER_NODE then pht.n_controls_nodes
          else 1) → ∃ Ls Lu Ls' Lu',
          pht.controls.scaled.get? i = some Ls ∧
          pht.controls.unscaled.get? i = some Lu ∧
          pht'.controls.scaled.get? i = some Ls' ∧
          pht'.controls.unscaled.get? i = some Lu' ∧
          appendedOne (name ++ "_" ++ m) (BiMapping.identityMap elems.length) Ls Ls' ∧
          appendedOne (name ++ "_" ++ m) (BiMapping.identityMap elems.length) Lu Lu') := by
  obtain ⟨c', hconf, hcpd, hcni, hcsl, hcul, hcout, hcin⟩ :=
    configureNoFatigue_controls_ok (name ++ "_" ++ m) elems p t pht hph hth hu1 hu2
      hu3 hm0 hui hus hbc
  set pht1 : NonLinearProgram := { pht with variable_mappings := assocSet pht.variable_mappings (name ++ "_" ++ m) (BiMapping.identityMap elems.length), u_init := assocSet pht.u_init (name ++ "_" ++ m) elems.length, u_scaling := assocSet pht.u_scaling (name ++ "_" ++ m) (List.replicate elems.length 1), controls := c' } with hpht1d
  set t1 : OcpState := { t with nlp := t.nlp.set p pht1 } with ht1d
  have hget1 : t1.nlp.get? p = some pht1 := list_get_set_self t.nlp p pht pht1 hph
  set pht2 : NonLinearProgram := { pht1 with plot := if pht1.plot.contains (name ++ "_" ++ m ++ "_controls") then pht1.plot else pht1.plot ++ [name ++ "_" ++ m ++ "_controls"] } with hpht2d
  set t2 : OcpState := { t1 with nlp := t1.nlp.set p pht2 } with ht2d
  have hget2 : t2.nlp.get? p = some pht2 := list_get_set_self t1.nlp p pht1 pht2 hget1
  have hplot : addPlotM p (name ++ "_" ++ m ++ "_controls") t1 = .ok ⟨⟩ t2 := by
    rw [ht2d, hpht2d]
    exact addPlotM_ok p (name ++ "_" ++ m ++ "_controls") t1 pht1 hget1
  obtain ⟨pht3, hbatch, hframe, hpres⟩ := statesBatch_ok (name ++ "_" ++ m) elems p
    sfx t2 pht2 hget2 hth hu1 hu2 hu3 hnodupS
    (by
      intro prm hmem
      obtain ⟨hm', hx', hs'⟩ := habsS prm hmem
      refine ⟨?_, hx', hs'⟩
      show assocContains (assocSet pht.variable_mappings (name ++ "_" ++ m)
        (BiMapping.identityMap elems.length)) (name ++ "_" ++ m ++ "_" ++ prm) = false
      rw [assocContains_set_other _ _ _ _ (append_suffix_ne (name ++ "_" ++ m) prm)]
      exact hm')
    (by
      intro i hi
      have hi' : i < (if pht.phase_dynamics == .ONE_PER_NODE then pht.n_states_nodes
          else 1) := hi
      exact hbs i hi')
  obtain ⟨f1, f2, f3, f4, f5, f6, f7, f8, f9, f10, f11, f12, f13⟩ := hframe
  refine ⟨pht3, ?_, f1, f2, f3, f4, f5, f6, f7, f8,
    f12.trans (by rfl), f13.trans (by rfl),
    f10.trans (by rfl), f11.trans (by rfl), ?_, ?_, ?_, ?_, ?_, ?_, ?_⟩
  · -- the run equation
    have hconf' : configureNewVariableNoFatigue (name ++ "_" ++ m) elems p false true
        false false true t = .ok ⟨⟩ t1 := by
      rw [ht1d, hpht1d]
      exact hconf
    unfold metaSuffixStep
    simp only [bind_apply, pure_apply, Bool.not_false, if_true, hconf', hplot, hbatch]
    show (EStateM.Result.ok (acc ++ [name ++ "_" ++ m])
        { t2 with nlp := t2.nlp.set p pht3 } :
        EStateM.Result PyErr OcpState (List String)) = _
    rw [ht2d, ht1d]
    simp only [List.set_set]
  · -- store preservation for other keys
    intro kk hkne hkS
    obtain ⟨hm', hx', hs'⟩ := hpres kk hkS
    refine ⟨?_, ?_, ?_⟩
    · rw [hm']
      show assocContains (assocSet pht.variable_mappings (name ++ "_" ++ m)
        (BiMapping.identityMap elems.length)) kk = _
      rw [assocContains_set_other _ _ _ _ hkne]
    · rw [hx']
    · rw [hs']
  · rw [f9]
    exact hcpd
  · rw [f9]
    exact hcni
  · rw [f9]
    exact hcsl
  · rw [f9]
    exact hcul
  · intro i hi
    rw [f9]
    exact hcout i hi
  · intro i hi
    rw [f9]
    exact hcin i hi

/-- The composite fake accessor is built whenever every requested key
resolves to a real element carrying a mapping; it appends exactly one fake
element under the requested name. -/
theorem appendFakedOptimVar_ok (name : String) (L : OptimizationVariableList CExpr)
    (keys : List String)
    (hkeys : ∀ k ∈ keys, (k == "all") = false)
    (hfind : ∀ k ∈ keys, ∃ e, L.elements.find? (fun x => x.name == k) = some e ∧
      ∃ bm, e.mapping = some bm) :
    ∃ g, appendFakedOptimVar name L keys =
        .ok { L with fake_elements := L.fake_elements ++ [g] } ∧ g.name = name := by
  obtain ⟨comps, hcomps, -, -⟩ := exceptMapM_ok_of_forall
    (fun k => do
      let v ← L.getStr k
      match v.mapping with
      | none => Except.error (.attributeError "NoneType object has no attribute to_second")
      | some bm => Except.ok (v.index, v.mx, bm))
    (fun _ => True) keys
    (by
      intro k hk
      obtain ⟨e, hfe, bm, hbm⟩ := hfind k hk
      have hget : L.getStr k = .ok (e.toVar (some L)) := by
        unfold OptimizationVariableList.getStr
        rw [if_neg (by simp [hkeys k hk]), hfe]
      refine ⟨(e.index, e.mx, bm), ?_, trivial⟩
      show (do
        let v ← L.getStr k
        match v.mapping with
        | none => (Except.error (PyErr.attributeError
            "NoneType object has no attribute to_second") :
            Except PyErr (List Nat × List CExpr × BiMapping))
        | some bm => Except.ok (v.index, v.mx, bm)) = Except.ok (e.index, e.mx, bm)
      rw [hget]
      show (match e.mapping with
        | none => (Except.error (PyErr.attributeError
            "NoneType object has no attribute to_second") :
            Except PyErr (List Nat × List CExpr × BiMapping))
        | some bm => Except.ok (e.index, e.mx, bm)) = _
      rw [hbm])
  unfold appendFakedOptimVar
  rw [hcomps]
  exact ⟨_, rfl, rfl⟩

/-- Publishing the composite accessor on one side of the controls container
succeeds at any in-range node index and only touches that node's list on
that side. -/
theorem fakeOnControls_ok (p : Nat) (side : ContainerSide) (name : String)
    (keys : List String) (t : OcpState) (pht : NonLinearProgram)
    (L : OptimizationVariableList CExpr)
    (hph : t.nlp.get? p = some pht)
    (hL : (match side with
      | .scaledSide => pht.controls.scaled
      | .unscaledSide => pht.controls.unscaled).get? pht.controls.node_index = some L)
    (hkeys : ∀ k ∈ keys, (k == "all") = false)
    (hfind : ∀ k ∈ keys, ∃ e, L.elements.find? (fun x => x.name == k) = some e ∧
      ∃ bm, e.mapping = some bm) :
    ∃ g, fakeOnControls p side name keys t = .ok ⟨⟩
        { t with
          nlp := t.nlp.set p
            { pht with
              controls := match side with
                | .scaledSide => { pht.controls with
                    scaled := pht.controls.scaled.set pht.controls.node_index
                      { L with fake_elements := L.fake_elements ++ [g] } }
                | .unscaledSide => { pht.controls with
                    unscaled := pht.controls.unscaled.set pht.controls.node_index
                      { L with fake_elements := L.fake_elements ++ [g] } } } }
      ∧ g.name = name := by
  have hph' : t.nlp[p]? = some pht := get_some_of_get? hph
  obtain ⟨g, happ, hgname⟩ := appendFakedOptimVar_ok name L keys hkeys hfind
  refine ⟨g, ?_, hgname⟩
  unfold fakeOnControls
  cases side with
  | scaledSide =>
    simp only [bind_apply, getNlp_apply, hph, hph']
    rw [show (match ContainerSide.scaledSide with
      | .scaledSide => pht.controls.scaled
      | .unscaledSide => pht.controls.unscaled) = pht.controls.scaled from rfl] at hL
    rw [hL]
    simp only [bind_apply, liftExcept_apply, happ, modifyNlp_apply, hph, hph']
  | unscaledSide =>
    simp only [bind_apply, getNlp_apply, hph, hph']
    rw [show (match ContainerSide.unscaledSide with
      | .scaledSide => pht.controls.scaled
      | .unscaledSide => pht.controls.unscaled) = pht.controls.unscaled from rfl] at hL
    rw [hL]
    simp only [bind_apply, liftExcept_apply, happ, modifyNlp_apply, hph, hph']

/-- One iteration of the fake-accessor loop in split-controls mode: point
the (per-node) controls container at the node, then append one composite
fake accessor on its scaled and unscaled lists. -/
theorem fakeNodeStep_ok (p : Nat) (name : String) (keys : List String) (i : Nat)
    (t : OcpState) (pht : NonLinearProgram)
    (Ls Lu : OptimizationVariableList CExpr)
    (hph : t.nlp.get? p = some pht)
    (hcdyn : pht.controls.phase_dynamics = .ONE_PER_NODE)
    (hLs : pht.controls.scaled.get? i = some Ls)
    (hLu : pht.controls.unscaled.get? i = some Lu)
    (hkeys : ∀ k ∈ keys, (k == "all") = false)
    (hfindS : ∀ k ∈ keys, ∃ e, Ls.elements.find? (fun x => x.name == k) = some e ∧
      ∃ bm, e.mapping = some bm)
    (hfindU : ∀ k ∈ keys, ∃ e, Lu.elements.find? (fun x => x.name == k) = some e ∧
      ∃ bm, e.mapping = some bm) :
    ∃ gs gu, fakeNodeStep p true name keys i t = .ok ⟨⟩
        { t with
          nlp := t.nlp.set p
            { pht with
              controls :=
                { pht.controls with
                  node_index := i
                  scaled := pht.controls.scaled.set i
                    { Ls with fake_elements := Ls.fake_elements ++ [gs] }
                  unscaled := pht.controls.unscaled.set i
                    { Lu with fake_elements := Lu.fake_elements ++ [gu] } } } }
      ∧ gs.name = name ∧ gu.name = name := by
  have hsetNI : pht.controls.setNodeIndex i = { pht.controls with node_index := i } := by
    unfold OptimizationVariableContainer.setNodeIndex
    simp [hcdyn]
  set phtA : NonLinearProgram := { pht with controls := { pht.controls with node_index := i } } with hAd
  set tA : OcpState := { t with nlp := t.nlp.set p phtA } with htAd
  have hgetA : tA.nlp.get? p = some phtA := list_get_set_self t.nlp p pht phtA hph
  have hstep1 : modifyNlp p (fun ph2 => { ph2 with
      controls := ph2.controls.setNodeIndex i }) t = .ok ⟨⟩ tA := by
    rw [htAd, hAd]
    simp only [modifyNlp_apply, hph]
    rw [hsetNI]
  obtain ⟨gs, hfs, hgs⟩ := fakeOnControls_ok p .scaledSide name keys tA phtA Ls hgetA
    (by exact hLs) hkeys hfindS
  set Ls' : OptimizationVariableList CExpr := { Ls with fake_elements := Ls.fake_elements ++ [gs] } with hLs'd
  set phtB : NonLinearProgram := { pht with controls := { pht.controls with node_index := i, scaled := pht.controls.scaled.set i Ls' } } with hBd
  set tB : OcpState := { tA with nlp := tA.nlp.set p phtB } with htBd
  have hgetB : tB.nlp.get? p = some phtB := list_get_set_self tA.nlp p phtA phtB hgetA
  have hfs' : fakeOnControls p .scaledSide name keys tA = .ok ⟨⟩ tB := by
    rw [htBd, hBd]
    exact hfs
  obtain ⟨gu, hfu, hgu⟩ := fakeOnControls_ok p .unscaledSide name keys tB phtB Lu hgetB
    (by exact hLu) hkeys hfindU
  set Lu' : OptimizationVariableList CExpr := { Lu with fake_elements := Lu.fake_elements ++ [gu] } with hLu'd
  set phtC : NonLinearProgram := { pht with controls := { pht.controls with node_index := i, scaled := pht.controls.scaled.set i Ls', unscaled := pht.controls.unscaled.set i Lu' } } with hCd
  set tC : OcpState := { tB with nlp := tB.nlp.set p phtC } with htCd
  have hfu' : fakeOnControls p .unscaledSide name keys tB = .ok ⟨⟩ tC := by
    rw [htCd, hCd]
    exact hfu
  refine ⟨gs, gu, ?_, hgs, hgu⟩
  unfold fakeNodeStep
  simp only [bind_apply, hstep1, if_true, hfs', hfu']
  show (EStateM.Result.ok PUnit.unit tC : EStateM.Result PyErr OcpState PUnit) = _
  rw [htCd, htBd, htAd]
  simp only [List.set_set]

/-- The fake-accessor loop over a set of node indices: each listed node's
scaled and unscaled controls lists gain exactly one composite fake accessor
under the requested name; other nodes are untouched. -/
theorem fakeLoop_nodes_ok (p : Nat) (name : String) (keys : List String)
    (hkeys : ∀ k ∈ keys, (k == "all") = false) :
    ∀ (l : List Nat) (t : OcpState) (pht : NonLinearProgram),
      l.Nodup →
      t.nlp.get? p = some pht →
      pht.controls.phase_dynamics = .ONE_PER_NODE →
      (∀ i ∈ l, ∃ Ls Lu,
        pht.controls.scaled.get? i = some Ls ∧
        pht.controls.unscaled.get? i = some Lu ∧
        (∀ k ∈ keys, ∃ e, Ls.elements.find? (fun x => x.name == k) = some e ∧
          ∃ bm, e.mapping = some bm) ∧
        (∀ k ∈ keys, ∃ e, Lu.elements.find? (fun x => x.name == k) = some e ∧
          ∃ bm, e.mapping = some bm)) →
      ∃ c'', (l.forM (fakeNodeStep p true name keys)) t =
          .ok ⟨⟩ { t with nlp := t.nlp.set p { pht with controls := c'' } }
        ∧ c''.phase_dynamics = pht.controls.phase_dynamics
        ∧ c''.scaled.length = pht.controls.scaled.length
        ∧ c''.unscaled.length = pht.controls.unscaled.length
        ∧ (∀ i, i ∉ l → c''.scaled.get? i = pht.controls.scaled.get? i ∧
            c''.unscaled.get? i = pht.controls.unscaled.get? i)
        ∧ (∀ i ∈ l, ∃ Ls Lu gs gu,
            pht.controls.scaled.get? i = some Ls ∧
            pht.controls.unscaled.get? i = some Lu ∧
            c''.scaled.get? i =
              some { Ls with fake_elements := Ls.fake_elements ++ [gs] } ∧
            c''.unscaled.get? i =
              some { Lu with fake_elements := Lu.fake_elements ++ [gu] } ∧
            gs.name = name ∧ gu.name = name) := by
  intro l
  induction l with
  | nil =>
    intro t pht _ hph _ _
    refine ⟨pht.controls, ?_, rfl, rfl, rfl, fun i _ => ⟨rfl, rfl⟩, by simp⟩
    have hset : t.nlp.set p pht = t.nlp := list_set_get_self t.nlp p pht hph
    show (pure PUnit.unit : CfgM PUnit) t = _
    show EStateM.Result.ok PUnit.unit t = EStateM.Result.ok PUnit.unit
      { t with nlp := t.nlp.set p pht }
    rw [hset]
  | cons i rest ih =>
    intro t pht hnodup hph hcdyn hF
    obtain ⟨Ls, Lu, hLs, hLu, hfindS, hfindU⟩ := hF i (by simp)
    obtain ⟨gs, gu, hstep, hgs, hgu⟩ := fakeNodeStep_ok p name keys i t pht Ls Lu hph
      hcdyn hLs hLu hkeys hfindS hfindU
    set Ls' : OptimizationVariableList CExpr := { Ls with fake_elements := Ls.fake_elements ++ [gs] } with hLs'd
    set Lu' : OptimizationVariableList CExpr := { Lu with fake_elements := Lu.fake_elements ++ [gu] } with hLu'd
    set cNew : OptimizationVariableContainer := { pht.controls with node_index := i, scaled := pht.controls.scaled.set i Ls', unscaled := pht.controls.unscaled.set i Lu' } with hcNewd
    set pht1 : NonLinearProgram := { pht with controls := cNew } with hpht1d
    set t1 : OcpState := { t with nlp := t.nlp.set p pht1 } with ht1d
    have hget1 : t1.nlp.get? p = some pht1 := list_get_set_self t.nlp p pht pht1 hph
    have hi_rest : i ∉ rest := (List.nodup_cons.mp hnodup).1
    obtain ⟨c'', hrun, hdyn2, hsl2, hul2, hout2, hin2⟩ := ih t1 pht1
      ((List.nodup_cons.mp hnodup).2) hget1 (by exact hcdyn)
      (by
        intro j hj
        have hji : j ≠ i := fun h => hi_rest (h ▸ hj)
        obtain ⟨Ls2, Lu2, hLs2, hLu2, hfS2, hfU2⟩ := hF j (by simp [hj])
        refine ⟨Ls2, Lu2, ?_, ?_, hfS2, hfU2⟩
        · show (pht.controls.scaled.set i Ls').get? j = some Ls2
          rw [List.get?_set_ne Ls' pht.controls.scaled (fun h => hji h.symm)]
          exact hLs2
        · show (pht.controls.unscaled.set i Lu').get? j = some Lu2
          rw [List.get?_set_ne Lu' pht.controls.unscaled (fun h => hji h.symm)]
          exact hLu2)
    refine ⟨c'', ?_, ?_, ?_, ?_, ?_, ?_⟩
    · rw [list_forM_cons, bind_apply]
      have hstep' : fakeNodeStep p true name keys i t = .ok ⟨⟩ t1 := by
        rw [ht1d, hpht1d, hcNewd]
        exact hstep
      rw [hstep']
      show (rest.forM (fakeNodeStep p true name keys)) t1 = _
      rw [hrun, ht1d]
      simp only [List.set_set]
    · exact hdyn2
    · rw [hsl2]
      show (pht.controls.scaled.set i Ls').length = _
      exact List.length_set pht.controls.scaled i Ls'
    · rw [hul2]
      show (pht.controls.unscaled.set i Lu').length = _
      exact List.length_set pht.controls.unscaled i Lu'
    · intro j hj
      have hjne : j ≠ i := fun h => hj (by simp [h])
      have hjrest : j ∉ rest := fun h => hj (by simp [h])
      obtain ⟨ho1, ho2⟩ := hout2 j hjrest
      constructor
      · rw [ho1]
        show (pht.controls.scaled.set i Ls').get? j = _
        rw [List.get?_set_ne Ls' pht.controls.scaled (fun h => hjne h.symm)]
      · rw [ho2]
        show (pht.controls.unscaled.set i Lu').get? j = _
        rw [List.get?_set_ne Lu' pht.controls.unscaled (fun h => hjne h.symm)]
    · intro j hj
      rcases List.mem_cons.mp hj with rfl | hjrest
      · obtain ⟨ho1, ho2⟩ := hout2 j hi_rest
        refine ⟨Ls, Lu, gs, gu, hLs, hLu, ?_, ?_, hgs, hgu⟩
        · rw [ho1]
          show (pht.controls.scaled.set j Ls').get? j = some Ls'
          exact list_get_set_self pht.controls.scaled j Ls Ls' hLs
        · rw [ho2]
          show (pht.controls.unscaled.set j Lu').get? j = some Lu'
          exact list_get_set_self pht.controls.unscaled j Lu Lu' hLu
      · have hji : j ≠ i := fun h => hi_rest (h ▸ hjrest)
        obtain ⟨Ls2, Lu2, gs2, gu2, hLs2, hLu2, hc1, hc2, hn1, hn2⟩ := hin2 j hjrest
        refine ⟨Ls2, Lu2, gs2, gu2, ?_, ?_, hc1, hc2, hn1, hn2⟩
        · rw [← hLs2]
          show pht.controls.scaled.get? j = (pht.controls.scaled.set i Ls').get? j
          rw [List.get?_set_ne Ls' pht.controls.scaled (Ne.symm hji)]
        · rw [← hLu2]
          show pht.controls.unscaled.get? j = (pht.controls.unscaled.set i Lu').get? j
          rw [List.get?_set_ne Lu' pht.controls.unscaled (Ne.symm hji)]

theorem find?_name_append_first (l : List (OptimizationVariableEntry CExpr))
    (e1 e2 : OptimizationVariableEntry CExpr) (k : String)
    (hcl : ∀ e ∈ l, e.name ≠ k) (h1 : e1.name = k) :
    ((l ++ [e1]) ++ [e2]).find? (fun x => x.name == k) = some e1 := by
  rw [List.find?_append, List.find?_append]
  have hnone : l.find? (fun x => x.name == k) = none := by
    rw [List.find?_eq_none]
    intro e he
    simp [hcl e he]
  rw [hnone]
  simp [h1]

theorem find?_name_append_second (l : List (OptimizationVariableEntry CExpr))
    (e1 e2 : OptimizationVariableEntry CExpr) (k : String)
    (hcl : ∀ e ∈ l, e.name ≠ k) (h1 : e1.name ≠ k) (h2 : e2.name = k) :
    ((l ++ [e1]) ++ [e2]).find? (fun x => x.name == k) = some e2 := by
  rw [List.find?_append, List.find?_append]
  have hnone : l.find? (fun x => x.name == k) = none := by
    rw [List.find?_eq_none]
    intro e he
    simp [hcl e he]
  have h1' : (e1.name == k) = false := by simp [h1]
  rw [hnone]
  simp [h1', h2]

/-- A heterogeneous element makes the sub-model verification loop raise a
`ValueError` with the state untouched. -/
theorem homogeneityChecks_error (name : String) (fsuffix : List String) (mi sc : Bool)
    (s : OcpState) :
    ∀ (dofs : List FatigueDof),
      (∃ dof ∈ dofs, ∃ km ∈ dof.models.models,
        ¬(km.2.state_suffix = fsuffix ∧ dof.models.multi_interface = mi ∧
          dof.models.split_controls = sc)) →
      ∃ msg, homogeneityChecks name fsuffix mi sc dofs s = .error (.valueError msg) s := by
  have hbody : ∀ (dof : FatigueDof) (km : String × FatigueSubModel),
      ¬(km.2.state_suffix = fsuffix ∧ dof.models.multi_interface = mi ∧
        dof.models.split_controls = sc) →
      ∃ msg, (do
        if km.2.state_suffix != fsuffix then
          raise (.valueError ("Fatigue for " ++ name ++ " must be of all same types"))
        else pure ()
        if dof.models.multi_interface != mi then
          raise (.valueError "multi_interface must be the same for all the elements")
        else pure ()
        if dof.models.split_controls != sc then
          raise (.valueError "split_controls must be the same for all the elements")
        else pure ()) s = (.error (.valueError msg) s : EStateM.Result PyErr OcpState PUnit) := by
    intro dof km hk
    by_cases h1 : km.2.state_suffix = fsuffix
    · by_cases h2 : dof.models.multi_interface = mi
      · have h3 : dof.models.split_controls ≠ sc := fun h3 => hk ⟨h1, h2, h3⟩
        refine ⟨"split_controls must be the same for all the elements", ?_⟩
        have hb3 : (dof.models.split_controls != sc) = true := by simp [h3]
        simp [h1, h2, hb3]
      · refine ⟨"multi_interface must be the same for all the elements", ?_⟩
        have hb2 : (dof.models.multi_interface != mi) = true := by simp [h2]
        simp [h1, hb2]
    · refine ⟨"Fatigue for " ++ name ++ " must be of all same types", ?_⟩
      have hb1 : (km.2.state_suffix != fsuffix) = true := by simp [h1]
      simp [hb1]
  have hmodels : ∀ (dof : FatigueDof) (ms : List (String × FatigueSubModel)),
      (∃ km ∈ ms, ¬(km.2.state_suffix = fsuffix ∧ dof.models.multi_interface = mi ∧
        dof.models.split_controls = sc)) →
      ∃ msg, (ms.forM (fun km => do
        if km.2.state_suffix != fsuffix then
          raise (.valueError ("Fatigue for " ++ name ++ " must be of all same types"))
        else pure ()
        if dof.models.multi_interface != mi then
          raise (.valueError "multi_interface must be the same for all the elements")
        else pure ()
        if dof.models.split_controls != sc then
          raise (.valueError "split_controls must be the same for all the elements")
        else pure ())) s = .error (.valueError msg) s := by
    intro dof ms
    induction ms with
    | nil => intro h; simp at h
    | cons km rest ih =>
      intro h
      by_cases hk : km.2.state_suffix = fsuffix ∧ dof.models.multi_interface = mi ∧
          dof.models.split_controls = sc
      · obtain ⟨h1, h2, h3⟩ := hk
        have hok : (do
            if km.2.state_suffix != fsuffix then
              raise (.valueError ("Fatigue for " ++ name ++ " must be of all same types"))
            else pure ()
            if dof.models.multi_interface != mi then
              raise (.valueError "multi_interface must be the same for all the elements")
            else pure ()
            if dof.models.split_controls != sc then
              raise (.valueError "split_controls must be the same for all the elements")
            else pure ()) s = (.ok ⟨⟩ s : EStateM.Result PyErr OcpState PUnit) := by
          simp [h1, h2, h3]
        obtain ⟨msg, hrest⟩ := ih (by
          rcases h with ⟨km', hmem, hbad⟩
          rcases List.mem_cons.mp hmem with rfl | hmem'
          · exact absurd ⟨h1, h2, h3⟩ hbad
          · exact ⟨km', hmem', hbad⟩)
        refine ⟨msg, ?_⟩
        rw [list_forM_cons, bind_apply, hok]
        exact hrest
      · obtain ⟨msg, herr⟩ := hbody dof km hk
        exact ⟨msg, forM_error_of_head km rest _ s s _ herr⟩
  intro dofs
  induction dofs with
  | nil => intro h; simp at h
  | cons dof rest ih =>
    intro h
    by_cases hd : ∃ km ∈ dof.models.models,
        ¬(km.2.state_suffix = fsuffix ∧ dof.models.multi_interface = mi ∧
          dof.models.split_controls = sc)
    · obtain ⟨msg, herr⟩ := hmodels dof dof.models.models hd
      refine ⟨msg, ?_⟩
      unfold homogeneityChecks
      exact forM_error_of_head dof rest _ s s _ herr
    · have hall : ∀ km ∈ dof.models.models,
          km.2.state_suffix = fsuffix ∧ dof.models.multi_interface = mi ∧
          dof.models.split_controls = sc := by
        intro km hkm
        by_contra hbad
        exact hd ⟨km, hkm, hbad⟩
      have hok : (dof.models.models.forM (fun km => do
          if km.2.state_suffix != fsuffix then
            raise (.valueError ("Fatigue for " ++ name ++ " must be of all same types"))
          else pure ()
          if dof.models.multi_interface != mi then
            raise (.valueError "multi_interface must be the same for all the elements")
          else pure ()
          if dof.models.split_controls != sc then
            raise (.valueError "split_controls must be the same for all the elements")
          else pure ())) s = .ok ⟨⟩ s := by
        apply forM_ok_of_body_ok
        intro km hkm
        obtain ⟨h1, h2, h3⟩ := hall km hkm
        simp [h1, h2, h3]
      obtain ⟨msg, hrest⟩ := ih (by
        rcases h with ⟨dof', hmem, hbad⟩
        rcases List.mem_cons.mp hmem with rfl | hmem'
        · exact absurd hbad hd
        · exact ⟨dof', hmem', hbad⟩)
      refine ⟨msg, ?_⟩
      unfold homogeneityChecks
      rw [list_forM_cons, bind_apply, hok]
      exact hrest

/-- The complete fatigue expansion in split-controls mode with two
meta-suffixes: both underlying controls are registered (one real element
per node each), the per-node fake composite accessor is published under
the original name, and every other node is untouched. -/
theorem manageFatigue_split_expansion_ok (name m1 m2 : String)
    (elems : List String) (p : Nat) (s : OcpState) (ph : NonLinearProgram)
    (f : FatigueList) (fv : FatigueVar) (dof0 : FatigueDof) (sub0 : FatigueSubModel)
    (hph : s.nlp.get? p = some ph)
    (hth : s.n_threads ≤ 1)
    (hdyn : ph.phase_dynamics = .ONE_PER_NODE)
    (hcdyn : ph.controls.phase_dynamics = .ONE_PER_NODE)
    (hu1 : ph.use_states_from_phase_idx = some ph.phase_idx)
    (hu2 : ph.use_states_dot_from_phase_idx = some ph.phase_idx)
    (hu3 : ph.use_controls_from_phase_idx = some ph.phase_idx)
    (hfind : f.find? name = some fv)
    (hsuffix : fv.suffix = [m1, m2])
    (hdofs : fv.dofs.head? = some dof0)
    (hsub : assocFind? dof0.models.models m1 = some sub0)
    (hmulti : dof0.models.multi_interface = false)
    (hsplit : dof0.models.split_controls = true)
    (hhomog : ∀ dof ∈ fv.dofs, ∀ km ∈ dof.models.models,
      km.2.state_suffix = sub0.state_suffix ∧
      dof.models.multi_interface = dof0.models.multi_interface ∧
      dof.models.split_controls = dof0.models.split_controls)
    (hnodup : ((name ++ "_" ++ m1) :: (name ++ "_" ++ m2) ::
      (sub0.state_suffix.map (fun prm => name ++ "_" ++ m1 ++ "_" ++ prm) ++
       sub0.state_suffix.map (fun prm => name ++ "_" ++ m2 ++ "_" ++ prm))).Nodup)
    (habs : ∀ nm ∈ ((name ++ "_" ++ m1) :: (name ++ "_" ++ m2) ::
      (sub0.state_suffix.map (fun prm => name ++ "_" ++ m1 ++ "_" ++ prm) ++
       sub0.state_suffix.map (fun prm => name ++ "_" ++ m2 ++ "_" ++ prm))),
      assocContains ph.variable_mappings nm = false ∧
      assocContains ph.x_init nm = false ∧
      assocContains ph.u_init nm = false ∧
      assocContains ph.x_scaling nm = false ∧
      assocContains ph.u_scaling nm = false)
    (hbc : ∀ i < ph.n_controls_nodes,
      i < ph.controls.scaled.length ∧ i < ph.controls.unscaled.length)
    (hbs : ∀ i < ph.n_states_nodes,
      i < ph.states.scaled.length ∧ i < ph.states.unscaled.length)
    (hns : ph.ns ≤ ph.n_controls_nodes)
    (hclean : ∀ i L, (ph.controls.scaled.get? i = some L ∨
        ph.controls.unscaled.get? i = some L) →
      ∀ e ∈ L.elements, e.name ≠ name ++ "_" ++ m1 ∧ e.name ≠ name ++ "_" ++ m2)
    (hall1 : ((name ++ "_" ++ m1) == "all") = false)
    (hall2 : ((name ++ "_" ++ m2) == "all") = false) :
    ∃ ph', manageFatigueToNewVariable name elems p false true (some f) s =
        .ok true { s with nlp := s.nlp.set p ph' }
      ∧ ph'.controls.scaled.length = ph.controls.scaled.length
      ∧ ph'.controls.unscaled.length = ph.controls.unscaled.length
      ∧ (∀ i, ¬(i < ph.n_controls_nodes) →
          ph'.controls.scaled.get? i = ph.controls.scaled.get? i ∧
          ph'.controls.unscaled.get? i = ph.controls.unscaled.get? i)
      ∧ (∀ i, i < ph.n_controls_nodes → ∃ Ls Lu Ls' Lu' e1s e2s e1u e2u,
          ph.controls.scaled.get? i = some Ls ∧
          ph.controls.unscaled.get? i = some Lu ∧
          ph'.controls.scaled.get? i = some Ls' ∧
          ph'.controls.unscaled.get? i = some Lu' ∧
          e1s.name = name ++ "_" ++ m1 ∧ e2s.name = name ++ "_" ++ m2 ∧
          e1u.name = name ++ "_" ++ m1 ∧ e2u.name = name ++ "_" ++ m2 ∧
          Ls'.elements = Ls.elements ++ [e1s, e2s] ∧
          Lu'.elements = Lu.elements ++ [e1u, e2u] ∧
          (i < ph.ns →
            (∃ gs, gs.name = name ∧
              Ls'.fake_elements = Ls.fake_elements ++ [gs]) ∧
            (∃ gu, gu.name = name ∧
              Lu'.fake_elements = Lu.fake_elements ++ [gu])) ∧
          (¬(i < ph.ns) → Ls'.fake_elements = Ls.fake_elements ∧
            Lu'.fake_elements = Lu.fake_elements)) := by
  -- name disjointness facts
  obtain ⟨hn1nin, hrest1⟩ := List.nodup_cons.mp hnodup
  obtain ⟨hn2nin, hSS⟩ := List.nodup_cons.mp hrest1
  rw [List.nodup_append] at hSS
  obtain ⟨hS1nodup, hS2nodup, hdisj⟩ := hSS
  have hne12 : name ++ "_" ++ m1 ≠ name ++ "_" ++ m2 := by
    intro h
    exact hn1nin (by rw [h]; simp)
  have hne21 : name ++ "_" ++ m2 ≠ name ++ "_" ++ m1 := Ne.symm hne12
  have hn2S1 : ∀ prm ∈ sub0.state_suffix,
      name ++ "_" ++ m2 ≠ name ++ "_" ++ m1 ++ "_" ++ prm := by
    intro prm hprm h
    exact hn2nin (by
      rw [h]
      exact List.mem_append_left _
        (List.mem_map_of_mem (fun prm => name ++ "_" ++ m1 ++ "_" ++ prm) hprm))
  have hS2n1 : ∀ prm ∈ sub0.state_suffix,
      name ++ "_" ++ m2 ++ "_" ++ prm ≠ name ++ "_" ++ m1 := by
    intro prm hprm h
    exact hn1nin (by
      rw [← h]
      exact List.mem_cons_of_mem _ (List.mem_append_right _
        (List.mem_map_of_mem (fun prm => name ++ "_" ++ m2 ++ "_" ++ prm) hprm)))
  have hS2S1 : ∀ prm ∈ sub0.state_suffix, ∀ prm1 ∈ sub0.state_suffix,
      name ++ "_" ++ m2 ++ "_" ++ prm ≠ name ++ "_" ++ m1 ++ "_" ++ prm1 := by
    intro prm hprm prm1 hprm1 h
    exact hdisj
      (List.mem_map_of_mem (fun x => name ++ "_" ++ m1 ++ "_" ++ x) hprm1)
      (by
        show name ++ "_" ++ m1 ++ "_" ++ prm1 ∈
          List.map (fun prm => name ++ "_" ++ m2 ++ "_" ++ prm) sub0.state_suffix
        rw [← h]
        exact List.mem_map_of_mem (fun x => name ++ "_" ++ m2 ++ "_" ++ x) hprm)
  -- membership shorthands into the fresh-name list
  have memn1 : name ++ "_" ++ m1 ∈ ((name ++ "_" ++ m1) :: (name ++ "_" ++ m2) ::
      (sub0.state_suffix.map (fun prm => name ++ "_" ++ m1 ++ "_" ++ prm) ++
       sub0.state_suffix.map (fun prm => name ++ "_" ++ m2 ++ "_" ++ prm))) := by simp
  have memn2 : name ++ "_" ++ m2 ∈ ((name ++ "_" ++ m1) :: (name ++ "_" ++ m2) ::
      (sub0.state_suffix.map (fun prm => name ++ "_" ++ m1 ++ "_" ++ prm) ++
       sub0.state_suffix.map (fun prm => name ++ "_" ++ m2 ++ "_" ++ prm))) := by simp
  have memS1 : ∀ prm ∈ sub0.state_suffix, name ++ "_" ++ m1 ++ "_" ++ prm ∈
      ((name ++ "_" ++ m1) :: (name ++ "_" ++ m2) ::
      (sub0.state_suffix.map (fun prm => name ++ "_" ++ m1 ++ "_" ++ prm) ++
       sub0.state_suffix.map (fun prm => name ++ "_" ++ m2 ++ "_" ++ prm))) := by
    intro prm hprm
    exact List.mem_cons_of_mem _ (List.mem_cons_of_mem _ (List.mem_append_left _
      (List.mem_map_of_mem (fun x => name ++ "_" ++ m1 ++ "_" ++ x) hprm)))
  have memS2 : ∀ prm ∈ sub0.state_suffix, name ++ "_" ++ m2 ++ "_" ++ prm ∈
      ((name ++ "_" ++ m1) :: (name ++ "_" ++ m2) ::
      (sub0.state_suffix.map (fun prm => name ++ "_" ++ m1 ++ "_" ++ prm) ++
       sub0.state_suffix.map (fun prm => name ++ "_" ++ m2 ++ "_" ++ prm))) := by
    intro prm hprm
    exact List.mem_cons_of_mem _ (List.mem_cons_of_mem _ (List.mem_append_right _
      (List.mem_map_of_mem (fun x => name ++ "_" ++ m2 ++ "_" ++ x) hprm)))
  have hifc : (if ph.phase_dynamics == .ONE_PER_NODE then ph.n_controls_nodes else 1) =
      ph.n_controls_nodes := by rw [hdyn]; simp
  have hifs : (if ph.phase_dynamics == .ONE_PER_NODE then ph.n_states_nodes else 1) =
      ph.n_states_nodes := by rw [hdyn]; simp
  -- the two plot registrations
  set ph1 : NonLinearProgram := { ph with plot := if ph.plot.contains ("fatigue_" ++ name) then ph.plot else ph.plot ++ ["fatigue_" ++ name] } with hph1d
  set s1 : OcpState := { s with nlp := s.nlp.set p ph1 } with hs1d
  have hget1 : s1.nlp.get? p = some ph1 := list_get_set_self s.nlp p ph ph1 hph
  have hplot1 : addPlotM p ("fatigue_" ++ name) s = .ok ⟨⟩ s1 := by
    rw [hs1d, hph1d]
    exact addPlotM_ok p ("fatigue_" ++ name) s ph hph
  set ph2 : NonLinearProgram := { ph1 with plot := if ph1.plot.contains (name ++ "_controls") then ph1.plot else ph1.plot ++ [name ++ "_controls"] } with hph2d
  set s2 : OcpState := { s1 with nlp := s1.nlp.set p ph2 } with hs2d
  have hget2 : s2.nlp.get? p = some ph2 := list_get_set_self s1.nlp p ph1 ph2 hget1
  have hplot2 : addPlotM p (name ++ "_controls") s1 = .ok ⟨⟩ s2 := by
    rw [hs2d, hph2d]
    exact addPlotM_ok p (name ++ "_controls") s1 ph1 hget1
  -- homogeneity check in the rewritten flag phrasing
  have hhomogR : homogeneityChecks name sub0.state_suffix false true fv.dofs s =
      .ok ⟨⟩ s :=
    homogeneityChecks_ok name sub0.state_suffix false true fv.dofs
      (fun dof hdof km hkm => ⟨(hhomog dof hdof km hkm).1,
        (hhomog dof hdof km hkm).2.1.trans hmulti,
        (hhomog dof hdof km hkm).2.2.trans hsplit⟩) s
  -- first meta-suffix iteration
  obtain ⟨phA, hrun1, a1, a2, a3, a4, a5, a6, a7, a8, a9, a10, a11, a12, a13, a14,
    a15, a16, a17, a18, a19⟩ :=
    metaSuffixStep_split_ok name elems p m1 0 [] sub0.state_suffix s2 ph2 hget2 hth
      hu1 hu2 hu3
      ((habs _ memn1).1) ((habs _ memn1).2.2.1) ((habs _ memn1).2.2.2.2)
      hS1nodup
      (fun prm hprm => ⟨(habs _ (memS1 prm hprm)).1, (habs _ (memS1 prm hprm)).2.1,
        (habs _ (memS1 prm hprm)).2.2.2.1⟩)
      (by
        intro i hi
        have hi2 : i < (if ph.phase_dynamics == .ONE_PER_NODE then
            ph.n_controls_nodes else 1) := hi
        rw [hifc] at hi2
        exact hbc i hi2)
      (by
        intro i hi
        have hi2 : i < (if ph.phase_dynamics == .ONE_PER_NODE then
            ph.n_states_nodes else 1) := hi
        rw [hifs] at hi2
        exact hbs i hi2)
  set t3 : OcpState := { s2 with nlp := s2.nlp.set p phA } with ht3d
  have hget3 : t3.nlp.get? p = some phA := list_get_set_self s2.nlp p ph2 phA hget2
  have hrun1' : metaSuffixStep name elems p false true false true sub0.state_suffix
      [] (0, m1) s2 = .ok ([] ++ [name ++ "_" ++ m1]) t3 := by
    rw [ht3d]
    exact hrun1
  -- index transports for the second iteration
  have hifA : (if phA.phase_dynamics == .ONE_PER_NODE then phA.n_controls_nodes
      else 1) = ph.n_controls_nodes := by
    rw [a2, a8]
    exact hifc
  have hifAs : (if phA.phase_dynamics == .ONE_PER_NODE then phA.n_states_nodes
      else 1) = ph.n_states_nodes := by
    rw [a2, a7]
    exact hifs
  -- second meta-suffix iteration
  obtain ⟨phB, hrun2, b1, b2, b3, b4, b5, b6, b7, b8, b9, b10, b11, b12, b13, b14,
    b15, b16, b17, b18, b19⟩ :=
    metaSuffixStep_split_ok name elems p m2 1 ([] ++ [name ++ "_" ++ m1])
      sub0.state_suffix t3 phA hget3 hth
      (by rw [a3, a1]; exact hu1)
      (by rw [a4, a1]; exact hu2)
      (by rw [a5, a1]; exact hu3)
      (by
        rw [(a13 (name ++ "_" ++ m2) hne21 hn2S1).1]
        exact (habs _ memn2).1)
      (by
        rw [a11, assocContains_set_other _ _ _ _ hne21]
        exact (habs _ memn2).2.2.1)
      (by
        rw [a12, assocContains_set_other _ _ _ _ hne21]
        exact (habs _ memn2).2.2.2.2)
      hS2nodup
      (by
        intro prm hprm
        obtain ⟨hpv, hpx, hpxs⟩ := a13 (name ++ "_" ++ m2 ++ "_" ++ prm)
          (hS2n1 prm hprm) (fun prm1 h1 => hS2S1 prm hprm prm1 h1)
        exact ⟨by rw [hpv]; exact (habs _ (memS2 prm hprm)).1,
          by rw [hpx]; exact (habs _ (memS2 prm hprm)).2.1,
          by rw [hpxs]; exact (habs _ (memS2 prm hprm)).2.2.2.1⟩)
      (by
        intro i hi
        rw [hifA] at hi
        rw [a16, a17]
        exact hbc i hi)
      (by
        intro i hi
        rw [hifAs] at hi
        rw [a9, a10]
        exact hbs i hi)
  set t4 : OcpState := { t3 with nlp := t3.nlp.set p phB } with ht4d
  have hget4 : t4.nlp.get? p = some phB := list_get_set_self t3.nlp p phA phB hget3
  have hrun2' : metaSuffixStep name elems p false true false true sub0.state_suffix
      ([] ++ [name ++ "_" ++ m1]) (1, m2) t3 =
      .ok (([] ++ [name ++ "_" ++ m1]) ++ [name ++ "_" ++ m2]) t4 := by
    rw [ht4d]
    exact hrun2
  -- the whole meta-suffix fold
  have hfold : List.foldlM (metaSuffixStep name elems p false true false true
      sub0.state_suffix) [] (List.enum [m1, m2]) s2 =
      .ok (([] ++ [name ++ "_" ++ m1]) ++ [name ++ "_" ++ m2]) t4 := by
    have henum : (List.enum [m1, m2] : List (Nat × String)) = [(0, m1), (1, m2)] := rfl
    rw [henum, list_foldlM_cons, bind_apply, hrun1']
    show List.foldlM (metaSuffixStep name elems p false true false true
      sub0.state_suffix) ([] ++ [name ++ "_" ++ m1]) [(1, m2)] t3 = _
    rw [list_foldlM_cons, bind_apply, hrun2']
    show (pure (([] ++ [name ++ "_" ++ m1]) ++ [name ++ "_" ++ m2]) :
      CfgM (List String)) t4 = _
    rfl
  -- composed per-node facts at phB, and the fake loop
  have hifB : (if phB.phase_dynamics == .ONE_PER_NODE then phB.n_controls_nodes
      else 1) = ph.n_controls_nodes := by
    rw [b2, b8]
    exact hifA
  have hcdynB : phB.controls.phase_dynamics = .ONE_PER_NODE := by
    rw [b14, a14]
    exact hcdyn
  have hkeys : ∀ k ∈ (([] ++ [name ++ "_" ++ m1]) ++ [name ++ "_" ++ m2]),
      (k == "all") = false := by
    intro k hk
    simp only [List.nil_append, List.mem_append, List.mem_singleton] at hk
    rcases hk with rfl | rfl
    · exact hall1
    · exact hall2
  -- the composed two-append structure per node
  have hnode : ∀ i, i < ph.n_controls_nodes → ∃ Ls0 Lu0 LsB LuB e1s e2s e1u e2u,
      ph.controls.scaled.get? i = some Ls0 ∧
      ph.controls.unscaled.get? i = some Lu0 ∧
      phB.controls.scaled.get? i = some LsB ∧
      phB.controls.unscaled.get? i = some LuB ∧
      e1s.name = name ++ "_" ++ m1 ∧ e2s.name = name ++ "_" ++ m2 ∧
      e1u.name = name ++ "_" ++ m1 ∧ e2u.name = name ++ "_" ++ m2 ∧
      (∃ bm1, e1s.mapping = some bm1) ∧ (∃ bm2, e2s.mapping = some bm2) ∧
      (∃ bm3, e1u.mapping = some bm3) ∧ (∃ bm4, e2u.mapping = some bm4) ∧
      LsB.elements = (Ls0.elements ++ [e1s]) ++ [e2s] ∧
      LuB.elements = (Lu0.elements ++ [e1u]) ++ [e2u] ∧
      LsB.fake_elements = Ls0.fake_elements ∧
      LuB.fake_elements = Lu0.fake_elements := by
    intro i hi
    have hiA : i < (if phA.phase_dynamics == .ONE_PER_NODE then phA.n_controls_nodes
        else 1) := by rw [hifA]; exact hi
    have hi2 : i < (if ph.phase_dynamics == .ONE_PER_NODE then ph.n_controls_nodes
        else 1) := by rw [hifc]; exact hi
    obtain ⟨Ls0, Lu0, LsA, LuA, hLs0, hLu0, hLsA, hLuA, happ1s, happ1u⟩ := a19 i hi2
    obtain ⟨Ls1, Lu1, LsB, LuB, hLsA', hLuA', hLsB, hLuB, happ2s, happ2u⟩ := b19 i hiA
    have heqs : Ls1 = LsA := Option.some.inj (hLsA'.symm.trans hLsA)
    have hequ : Lu1 = LuA := Option.some.inj (hLuA'.symm.trans hLuA)
    subst heqs
    subst hequ
    obtain ⟨e1s, he1sn, he1sm, hel1s, hfk1s⟩ := happ1s
    obtain ⟨e1u, he1un, he1um, hel1u, hfk1u⟩ := happ1u
    obtain ⟨e2s, he2sn, he2sm, hel2s, hfk2s⟩ := happ2s
    obtain ⟨e2u, he2un, he2um, hel2u, hfk2u⟩ := happ2u
    exact ⟨Ls0, Lu0, LsB, LuB, e1s, e2s, e1u, e2u, hLs0, hLu0, hLsB, hLuB,
      he1sn, he2sn, he1un, he2un, ⟨_, he1sm⟩, ⟨_, he2sm⟩, ⟨_, he1um⟩, ⟨_, he2um⟩,
      by rw [hel2s, hel1s],
      by rw [hel2u, hel1u],
      hfk2s.trans hfk1s,
      hfk2u.trans hfk1u⟩
  obtain ⟨c'', hlooprun, l1, l2, l3, l4, l5⟩ := fakeLoop_nodes_ok p name
    (([] ++ [name ++ "_" ++ m1]) ++ [name ++ "_" ++ m2]) hkeys
    (List.range ph.ns) t4 phB (List.nodup_range _) hget4 hcdynB
    (by
      intro i hi
      have hilt : i < ph.ns := List.mem_range.mp hi
      have hic : i < ph.n_controls_nodes := lt_of_lt_of_le hilt hns
      obtain ⟨Ls0, Lu0, LsB, LuB, e1s, e2s, e1u, e2u, hLs0, hLu0, hLsB, hLuB,
        he1sn, he2sn, he1un, he2un, hm1s, hm2s, hm1u, hm2u, helS, helU, -, -⟩ :=
        hnode i hic
      have hcls : ∀ e ∈ Ls0.elements, e.name ≠ name ++ "_" ++ m1 ∧
          e.name ≠ name ++ "_" ++ m2 := hclean i Ls0 (Or.inl hLs0)
      have hclu : ∀ e ∈ Lu0.elements, e.name ≠ name ++ "_" ++ m1 ∧
          e.name ≠ name ++ "_" ++ m2 := hclean i Lu0 (Or.inr hLu0)
      refine ⟨LsB, LuB, hLsB, hLuB, ?_, ?_⟩
      · intro k hk
        simp only [List.nil_append, List.mem_append, List.mem_singleton] at hk
        rcases hk with rfl | rfl
        · refine ⟨e1s, ?_, hm1s⟩
          rw [helS]
          exact find?_name_append_first Ls0.elements e1s e2s _
            (fun e he => (hcls e he).1) he1sn
        · refine ⟨e2s, ?_, hm2s⟩
          rw [helS]
          exact find?_name_append_second Ls0.elements e1s e2s _
            (fun e he => (hcls e he).2) (by rw [he1sn]; exact hne12) he2sn
      · intro k hk
        simp only [List.nil_append, List.mem_append, List.mem_singleton] at hk
        rcases hk with rfl | rfl
        · refine ⟨e1u, ?_, hm1u⟩
          rw [helU]
          exact find?_name_append_first Lu0.elements e1u e2u _
            (fun e he => (hclu e he).1) he1un
        · refine ⟨e2u, ?_, hm2u⟩
          rw [helU]
          exact find?_name_append_second Lu0.elements e1u e2u _
            (fun e he => (hclu e he).2) (by rw [he1un]; exact hne12) he2un)
  set phC : NonLinearProgram := { phB with controls := c'' } with hphCd
  set t5 : OcpState := { t4 with nlp := t4.nlp.set p phC } with ht5d
  have hget5 : t5.nlp.get? p = some phC := list_get_set_self t4.nlp p phB phC hget4
  have hnsB : phB.ns = ph.ns := by
    rw [b6, a6]
  have hloopB : (List.range phB.ns).forM (fakeNodeStep p true name
      (([] ++ [name ++ "_" ++ m1]) ++ [name ++ "_" ++ m2])) t4 = .ok ⟨⟩ t5 := by
    rw [hnsB, ht5d, hphCd]
    exact hlooprun
  set phD : NonLinearProgram := { phC with controls := phC.controls.setNodeIndex phC.states.node_index, states_dot := phC.states_dot.setNodeIndex phC.states.node_index } with hphDd
  set t6 : OcpState := { t5 with nlp := t5.nlp.set p phD } with ht6d
  have hmod : modifyNlp p (fun ph2 => { ph2 with
      controls := ph2.controls.setNodeIndex ph2.states.node_index
      states_dot := ph2.states_dot.setNodeIndex ph2.states.node_index }) t5 =
      .ok ⟨⟩ t6 := by
    rw [ht6d, hphDd]
    simp only [modifyNlp_apply, hget5]
  -- assemble the full fatigue-delegation run
  have hmain : manageFatigueToNewVariable name elems p false true (some f) s =
      .ok true t6 := by
    unfold manageFatigueToNewVariable
    have hcpnval : (if !false && true then name ++ "_controls" else name) =
        name ++ "_controls" := rfl
    simp only [hfind, Bool.not_true, Bool.false_eq_true, if_false, bind_apply,
      pure_apply, hdofs, hsuffix, List.head?_cons, hsub, hmulti, hsplit, hhomogR,
      hplot1, hcpnval, hplot2, hfold, getNlp_apply, hget4, hloopB, hmod]
  refine ⟨phD, ?_, ?_, ?_, ?_, ?_⟩
  · rw [hmain, ht6d, ht5d, ht4d, ht3d, hs2d, hs1d]
    simp only [List.set_set]
  · show c''.scaled.length = ph.controls.scaled.length
    rw [l2, b16, a16]
  · show c''.unscaled.length = ph.controls.unscaled.length
    rw [l3, b17, a17]
  · intro i hi
    have hiB : ¬(i < (if phB.phase_dynamics == .ONE_PER_NODE then
        phB.n_controls_nodes else 1)) := by rw [hifB]; exact hi
    have hiA : ¬(i < (if phA.phase_dynamics == .ONE_PER_NODE then
        phA.n_controls_nodes else 1)) := by rw [hifA]; exact hi
    have hi2 : ¬(i < (if ph.phase_dynamics == .ONE_PER_NODE then
        ph.n_controls_nodes else 1)) := by rw [hifc]; exact hi
    have hirange : i ∉ List.range ph.ns := by
      intro hmem
      exact hi (lt_of_lt_of_le (List.mem_range.mp hmem) hns)
    obtain ⟨ho1, ho2⟩ := l4 i hirange
    obtain ⟨hb1, hb2⟩ := b18 i hiA
    obtain ⟨ha1, ha2⟩ := a18 i hi2
    constructor
    · show c''.scaled.get? i = _
      rw [ho1, hb1, ha1]
    · show c''.unscaled.get? i = _
      rw [ho2, hb2, ha2]
  · intro i hi
    obtain ⟨Ls0, Lu0, LsB, LuB, e1s, e2s, e1u, e2u, hLs0, hLu0, hLsB, hLuB,
      he1sn, he2sn, he1un, he2un, -, -, -, -, helS, helU, hfkS, hfkU⟩ := hnode i hi
    by_cases hins : i < ph.ns
    · obtain ⟨LsX, LuX, gs, gu, hLsBX, hLuBX, hc1, hc2, hgsn, hgun⟩ :=
        l5 i (List.mem_range.mpr hins)
      have heqs : LsB = LsX := Option.some.inj (hLsB.symm.trans hLsBX)
      have hequ : LuB = LuX := Option.some.inj (hLuB.symm.trans hLuBX)
      subst heqs
      subst hequ
      refine ⟨Ls0, Lu0, { LsB with fake_elements := LsB.fake_elements ++ [gs] },
        { LuB with fake_elements := LuB.fake_elements ++ [gu] },
        e1s, e2s, e1u, e2u, hLs0, hLu0, ?_, ?_, he1sn, he2sn, he1un, he2un,
        ?_, ?_, ?_, ?_⟩
      · show c''.scaled.get? i = _
        exact hc1
      · show c''.unscaled.get? i = _
        exact hc2
      · show LsB.elements = Ls0.elements ++ [e1s, e2s]
        rw [helS, List.append_assoc]
        rfl
      · show LuB.elements = Lu0.elements ++ [e1u, e2u]
        rw [helU, List.append_assoc]
        rfl
      · intro _
        exact ⟨⟨gs, hgsn, by rw [hfkS]⟩, ⟨gu, hgun, by rw [hfkU]⟩⟩
      · intro hnot
        exact absurd hins hnot
    · have hirange : i ∉ List.range ph.ns := fun hmem =>
        hins (List.mem_range.mp hmem)
      obtain ⟨ho1, ho2⟩ := l4 i hirange
      refine ⟨Ls0, Lu0, LsB, LuB, e1s, e2s, e1u, e2u, hLs0, hLu0, ?_, ?_,
        he1sn, he2sn, he1un, he2un, ?_, ?_, ?_, ?_⟩
      · show c''.scaled.get? i = _
        rw [ho1]
        exact hLsB
      · show c''.unscaled.get? i = _
        rw [ho2]
        exact hLuB
      · rw [helS, List.append_assoc]
        rfl
      · rw [helU, List.append_assoc]
        rfl
      · intro hlt
        exact absurd hlt hins
      · intro _
        exact ⟨hfkS, hfkU⟩

/-- C4: a fatigue declaration on a control name with split controls and
exactly two meta-suffixes whose per-element sub-models are homogeneous
registers exactly two new real underlying control variables (one per
meta-suffix, named `name_suffix`) at every configured node, plus one fake
composite accessor under the original name at every node of the phase, in
both the scaled and unscaled controls lists; and when any element's
sub-model reports a suffix set different from the first element's, the
whole configuration fails with a `ValueError` before touching the state. -/
theorem fatigue_split_two_suffix_expansion_spec :
    (∀ (name m1 m2 : String) (elems : List String) (p : Nat) (s : OcpState)
      (ph : NonLinearProgram) (f : FatigueList) (fv : FatigueVar)
      (dof0 : FatigueDof) (sub0 : FatigueSubModel),
      s.nlp.get? p = some ph →
      s.n_threads ≤ 1 →
      ph.phase_dynamics = .ONE_PER_NODE →
      ph.controls.phase_dynamics = .ONE_PER_NODE →
      ph.use_states_from_phase_idx = some ph.phase_idx →
      ph.use_states_dot_from_phase_idx = some ph.phase_idx →
      ph.use_controls_from_phase_idx = some ph.phase_idx →
      f.find? name = some fv →
      fv.suffix = [m1, m2] →
      fv.dofs.head? = some dof0 →
      assocFind? dof0.models.models m1 = some sub0 →
      dof0.models.multi_interface = false →
      dof0.models.split_controls = true →
      (∀ dof ∈ fv.dofs, ∀ km ∈ dof.models.models,
        km.2.state_suffix = sub0.state_suffix ∧
        dof.models.multi_interface = dof0.models.multi_interface ∧
        dof.models.split_controls = dof0.models.split_controls) →
      ((name ++ "_" ++ m1) :: (name ++ "_" ++ m2) ::
        (sub0.state_suffix.map (fun prm => name ++ "_" ++ m1 ++ "_" ++ prm) ++
         sub0.state_suffix.map (fun prm => name ++ "_" ++ m2 ++ "_" ++ prm))).Nodup →
      (∀ nm ∈ ((name ++ "_" ++ m1) :: (name ++ "_" ++ m2) ::
        (sub0.state_suffix.map (fun prm => name ++ "_" ++ m1 ++ "_" ++ prm) ++
         sub0.state_suffix.map (fun prm => name ++ "_" ++ m2 ++ "_" ++ prm))),
        assocContains ph.variable_mappings nm = false ∧
        assocContains ph.x_init nm = false ∧
        assocContains ph.u_init nm = false ∧
        assocContains ph.x_scaling nm = false ∧
        assocContains ph.u_scaling nm = false) →
      (∀ i < ph.n_controls_nodes,
        i < ph.controls.scaled.length ∧ i < ph.controls.unscaled.length) →
      (∀ i < ph.n_states_nodes,
        i < ph.states.scaled.length ∧ i < ph.states.unscaled.length) →
      ph.ns ≤ ph.n_controls_nodes →
      (∀ i L, (ph.controls.scaled.get? i = some L ∨
          ph.controls.unscaled.get? i = some L) →
        ∀ e ∈ L.elements, e.name ≠ name ++ "_" ++ m1 ∧
          e.name ≠ name ++ "_" ++ m2) →
      ((name ++ "_" ++ m1) == "all") = false →
      ((name ++ "_" ++ m2) == "all") = false →
      ∃ ph', configureNewVariable name elems p false true false false (some f) none
          false false none s = .ok ⟨⟩ { s with nlp := s.nlp.set p ph' }
        ∧ ph'.controls.scaled.length = ph.controls.scaled.length
        ∧ ph'.controls.unscaled.length = ph.controls.unscaled.length
        ∧ (∀ i, ¬(i < ph.n_controls_nodes) →
            ph'.controls.scaled.get? i = ph.controls.scaled.get? i ∧
            ph'.controls.unscaled.get? i = ph.controls.unscaled.get? i)
        ∧ (∀ i, i < ph.n_controls_nodes → ∃ Ls Lu Ls' Lu' e1s e2s e1u e2u,
            ph.controls.scaled.get? i = some Ls ∧
            ph.controls.unscaled.get? i = some Lu ∧
            ph'.controls.scaled.get? i = some Ls' ∧
            ph'.controls.unscaled.get? i = some Lu' ∧
            e1s.name = name ++ "_" ++ m1 ∧ e2s.name = name ++ "_" ++ m2 ∧
            e1u.name = name ++ "_" ++ m1 ∧ e2u.name = name ++ "_" ++ m2 ∧
            Ls'.elements = Ls.elements ++ [e1s, e2s] ∧
            Lu'.elements = Lu.elements ++ [e1u, e2u] ∧
            (i < ph.ns →
              (∃ gs, gs.name = name ∧
                Ls'.fake_elements = Ls.fake_elements ++ [gs]) ∧
              (∃ gu, gu.name = name ∧
                Lu'.fake_elements = Lu.fake_elements ++ [gu])) ∧
            (¬(i < ph.ns) → Ls'.fake_elements = Ls.fake_elements ∧
              Lu'.fake_elements = Lu.fake_elements))) ∧
    (∀ (name m0 : String) (elems : List String) (p : Nat) (s : OcpState)
      (f : FatigueList) (fv : FatigueVar) (dof0 : FatigueDof)
      (sub0 : FatigueSubModel),
      f.find? name = some fv →
      fv.dofs.head? = some dof0 →
      fv.suffix.head? = some m0 →
      assocFind? dof0.models.models m0 = some sub0 →
      (∃ dof ∈ fv.dofs, ∃ km ∈ dof.models.models,
        km.2.state_suffix ≠ sub0.state_suffix) →
      ∃ msg, configureNewVariable name elems p false true false false (some f) none
          false false none s = .error (.valueError msg) s) := by
  constructor
  · intro name m1 m2 elems p s ph f fv dof0 sub0 hph hth hdyn hcdyn hu1 hu2 hu3
      hfind hsuffix hdofs hsub hmulti hsplit hhomog hnodup habs hbc hbs hns hclean
      hall1 hall2
    obtain ⟨ph', hrun, c1, c2, c3, c4⟩ := manageFatigue_split_expansion_ok name m1 m2
      elems p s ph f fv dof0 sub0 hph hth hdyn hcdyn hu1 hu2 hu3 hfind hsuffix hdofs
      hsub hmulti hsplit hhomog hnodup habs hbc hbs hns hclean hall1 hall2
    refine ⟨ph', ?_, c1, c2, c3, c4⟩
    have hcomb : checkCombineStateControlPlot false none s = .ok ⟨⟩ s := rfl
    unfold configureNewVariable
    simp only [bind_apply, hcomb, hrun, if_true, pure_apply]
  · intro name m0 elems p s f fv dof0 sub0 hfind hdofs hm0 hsub hhet
    obtain ⟨dof, hdofmem, km, hkmmem, hne⟩ := hhet
    obtain ⟨msg, herr⟩ := homogeneityChecks_error name sub0.state_suffix
      dof0.models.multi_interface dof0.models.split_controls s fv.dofs
      ⟨dof, hdofmem, km, hkmmem, fun hc => hne hc.1⟩
    refine ⟨msg, ?_⟩
    have hmf : manageFatigueToNewVariable name elems p false true (some f) s =
        .error (.valueError msg) s := by
      unfold manageFatigueToNewVariable
      simp only [hfind, Bool.not_true, Bool.false_eq_true, if_false, bind_apply,
        pure_apply, hdofs, hm0, hsub, herr]
    have hcomb : checkCombineStateControlPlot false none s = .ok ⟨⟩ s := rfl
    unfold configureNewVariable
    simp only [bind_apply, hcomb, hmf]

set_option maxHeartbeats 1000000 in
/-- Witness for C4 at a concrete one-node, one-phase problem: a fatigue
declaration on control "tau" with split controls and the two meta-suffixes
"a" and "b", plus a heterogeneous variant whose second scalar element
reports a different state-suffix set. -/
theorem fatigue_split_two_suffix_expansion_witness :
    (∃ ph', configureNewVariable "tau" ["0"] 0 false true false false
        (some ⟨[("tau", ⟨[⟨⟨[("a", ⟨[]⟩), ("b", ⟨[]⟩)], false, true⟩⟩], ["a", "b"]⟩)]⟩) none false false none
        ⟨1, 1,
      [{ phase_idx := 0, phase_dynamics := .ONE_PER_NODE,
          use_states_from_phase_idx := some 0, use_states_dot_from_phase_idx := some 0,
          use_controls_from_phase_idx := some 0, ns := 1, n_states_nodes := 1,
          n_controls_nodes := 1, control_type := .CONSTANT,
          ode_solver_n_required_cx := 0, variable_mappings := [], x_init := [],
          u_init := [], a_init := [], x_scaling := [], xdot_scaling := [],
          u_scaling := [], a_scaling := [],
          states := ⟨.ONE_PER_NODE, [{}], [{}], [[]], 0⟩,
          controls := ⟨.ONE_PER_NODE, [{}], [{}], [[]], 0⟩,
          states_dot := ⟨.ONE_PER_NODE, [{}], [{}], [[]], 0⟩,
          algebraic_states := ⟨.ONE_PER_NODE, [{}], [{}], [[]], 0⟩, plot := [] }]⟩ =
        .ok ⟨⟩ { (⟨1, 1,
      [{ phase_idx := 0, phase_dynamics := .ONE_PER_NODE,
          use_states_from_phase_idx := some 0, use_states_dot_from_phase_idx := some 0,
          use_controls_from_phase_idx := some 0, ns := 1, n_states_nodes := 1,
          n_controls_nodes := 1, control_type := .CONSTANT,
          ode_solver_n_required_cx := 0, variable_mappings := [], x_init := [],
          u_init := [], a_init := [], x_scaling := [], xdot_scaling := [],
          u_scaling := [], a_scaling := [],
          states := ⟨.ONE_PER_NODE, [{}], [{}], [[]], 0⟩,
          controls := ⟨.ONE_PER_NODE, [{}], [{}], [[]], 0⟩,
          states_dot := ⟨.ONE_PER_NODE, [{}], [{}], [[]], 0⟩,
          algebraic_states := ⟨.ONE_PER_NODE, [{}], [{}], [[]], 0⟩, plot := [] }]⟩ : OcpState) with
          nlp := (⟨1, 1,
      [{ phase_idx := 0, phase_dynamics := .ONE_PER_NODE,
          use_states_from_phase_idx := some 0, use_states_dot_from_phase_idx := some 0,
          use_controls_from_phase_idx := some 0, ns := 1, n_states_nodes := 1,
          n_controls_nodes := 1, control_type := .CONSTANT,
          ode_solver_n_required_cx := 0, variable_mappings := [], x_init := [],
          u_init := [], a_init := [], x_scaling := [], xdot_scaling := [],
          u_scaling := [], a_scaling := [],
          states := ⟨.ONE_PER_NODE, [{}], [{}], [[]], 0⟩,
          controls := ⟨.ONE_PER_NODE, [{}], [{}], [[]], 0⟩,
          states_dot := ⟨.ONE_PER_NODE, [{}], [{}], [[]], 0⟩,
          algebraic_states := ⟨.ONE_PER_NODE, [{}], [{}], [[]], 0⟩, plot := [] }]⟩ : OcpState).nlp.set 0 ph' }
      ∧ ph'.controls.scaled.length = 1
      ∧ ph'.controls.unscaled.length = 1
      ∧ (∀ i, i < 1 → ∃ Ls' Lu',
          ph'.controls.scaled.get? i = some Ls' ∧
          ph'.controls.unscaled.get? i = some Lu' ∧
          (∃ e1s e2s, e1s.name = "tau" ++ "_" ++ "a" ∧ e2s.name = "tau" ++ "_" ++ "b" ∧
            Ls'.elements = [e1s, e2s]) ∧
          (∃ gs, gs.name = "tau" ∧ Ls'.fake_elements = [gs]))) ∧
    (∃ msg, configureNewVariable "tau" ["0"] 0 false true false false
        (some ⟨[("tau", ⟨[⟨⟨[("a", ⟨[]⟩)], false, true⟩⟩, ⟨⟨[("a", ⟨["x"]⟩)], false, true⟩⟩], ["a"]⟩)]⟩) none false false none
        ⟨1, 0, []⟩ =
        .error (.valueError msg) ⟨1, 0, []⟩) := by
  have hmain := fatigue_split_two_suffix_expansion_spec
  constructor
  · obtain ⟨ph', hrun, hlen1, hlen2, hout, hin⟩ := hmain.1 "tau" "a" "b" ["0"] 0
      ⟨1, 1,
      [{ phase_idx := 0, phase_dynamics := .ONE_PER_NODE,
          use_states_from_phase_idx := some 0, use_states_dot_from_phase_idx := some 0,
          use_controls_from_phase_idx := some 0, ns := 1, n_states_nodes := 1,
          n_controls_nodes := 1, control_type := .CONSTANT,
          ode_solver_n_required_cx := 0, variable_mappings := [], x_init := [],
          u_init := [], a_init := [], x_scaling := [], xdot_scaling := [],
          u_scaling := [], a_scaling := [],
          states := ⟨.ONE_PER_NODE, [{}], [{}], [[]], 0⟩,
          controls := ⟨.ONE_PER_NODE, [{}], [{}], [[]], 0⟩,
          states_dot := ⟨.ONE_PER_NODE, [{}], [{}], [[]], 0⟩,
          algebraic_states := ⟨.ONE_PER_NODE, [{}], [{}], [[]], 0⟩, plot := [] }]⟩
      { phase_idx := 0, phase_dynamics := .ONE_PER_NODE,
          use_states_from_phase_idx := some 0, use_states_dot_from_phase_idx := some 0,
          use_controls_from_phase_idx := some 0, ns := 1, n_states_nodes := 1,
          n_controls_nodes := 1, control_type := .CONSTANT,
          ode_solver_n_required_cx := 0, variable_mappings := [], x_init := [],
          u_init := [], a_init := [], x_scaling := [], xdot_scaling := [],
          u_scaling := [], a_scaling := [],
          states := ⟨.ONE_PER_NODE, [{}], [{}], [[]], 0⟩,
          controls := ⟨.ONE_PER_NODE, [{}], [{}], [[]], 0⟩,
          states_dot := ⟨.ONE_PER_NODE, [{}], [{}], [[]], 0⟩,
          algebraic_states := ⟨.ONE_PER_NODE, [{}], [{}], [[]], 0⟩, plot := [] }
      ⟨[("tau", ⟨[⟨⟨[("a", ⟨[]⟩), ("b", ⟨[]⟩)], false, true⟩⟩], ["a", "b"]⟩)]⟩
      ⟨[⟨⟨[("a", ⟨[]⟩), ("b", ⟨[]⟩)], false, true⟩⟩], ["a", "b"]⟩
      ⟨⟨[("a", ⟨[]⟩), ("b", ⟨[]⟩)], false, true⟩⟩
      ⟨[]⟩
      (by decide) (by decide) (by decide) (by decide) (by decide) (by decide)
      (by decide) (by decide) (by decide) (by decide) (by decide) (by decide)
      (by decide) (by decide) (by decide) (by decide) (by decide) (by decide)
      (by decide)
      (by
        intro i L h e he
        have hL : L = ({} : OptimizationVariableList CExpr) := by
          rcases h with h | h <;>
            cases i with
            | zero =>
              have h'' : some ({} : OptimizationVariableList CExpr) = some L := h
              exact (Option.some.inj h'').symm
            | succ n =>
              have h'' : (none : Option (OptimizationVariableList CExpr)) = some L := h
              exact Option.noConfusion h''
        rw [hL] at he
        exact absurd he (List.not_mem_nil e))
      (by decide) (by decide)
    refine ⟨ph', hrun, hlen1, hlen2, ?_⟩
    intro i hi
    obtain ⟨Ls, Lu, Ls', Lu', e1s, e2s, e1u, e2u, hLs, hLu, hLs', hLu', hn1, hn2,
      hn3, hn4, hels, helu, hfk, -⟩ := hin i hi
    have hLsv : Ls = ({} : OptimizationVariableList CExpr) := by
      cases i with
      | zero =>
        have h'' : some ({} : OptimizationVariableList CExpr) = some Ls := hLs
        exact (Option.some.inj h'').symm
      | succ n => exact absurd hi (by omega)
    obtain ⟨⟨gs, hgs, hfks⟩, -⟩ := hfk hi
    refine ⟨Ls', Lu', hLs', hLu', ⟨e1s, e2s, hn1, hn2, ?_⟩, ⟨gs, hgs, ?_⟩⟩
    · rw [hels, hLsv]
      rfl
    · rw [hfks, hLsv]
      rfl
  · exact hmain.2 "tau" "a" ["0"] 0 ⟨1, 0, []⟩
      ⟨[("tau", ⟨[⟨⟨[("a", ⟨[]⟩)], false, true⟩⟩, ⟨⟨[("a", ⟨["x"]⟩)], false, true⟩⟩], ["a"]⟩)]⟩
      ⟨[⟨⟨[("a", ⟨[]⟩)], false, true⟩⟩, ⟨⟨[("a", ⟨["x"]⟩)], false, true⟩⟩], ["a"]⟩
      ⟨⟨[("a", ⟨[]⟩)], false, true⟩⟩
      ⟨[]⟩
      rfl rfl rfl rfl (by decide)

end Bioptim
